import Mathlib

/-!
Shallow embedding of the `always` design-by-contract engine (src/mod.ts).

The embedding models the check protocol over an explicit receiver-state type
`σ`, an embedded universe `JVal` of JavaScript values for arguments and
results, and a `PV` type distinguishing immediately available values
(`PV.sync`) from pending promise-like values (`PV.async`, recording the value
the promise settles to; scheduling is cooperative and deterministic, so a
settled promise is a value).  Side effects (predicate evaluations, the
original operation's invocation, trace emission, log lines) are recorded as an
explicit event list.
-/

namespace Always

/-- `FailureMode` from src/mod.ts line 3: `"log" | "throw"`. -/
inductive FailureMode
  | log
  | throw
deriving DecidableEq

/-- `setFailureMode` (src/mod.ts lines 8-12) over an explicit global cell:
given the requested mode and the current process-wide mode, return the
previous mode together with the new contents of the cell. -/
def setFailureMode (mode : FailureMode) (global : FailureMode) :
    FailureMode × FailureMode :=
  (global, mode)

/-- A `MaybePromise` value: either immediately available (`sync`) or a
promise-like pending value that settles to the payload (`async`). -/
inductive PV (α : Type)
  | sync (a : α)
  | async (a : α)
deriving DecidableEq

/-- The value a `MaybePromise` settles to (the result of `await`). -/
def PV.settle {α : Type} : PV α → α
  | .sync a => a
  | .async a => a

/-- `isPromiseLike` (src/mod.ts lines 67-70) on the embedded universe. -/
def PV.isAsync {α : Type} : PV α → Bool
  | .sync _ => false
  | .async _ => true

/-- Turn a value into a pending value settling to the same payload
(wrapping a predicate result in a promise). -/
def PV.toAsync {α : Type} : PV α → PV α
  | .sync a => .async a
  | .async a => .async a

/-- Embedded JavaScript values used for arguments, setter values and
results: the fragment of the dynamic universe the claims exercise. -/
inductive JVal
  | undef
  | null
  | bool (b : Bool)
  | num (n : Int)
  | str (s : String)
deriving DecidableEq

/-- Nullishness of an embedded value: `undefined` and `null` are the two
values the `??` operator skips over. -/
def JVal.isNullish : JVal → Bool
  | .undef => true
  | .null => true
  | _ => false

/-- One escaped character of `JSON.stringify` string rendering. -/
def jsonEscapeChar (c : Char) : String :=
  if c = '"' then "\\\""
  else if c = '\\' then "\\\\"
  else if c = '\n' then "\\n"
  else if c = '\t' then "\\t"
  else if c = '\r' then "\\r"
  else String.singleton c

/-- `JSON.stringify` of a string value: double-quoted, escaped. -/
def jsonQuote (s : String) : String :=
  "\"" ++ String.join (s.toList.map jsonEscapeChar) ++ "\""

/-- `formatValue` (src/mod.ts lines 34-61) restricted to the embedded value
universe: strings are rendered via `JSON.stringify` (double-quoted),
`undefined` and `null` literally, numbers and booleans by their JSON
rendering. -/
def formatValue : JVal → String
  | .undef => "undefined"
  | .null => "null"
  | .bool b => if b then "true" else "false"
  | .num n => toString n
  | .str s => jsonQuote s

/-- `formatArgs` (src/mod.ts lines 63-65): comma-joined rendering. -/
def formatArgs (args : List JVal) : String :=
  String.intercalate ", " (args.map formatValue)

/-- `TraceOption` (src/mod.ts line 2): a boolean flag or a user sink
function (the sink's identity is irrelevant to emission behavior). -/
inductive TraceOption
  | flag (b : Bool)
  | sink
deriving DecidableEq

/-- Whether `emitTrace` (src/mod.ts lines 113-128) emits an event: the
effective setting is `true` when the spec carries no trace field. -/
def traceEnabled : Option TraceOption → Bool
  | none => true
  | some (.flag b) => b
  | some .sink => true

/-- The shape of the info mapping handed to the trace sink:
`{ kind, class, name?, args?, value?, result? }` with absent keys as
`none`. -/
structure TraceInfo where
  kind : String
  cls : String
  name : Option String
  args : Option (List JVal)
  value : Option JVal
  result : Option JVal
deriving DecidableEq

/-- Protocol stages whose predicate evaluations we record. -/
inductive Stage
  | constantBefore
  | before
  | after
  | constantAfter
deriving DecidableEq

/-- Observable events of one wrapped invocation: a predicate evaluation at a
stage (with the asyncness of the produced value), the invocation of the
original operation (with the asyncness of its result), a trace event handed
to the sink, or a log line written by the failure channel. -/
inductive Ev
  | evalStage (st : Stage) (isAsync : Bool)
  | invoke (isAsync : Bool)
  | traceOut (info : TraceInfo)
  | logOut (msg : String)
deriving DecidableEq

/-- `emitTrace` as an event list. -/
def emitTrace (t : Option TraceOption) (info : TraceInfo) : List Ev :=
  if traceEnabled t then [.traceOut info] else []

/-- `handleFailure` (src/mod.ts lines 18-23) event part: in `log` mode a
prefixed diagnostic line is written; in `throw` mode nothing is written
(the error is thrown instead, which the callers model in their result). -/
def handleFailureEvs (fm : FailureMode) (msg : String) : List Ev :=
  match fm with
  | .throw => []
  | .log => [.logOut ("[always] " ++ msg)]

/-- `MethodFailureKind` (src/mod.ts lines 130-134). -/
inductive MKind
  | constantBefore
  | before
  | after
  | constantAfter
deriving DecidableEq

/-- The kind string carried by a method trace event. -/
def MKind.str : MKind → String
  | .constantBefore => "constant-before"
  | .before => "before"
  | .after => "after"
  | .constantAfter => "constant-after"

/-- `SetterFailureKind` (src/mod.ts lines 136-140). -/
inductive SKind
  | constantBefore
  | setterBefore
  | setterAfter
  | constantAfter
deriving DecidableEq

/-- The kind string carried by a setter trace event. -/
def SKind.str : SKind → String
  | .constantBefore => "constant-before"
  | .setterBefore => "setter-before"
  | .setterAfter => "setter-after"
  | .constantAfter => "constant-after"

/-- The info mapping built by `reportMethodFailure` (src/mod.ts lines
168-175): `{ kind, class, name, args }` plus `result` only when the result
argument is not `undefined`. -/
def methodInfo (kind : MKind) (cls label : String) (args : List JVal)
    (result : JVal) : TraceInfo :=
  { kind := kind.str, cls := cls, name := some label, args := some args,
    value := none,
    result := if result = .undef then none else some result }

/-- The failure message built by `reportMethodFailure` (src/mod.ts lines
178-189). -/
def methodFailureMessage (kind : MKind) (cls label : String)
    (args : List JVal) (result : JVal) : String :=
  let call := cls ++ "." ++ label ++ "(" ++ formatArgs args ++ ")"
  match kind with
  | .after => "After failed: " ++ call ++ " -> " ++ formatValue result
  | .constantAfter => "Constant failed after: " ++ call ++ " -> " ++ formatValue result
  | .constantBefore => "Constant failed before: " ++ call
  | .before => "Before failed: " ++ call

/-- `reportMethodFailure` (src/mod.ts lines 159-191): emit the trace event,
then consult the failure channel; returns the emitted events and the
message (thrown by the caller in `throw` mode). -/
def reportMethodFailure (kind : MKind) (t : Option TraceOption)
    (fm : FailureMode) (cls label : String) (args : List JVal)
    (result : JVal) : List Ev × String :=
  let msg := methodFailureMessage kind cls label args result
  (emitTrace t (methodInfo kind cls label args result) ++ handleFailureEvs fm msg,
   msg)

/-- The info mapping built by `reportSetterFailure` (src/mod.ts lines
202-209): `{ kind, class, name, value }` plus `result` only when not
`undefined`. -/
def setterInfo (kind : SKind) (cls label : String) (value : JVal)
    (result : JVal) : TraceInfo :=
  { kind := kind.str, cls := cls, name := some label, args := none,
    value := some value,
    result := if result = .undef then none else some result }

/-- The failure message built by `reportSetterFailure` (src/mod.ts lines
212-223). -/
def setterFailureMessage (kind : SKind) (cls label : String) (value : JVal)
    (result : JVal) : String :=
  let call := cls ++ ".set " ++ label ++ "(" ++ formatValue value ++ ")"
  match kind with
  | .setterAfter => "After failed: " ++ call ++ " -> " ++ formatValue result
  | .constantAfter => "Constant failed after: " ++ call ++ " -> " ++ formatValue result
  | .constantBefore => "Constant failed before: " ++ call
  | .setterBefore => "Before failed: " ++ call

/-- `reportSetterFailure` (src/mod.ts lines 193-225). -/
def reportSetterFailure (kind : SKind) (t : Option TraceOption)
    (fm : FailureMode) (cls label : String) (value : JVal)
    (result : JVal) : List Ev × String :=
  let msg := setterFailureMessage kind cls label value result
  (emitTrace t (setterInfo kind cls label value result) ++ handleFailureEvs fm msg,
   msg)

/-- `ResolvedSpec` (src/mod.ts lines 72-78) over receiver-state type `σ`:
predicates are pure functions of the call arguments, the result, and the
receiver state, returning a `MaybePromise` boolean.  A setter reuses the
same shape, invoking `before` on the one-element argument list `[value]`. -/
structure MSpec (σ : Type) where
  before : Option (List JVal → PV Bool)
  after : Option (JVal → List JVal → PV Bool)
  constant : Option (σ → PV Bool)
  trace : Option TraceOption
  failureMode : Option FailureMode

/-- An original method body: given the call arguments and receiver state,
produce the new receiver state and the (maybe pending) result. -/
def MethodOp (σ : Type) : Type := List JVal → σ → σ × PV JVal

/-- `AsyncMethodState` (src/mod.ts lines 142-148): stage results already
computed synchronously before handing over to the async continuation. -/
structure AState where
  constantBefore : Option (PV Bool)
  before : Option (PV Bool)
  result : Option (PV JVal)
  after : Option (PV Bool)
  constantAfter : Option (PV Bool)

/-- The empty handover state (no stage computed yet). -/
def AState.empty : AState :=
  { constantBefore := none, before := none, result := none, after := none,
    constantAfter := none }

/-- Equality of settled promise outcomes is decidable. -/
instance : DecidableEq (Except String JVal) := fun x y =>
  match x, y with
  | .ok a, .ok b =>
    if h : a = b then isTrue (by rw [h]) else isFalse (by simp [h])
  | .error a, .error b =>
    if h : a = b then isTrue (by rw [h]) else isFalse (by simp [h])
  | .ok _, .error _ => isFalse (by simp)
  | .error _, .ok _ => isFalse (by simp)

/-- The `log`/`throw` outcome of a failure inside the async continuation:
in `throw` mode the async function throws, rejecting the promise; in `log`
mode it returns `onLog`. -/
def failResultAsync (fm : FailureMode) (msg : String) (onLog : JVal) :
    Except String JVal :=
  match fm with
  | .throw => .error msg
  | .log => .ok onLog

/-- `runAsyncMethod`, invariant-after block (src/mod.ts lines 292-306,
followed by line 308): settle the cached invariant-after value if present,
else evaluate the invariant against the (post-invocation) receiver state. -/
def runAsyncFrom5 {σ : Type} (spec : MSpec σ) (cls label : String)
    (args : List JVal) (fm : FailureMode) (s : σ) (res : JVal)
    (initCA : Option (PV Bool)) : Except String JVal × σ × List Ev :=
  match spec.constant with
  | none => (.ok res, s, [])
  | some c =>
    let (pv, evs) := match initCA with
      | some pv => (pv, ([] : List Ev))
      | none => (c s, [Ev.evalStage .constantAfter (c s).isAsync])
    if pv.settle then (.ok res, s, evs)
    else
      let rep := reportMethodFailure .constantAfter spec.trace fm cls label args res
      (failResultAsync fm rep.2 res, s, evs ++ rep.1)

/-- `runAsyncMethod`, postcondition block (src/mod.ts lines 275-290):
settle the cached postcondition value if present, else evaluate the
postcondition on the resolved result and the arguments. -/
def runAsyncFrom4 {σ : Type} (spec : MSpec σ) (cls label : String)
    (args : List JVal) (fm : FailureMode) (s : σ) (res : JVal)
    (initAfter initCA : Option (PV Bool)) : Except String JVal × σ × List Ev :=
  match spec.after with
  | none => runAsyncFrom5 spec cls label args fm s res initCA
  | some a =>
    let (pv, evs) := match initAfter with
      | some pv => (pv, ([] : List Ev))
      | none => (a res args, [Ev.evalStage .after (a res args).isAsync])
    if pv.settle then
      let r := runAsyncFrom5 spec cls label args fm s res initCA
      (r.1, r.2.1, evs ++ r.2.2)
    else
      let rep := reportMethodFailure .after spec.trace fm cls label args res
      (failResultAsync fm rep.2 res, s, evs ++ rep.1)

/-- `runAsyncMethod`, invocation block (src/mod.ts lines 272-273):
`initial.result ?? original.apply(thisArg, args)`, then await.  The
coalescing is nullish: a cached promise (never nullish) is awaited, a
cached synchronous non-nullish value is reused, but a cached synchronous
`undefined` or `null` result does not short-circuit `??`, so the original
operation is invoked a second time. -/
def runAsyncFrom3 {σ : Type} (spec : MSpec σ) (op : MethodOp σ)
    (cls label : String) (args : List JVal) (fm : FailureMode) (s : σ)
    (initResult : Option (PV JVal)) (initAfter initCA : Option (PV Bool)) :
    Except String JVal × σ × List Ev :=
  let (res, s2, evs) := match initResult with
    | some (.async r) => (r, s, ([] : List Ev))
    | some (.sync r) =>
      if r.isNullish then
        let r2 := op args s
        (r2.2.settle, r2.1, [Ev.invoke r2.2.isAsync])
      else (r, s, ([] : List Ev))
    | none =>
      let r2 := op args s
      (r2.2.settle, r2.1, [Ev.invoke r2.2.isAsync])
  let r := runAsyncFrom4 spec cls label args fm s2 res initAfter initCA
  (r.1, r.2.1, evs ++ r.2.2)

/-- `runAsyncMethod`, precondition block (src/mod.ts lines 257-270). -/
def runAsyncFrom2 {σ : Type} (spec : MSpec σ) (op : MethodOp σ)
    (cls label : String) (args : List JVal) (fm : FailureMode) (s : σ)
    (initBefore : Option (PV Bool)) (initResult : Option (PV JVal))
    (initAfter initCA : Option (PV Bool)) : Except String JVal × σ × List Ev :=
  match spec.before with
  | none => runAsyncFrom3 spec op cls label args fm s initResult initAfter initCA
  | some b =>
    let (pv, evs) := match initBefore with
      | some pv => (pv, ([] : List Ev))
      | none => (b args, [Ev.evalStage .before (b args).isAsync])
    if pv.settle then
      let r := runAsyncFrom3 spec op cls label args fm s initResult initAfter initCA
      (r.1, r.2.1, evs ++ r.2.2)
    else
      let rep := reportMethodFailure .before spec.trace fm cls label args .undef
      (failResultAsync fm rep.2 .undef, s, evs ++ rep.1)

/-- `runAsyncMethod` (src/mod.ts lines 227-309): the await-based
continuation performing the five ordered steps, reusing any stage results
already computed synchronously (the `initial` state).  Returns the settled
promise outcome (resolution or rejection with the failure message), the
final receiver state, and the events of the continuation. -/
def runAsyncMethod {σ : Type} (spec : MSpec σ) (op : MethodOp σ)
    (cls label : String) (args : List JVal) (fm : FailureMode) (s : σ)
    (initial : AState) : Except String JVal × σ × List Ev :=
  match spec.constant with
  | none =>
    runAsyncFrom2 spec op cls label args fm s initial.before initial.result
      initial.after initial.constantAfter
  | some c =>
    let (pv, evs) := match initial.constantBefore with
      | some pv => (pv, ([] : List Ev))
      | none => (c s, [Ev.evalStage .constantBefore (c s).isAsync])
    if pv.settle then
      let r := runAsyncFrom2 spec op cls label args fm s initial.before
        initial.result initial.after initial.constantAfter
      (r.1, r.2.1, evs ++ r.2.2)
    else
      let rep := reportMethodFailure .constantBefore spec.trace fm cls label args .undef
      (failResultAsync fm rep.2 .undef, s, evs ++ rep.1)

/-- The value a wrapped synchronous call hands its caller: a synchronously
returned value, a synchronously thrown error, or a single pending result
(whose eventual resolution or rejection is recorded). -/
inductive MethodResult
  | syncVal (v : JVal)
  | syncThrown (msg : String)
  | asyncVal (e : Except String JVal)
deriving DecidableEq

/-- Whether the wrapped call completed without handing back a pending
value. -/
def MethodResult.isSync : MethodResult → Bool
  | .syncVal _ => true
  | .syncThrown _ => true
  | .asyncVal _ => false

/-- The settled outcome of a wrapped call: the returned value, or the
failure message it threw (synchronously or as a rejection). -/
def MethodResult.settled : MethodResult → Except String JVal
  | .syncVal v => .ok v
  | .syncThrown m => .error m
  | .asyncVal e => e

/-- The `log`/`throw` outcome of a failure on the synchronous path. -/
def failResultSync (fm : FailureMode) (msg : String) (onLog : JVal) :
    MethodResult :=
  match fm with
  | .throw => .syncThrown msg
  | .log => .syncVal onLog

/-- `wrapMethod`, invariant-after step of the synchronous path (src/mod.ts
lines 509-541). -/
def wrapMethodStage5 {σ : Type} (spec : MSpec σ) (op : MethodOp σ)
    (cls label : String) (args : List JVal) (fm : FailureMode) (s : σ)
    (res : JVal) : MethodResult × σ × List Ev :=
  match spec.constant with
  | none => (.syncVal res, s, [])
  | some c =>
    let pv := c s
    let ev : List Ev := [.evalStage .constantAfter pv.isAsync]
    match pv with
    | .async b =>
      let r := runAsyncMethod spec op cls label args fm s
        { constantBefore := some (.sync true),
          before := if spec.before.isSome then some (.sync true) else none,
          result := some (.sync res),
          after := if spec.after.isSome then some (.sync true) else none,
          constantAfter := some (.async b) }
      (.asyncVal r.1, r.2.1, ev ++ r.2.2)
    | .sync false =>
      let rep := reportMethodFailure .constantAfter spec.trace fm cls label args res
      (failResultSync fm rep.2 res, s, ev ++ rep.1)
    | .sync true => (.syncVal res, s, ev)

/-- `wrapMethod`, postcondition step of the synchronous path (src/mod.ts
lines 475-507). -/
def wrapMethodStage4 {σ : Type} (spec : MSpec σ) (op : MethodOp σ)
    (cls label : String) (args : List JVal) (fm : FailureMode) (s : σ)
    (res : JVal) : MethodResult × σ × List Ev :=
  match spec.after with
  | none => wrapMethodStage5 spec op cls label args fm s res
  | some a =>
    let pv := a res args
    let ev : List Ev := [.evalStage .after pv.isAsync]
    match pv with
    | .async b =>
      let r := runAsyncMethod spec op cls label args fm s
        { constantBefore := if spec.constant.isSome then some (.sync true) else none,
          before := if spec.before.isSome then some (.sync true) else none,
          result := some (.sync res),
          after := some (.async b),
          constantAfter := none }
      (.asyncVal r.1, r.2.1, ev ++ r.2.2)
    | .sync false =>
      let rep := reportMethodFailure .after spec.trace fm cls label args res
      (failResultSync fm rep.2 res, s, ev ++ rep.1)
    | .sync true =>
      let r := wrapMethodStage5 spec op cls label args fm s res
      (r.1, r.2.1, ev ++ r.2.2)

/-- `wrapMethod`, invocation step of the synchronous path (src/mod.ts
lines 457-473). -/
def wrapMethodStage3 {σ : Type} (spec : MSpec σ) (op : MethodOp σ)
    (cls label : String) (args : List JVal) (fm : FailureMode) (s : σ) :
    MethodResult × σ × List Ev :=
  let r0 := op args s
  let s2 := r0.1
  let ev : List Ev := [.invoke r0.2.isAsync]
  match r0.2 with
  | .async res =>
    let r := runAsyncMethod spec op cls label args fm s2
      { constantBefore := if spec.constant.isSome then some (.sync true) else none,
        before := if spec.before.isSome then some (.sync true) else none,
        result := some (.async res),
        after := none,
        constantAfter := none }
    (.asyncVal r.1, r.2.1, ev ++ r.2.2)
  | .sync res =>
    let r := wrapMethodStage4 spec op cls label args fm s2 res
    (r.1, r.2.1, ev ++ r.2.2)

/-- `wrapMethod`, precondition step of the synchronous path (src/mod.ts
lines 429-455). -/
def wrapMethodStage2 {σ : Type} (spec : MSpec σ) (op : MethodOp σ)
    (cls label : String) (args : List JVal) (fm : FailureMode) (s : σ) :
    MethodResult × σ × List Ev :=
  match spec.before with
  | none => wrapMethodStage3 spec op cls label args fm s
  | some b =>
    let pv := b args
    let ev : List Ev := [.evalStage .before pv.isAsync]
    match pv with
    | .async bb =>
      let r := runAsyncMethod spec op cls label args fm s
        { constantBefore := if spec.constant.isSome then some (.sync true) else none,
          before := some (.async bb),
          result := none, after := none, constantAfter := none }
      (.asyncVal r.1, r.2.1, ev ++ r.2.2)
    | .sync false =>
      let rep := reportMethodFailure .before spec.trace fm cls label args .undef
      (failResultSync fm rep.2 .undef, s, ev ++ rep.1)
    | .sync true =>
      let r := wrapMethodStage3 spec op cls label args fm s
      (r.1, r.2.1, ev ++ r.2.2)

/-- One invocation of the callable produced by `wrapMethod` (src/mod.ts
lines 390-545): `g` is the process-wide failure mode at call time, `s` the
receiver state.  Returns what the caller receives, the final receiver
state, and the events of the whole invocation (synchronous part and, when
handed over, the asynchronous continuation). -/
def wrapMethodRun {σ : Type} (spec : MSpec σ) (op : MethodOp σ)
    (cls label : String) (args : List JVal) (g : FailureMode) (s : σ) :
    MethodResult × σ × List Ev :=
  let fm := spec.failureMode.getD g
  match spec.constant with
  | none => wrapMethodStage2 spec op cls label args fm s
  | some c =>
    let pv := c s
    let ev : List Ev := [.evalStage .constantBefore pv.isAsync]
    match pv with
    | .async b =>
      let r := runAsyncMethod spec op cls label args fm s
        { constantBefore := some (.async b),
          before := none, result := none, after := none, constantAfter := none }
      (.asyncVal r.1, r.2.1, ev ++ r.2.2)
    | .sync false =>
      let rep := reportMethodFailure .constantBefore spec.trace fm cls label args .undef
      (failResultSync fm rep.2 .undef, s, ev ++ rep.1)
    | .sync true =>
      let r := wrapMethodStage2 spec op cls label args fm s
      (r.1, r.2.1, ev ++ r.2.2)

/-- An original setter body: given the assigned value and receiver state,
produce the new receiver state and the (maybe pending) result. -/
def SetterOp (σ : Type) : Type := JVal → σ → σ × PV JVal

/-- `runAsyncSetter`, invariant-after block (src/mod.ts lines 371-385). -/
def runAsyncSetterFrom5 {σ : Type} (spec : MSpec σ) (cls label : String)
    (v : JVal) (fm : FailureMode) (s : σ) (res : JVal)
    (initCA : Option (PV Bool)) : Except String JVal × σ × List Ev :=
  match spec.constant with
  | none => (.ok res, s, [])
  | some c =>
    let (pv, evs) := match initCA with
      | some pv => (pv, ([] : List Ev))
      | none => (c s, [Ev.evalStage .constantAfter (c s).isAsync])
    if pv.settle then (.ok res, s, evs)
    else
      let rep := reportSetterFailure .constantAfter spec.trace fm cls label v res
      (failResultAsync fm rep.2 res, s, evs ++ rep.1)

/-- `runAsyncSetter`, `after` block (src/mod.ts lines 354-369): the
postcondition receives `(result, value)`. -/
def runAsyncSetterFrom4 {σ : Type} (spec : MSpec σ) (cls label : String)
    (v : JVal) (fm : FailureMode) (s : σ) (res : JVal)
    (initAfter initCA : Option (PV Bool)) : Except String JVal × σ × List Ev :=
  match spec.after with
  | none => runAsyncSetterFrom5 spec cls label v fm s res initCA
  | some a =>
    let (pv, evs) := match initAfter with
      | some pv => (pv, ([] : List Ev))
      | none => (a res [v], [Ev.evalStage .after (a res [v]).isAsync])
    if pv.settle then
      let r := runAsyncSetterFrom5 spec cls label v fm s res initCA
      (r.1, r.2.1, evs ++ r.2.2)
    else
      let rep := reportSetterFailure .setterAfter spec.trace fm cls label v res
      (failResultAsync fm rep.2 res, s, evs ++ rep.1)

/-- `runAsyncSetter`, invocation block (src/mod.ts lines 351-352):
`state.result ?? original.call(thisArg, state.value)`, with the same
nullish coalescing as the method form — a cached synchronous `undefined`
or `null` result causes the underlying setter to run again. -/
def runAsyncSetterFrom3 {σ : Type} (spec : MSpec σ) (op : SetterOp σ)
    (cls label : String) (v : JVal) (fm : FailureMode) (s : σ)
    (initResult : Option (PV JVal)) (initAfter initCA : Option (PV Bool)) :
    Except String JVal × σ × List Ev :=
  let (res, s2, evs) := match initResult with
    | some (.async r) => (r, s, ([] : List Ev))
    | some (.sync r) =>
      if r.isNullish then
        let r2 := op v s
        (r2.2.settle, r2.1, [Ev.invoke r2.2.isAsync])
      else (r, s, ([] : List Ev))
    | none =>
      let r2 := op v s
      (r2.2.settle, r2.1, [Ev.invoke r2.2.isAsync])
  let r := runAsyncSetterFrom4 spec cls label v fm s2 res initAfter initCA
  (r.1, r.2.1, evs ++ r.2.2)

/-- `runAsyncSetter`, `before` block (src/mod.ts lines 336-349): the
precondition receives the assigned value. -/
def runAsyncSetterFrom2 {σ : Type} (spec : MSpec σ) (op : SetterOp σ)
    (cls label : String) (v : JVal) (fm : FailureMode) (s : σ)
    (initBefore : Option (PV Bool)) (initResult : Option (PV JVal))
    (initAfter initCA : Option (PV Bool)) : Except String JVal × σ × List Ev :=
  match spec.before with
  | none => runAsyncSetterFrom3 spec op cls label v fm s initResult initAfter initCA
  | some b =>
    let (pv, evs) := match initBefore with
      | some pv => (pv, ([] : List Ev))
      | none => (b [v], [Ev.evalStage .before (b [v]).isAsync])
    if pv.settle then
      let r := runAsyncSetterFrom3 spec op cls label v fm s initResult initAfter initCA
      (r.1, r.2.1, evs ++ r.2.2)
    else
      let rep := reportSetterFailure .setterBefore spec.trace fm cls label v .undef
      (failResultAsync fm rep.2 .undef, s, evs ++ rep.1)

/-- `runAsyncSetter` (src/mod.ts lines 311-388). -/
def runAsyncSetter {σ : Type} (spec : MSpec σ) (op : SetterOp σ)
    (cls label : String) (v : JVal) (fm : FailureMode) (s : σ)
    (initial : AState) : Except String JVal × σ × List Ev :=
  match spec.constant with
  | none =>
    runAsyncSetterFrom2 spec op cls label v fm s initial.before initial.result
      initial.after initial.constantAfter
  | some c =>
    let (pv, evs) := match initial.constantBefore with
      | some pv => (pv, ([] : List Ev))
      | none => (c s, [Ev.evalStage .constantBefore (c s).isAsync])
    if pv.settle then
      let r := runAsyncSetterFrom2 spec op cls label v fm s initial.before
        initial.result initial.after initial.constantAfter
      (r.1, r.2.1, evs ++ r.2.2)
    else
      let rep := reportSetterFailure .constantBefore spec.trace fm cls label v .undef
      (failResultAsync fm rep.2 .undef, s, evs ++ rep.1)

/-- `wrapSetter`, invariant-after step of the synchronous path (src/mod.ts
lines 661-692). -/
def wrapSetterStage5 {σ : Type} (spec : MSpec σ) (op : SetterOp σ)
    (cls label : String) (v : JVal) (fm : FailureMode) (s : σ)
    (res : JVal) : MethodResult × σ × List Ev :=
  match spec.constant with
  | none => (.syncVal res, s, [])
  | some c =>
    let pv := c s
    let ev : List Ev := [.evalStage .constantAfter pv.isAsync]
    match pv with
    | .async b =>
      let r := runAsyncSetter spec op cls label v fm s
        { constantBefore := some (.sync true),
          before := if spec.before.isSome then some (.sync true) else none,
          result := some (.sync res),
          after := if spec.after.isSome then some (.sync true) else none,
          constantAfter := some (.async b) }
      (.asyncVal r.1, r.2.1, ev ++ r.2.2)
    | .sync false =>
      let rep := reportSetterFailure .constantAfter spec.trace fm cls label v res
      (failResultSync fm rep.2 res, s, ev ++ rep.1)
    | .sync true => (.syncVal res, s, ev)

/-- `wrapSetter`, `after` step of the synchronous path (src/mod.ts lines
628-659). -/
def wrapSetterStage4 {σ : Type} (spec : MSpec σ) (op : SetterOp σ)
    (cls label : String) (v : JVal) (fm : FailureMode) (s : σ)
    (res : JVal) : MethodResult × σ × List Ev :=
  match spec.after with
  | none => wrapSetterStage5 spec op cls label v fm s res
  | some a =>
    let pv := a res [v]
    let ev : List Ev := [.evalStage .after pv.isAsync]
    match pv with
    | .async b =>
      let r := runAsyncSetter spec op cls label v fm s
        { constantBefore := if spec.constant.isSome then some (.sync true) else none,
          before := if spec.before.isSome then some (.sync true) else none,
          result := some (.sync res),
          after := some (.async b),
          constantAfter := none }
      (.asyncVal r.1, r.2.1, ev ++ r.2.2)
    | .sync false =>
      let rep := reportSetterFailure .setterAfter spec.trace fm cls label v res
      (failResultSync fm rep.2 res, s, ev ++ rep.1)
    | .sync true =>
      let r := wrapSetterStage5 spec op cls label v fm s res
      (r.1, r.2.1, ev ++ r.2.2)

/-- `wrapSetter`, invocation step of the synchronous path (src/mod.ts lines
611-626). -/
def wrapSetterStage3 {σ : Type} (spec : MSpec σ) (op : SetterOp σ)
    (cls label : String) (v : JVal) (fm : FailureMode) (s : σ) :
    MethodResult × σ × List Ev :=
  let r0 := op v s
  let s2 := r0.1
  let ev : List Ev := [.invoke r0.2.isAsync]
  match r0.2 with
  | .async res =>
    let r := runAsyncSetter spec op cls label v fm s2
      { constantBefore := if spec.constant.isSome then some (.sync true) else none,
        before := if spec.before.isSome then some (.sync true) else none,
        result := some (.async res),
        after := none,
        constantAfter := none }
    (.asyncVal r.1, r.2.1, ev ++ r.2.2)
  | .sync res =>
    let r := wrapSetterStage4 spec op cls label v fm s2 res
    (r.1, r.2.1, ev ++ r.2.2)

/-- `wrapSetter`, `before` step of the synchronous path (src/mod.ts lines
584-609). -/
def wrapSetterStage2 {σ : Type} (spec : MSpec σ) (op : SetterOp σ)
    (cls label : String) (v : JVal) (fm : FailureMode) (s : σ) :
    MethodResult × σ × List Ev :=
  match spec.before with
  | none => wrapSetterStage3 spec op cls label v fm s
  | some b =>
    let pv := b [v]
    let ev : List Ev := [.evalStage .before pv.isAsync]
    match pv with
    | .async bb =>
      let r := runAsyncSetter spec op cls label v fm s
        { constantBefore := if spec.constant.isSome then some (.sync true) else none,
          before := some (.async bb),
          result := none, after := none, constantAfter := none }
      (.asyncVal r.1, r.2.1, ev ++ r.2.2)
    | .sync false =>
      let rep := reportSetterFailure .setterBefore spec.trace fm cls label v .undef
      (failResultSync fm rep.2 .undef, s, ev ++ rep.1)
    | .sync true =>
      let r := wrapSetterStage3 spec op cls label v fm s
      (r.1, r.2.1, ev ++ r.2.2)

/-- One invocation of the callable produced by `wrapSetter` (src/mod.ts
lines 547-696). -/
def wrapSetterRun {σ : Type} (spec : MSpec σ) (op : SetterOp σ)
    (cls label : String) (v : JVal) (g : FailureMode) (s : σ) :
    MethodResult × σ × List Ev :=
  let fm := spec.failureMode.getD g
  match spec.constant with
  | none => wrapSetterStage2 spec op cls label v fm s
  | some c =>
    let pv := c s
    let ev : List Ev := [.evalStage .constantBefore pv.isAsync]
    match pv with
    | .async b =>
      let r := runAsyncSetter spec op cls label v fm s
        { constantBefore := some (.async b),
          before := none, result := none, after := none, constantAfter := none }
      (.asyncVal r.1, r.2.1, ev ++ r.2.2)
    | .sync false =>
      let rep := reportSetterFailure .constantBefore spec.trace fm cls label v .undef
      (failResultSync fm rep.2 .undef, s, ev ++ rep.1)
    | .sync true =>
      let r := wrapSetterStage2 spec op cls label v fm s
      (r.1, r.2.1, ev ++ r.2.2)

/-- The up-front configuration check of `wrapClass` (src/mod.ts lines
702-706): a spec without a function-valued invariant is rejected by an
unconditional throw at transform time, before any instance exists and
regardless of any failure mode. -/
def wrapClassCheck {σ : Type} (spec : MSpec σ) : Except String Unit :=
  match spec.constant with
  | none =>
    .error "always class decorator requires \x7b constant: (self) => boolean \x7d"
  | some _ => .ok ()

/-- The derived constructor installed by `wrapClass` (src/mod.ts lines
721-737): after the base constructor has produced the instance, the
invariant is evaluated; a pending invariant result throws unconditionally;
a `false` result reports a `constant-constructor` failure (trace event
carrying only `kind` and `class`), returning the instance in `log` mode and
failing construction in `throw` mode. -/
def constructInstance {σ : Type} (constant : σ → PV Bool)
    (trace : Option TraceOption) (failureOverride : Option FailureMode)
    (g : FailureMode) (cls : String) (inst : σ) :
    Except String σ × List Ev :=
  match constant inst with
  | .async _ =>
    (.error "always class decorator invariants must be synchronous during construction",
     [])
  | .sync true => (.ok inst, [])
  | .sync false =>
    let info : TraceInfo :=
      { kind := "constant-constructor", cls := cls, name := none,
        args := none, value := none, result := none }
    let fm := failureOverride.getD g
    let msg := "Constant failed after constructor: " ++ cls
    let evs := emitTrace trace info ++ handleFailureEvs fm msg
    (match fm with
     | .throw => .error msg
     | .log => .ok inst, evs)

/-- A raw JavaScript value sitting in a field of a contract declaration
(only the distinctions `resolveSpec` inspects are modelled: `typeof`
function / boolean / string, and nullishness).  Function values carry an
identity so the resolver's choice between a primary field and its alias is
observable. -/
inductive JSVal
  | undef
  | null
  | func (id : Nat)
  | bool (b : Bool)
  | str (s : String)
  | num (n : Int)
deriving DecidableEq

/-- `typeof x === "function"`. -/
def JSVal.isFunc : JSVal → Bool
  | .func _ => true
  | _ => false

/-- `x ?? y`: nullish coalescing. -/
def JSVal.coalesce : JSVal → JSVal → JSVal
  | .undef, y => y
  | .null, y => y
  | x, _ => x

/-- The function identity, when the value is a function. -/
def JSVal.funcId : JSVal → Option Nat
  | .func i => some i
  | _ => none

/-- A raw contract declaration record: the fields `resolveSpec` reads
(any unrecognized extra fields are invisible to it). -/
structure RawRecord where
  before : JSVal
  requires : JSVal
  after : JSVal
  ensures : JSVal
  constant : JSVal
  invariant : JSVal
  trace : JSVal
  failureMode : JSVal
deriving DecidableEq

/-- The record with every field absent. -/
def RawRecord.empty : RawRecord :=
  { before := .undef, requires := .undef, after := .undef, ensures := .undef,
    constant := .undef, invariant := .undef, trace := .undef,
    failureMode := .undef }

/-- The raw input of `resolveSpec`: a callable, a record, or anything
else (treated as the empty record). -/
inductive SpecInput
  | func (id : Nat)
  | record (r : RawRecord)
  | nonObject
deriving DecidableEq

/-- The canonical shape produced by `resolveSpec`, with chosen predicate
functions identified by their `JSVal` identity. -/
structure ResolvedFields where
  before : Option Nat
  after : Option Nat
  constant : Option Nat
  trace : Option TraceOption
  failureMode : Option FailureMode
deriving DecidableEq

/-- `resolveSpec` (src/mod.ts lines 80-111).  Faithful points: `before` and
`after` consult their alias exactly when the primary is not a function;
`constant` first nullish-coalesces `spec.constant ?? spec.invariant` and
only then checks for a function value; a callable input is a bare
invariant; `trace` keeps booleans and functions; `failureMode` keeps only
the exact strings `"throw"` and `"log"`. -/
def resolveSpec (input : SpecInput) : ResolvedFields :=
  let spec := match input with
    | .record r => r
    | _ => RawRecord.empty
  let before := if spec.before.isFunc then spec.before.funcId
    else if spec.requires.isFunc then spec.requires.funcId
    else none
  let after := if spec.after.isFunc then spec.after.funcId
    else if spec.ensures.isFunc then spec.ensures.funcId
    else none
  let constantFromObject := spec.constant.coalesce spec.invariant
  let constant := match input with
    | .func i => some i
    | _ => if constantFromObject.isFunc then constantFromObject.funcId else none
  let trace := match spec.trace with
    | .bool b => some (TraceOption.flag b)
    | .func _ => some TraceOption.sink
    | _ => none
  let failureMode := if spec.failureMode = .str "throw" then some FailureMode.throw
    else if spec.failureMode = .str "log" then some FailureMode.log
    else none
  { before := before, after := after, constant := constant, trace := trace,
    failureMode := failureMode }

/-- Erase the sync/async distinction of an event (keeping the stage, the
trace events and the log lines). -/
def Ev.erase : Ev → Ev
  | .evalStage st _ => .evalStage st false
  | .invoke _ => .invoke false
  | .traceOut i => .traceOut i
  | .logOut m => .logOut m

/-- Erase the sync/async distinction of an event list. -/
def eraseAsync (evs : List Ev) : List Ev := evs.map Ev.erase

/-- Settled view of a wrapped synchronous call: outcome, state, erased
events. -/
def eraseRun {σ : Type} (t : MethodResult × σ × List Ev) :
    Except String JVal × σ × List Ev :=
  (t.1.settled, t.2.1, eraseAsync t.2.2)

/-- Settled view of an async continuation result. -/
def eraseCont {σ : Type} (t : Except String JVal × σ × List Ev) :
    Except String JVal × σ × List Ev :=
  (t.1, t.2.1, eraseAsync t.2.2)

/-- Reference semantics, invariant-after stage: the five-stage protocol on
settled values. -/
def protoStage5 {σ : Type} (spec : MSpec σ) (cls label : String)
    (args : List JVal) (fm : FailureMode) (s : σ) (res : JVal) :
    Except String JVal × σ × List Ev :=
  match spec.constant with
  | none => (.ok res, s, [])
  | some c =>
    let ev : List Ev := [.evalStage .constantAfter false]
    if (c s).settle then (.ok res, s, ev)
    else
      let rep := reportMethodFailure .constantAfter spec.trace fm cls label args res
      (failResultAsync fm rep.2 res, s, ev ++ rep.1)

/-- Reference semantics, postcondition stage. -/
def protoStage4 {σ : Type} (spec : MSpec σ) (cls label : String)
    (args : List JVal) (fm : FailureMode) (s : σ) (res : JVal) :
    Except String JVal × σ × List Ev :=
  match spec.after with
  | none => protoStage5 spec cls label args fm s res
  | some a =>
    let ev : List Ev := [.evalStage .after false]
    if (a res args).settle then
      let r := protoStage5 spec cls label args fm s res
      (r.1, r.2.1, ev ++ r.2.2)
    else
      let rep := reportMethodFailure .after spec.trace fm cls label args res
      (failResultAsync fm rep.2 res, s, ev ++ rep.1)

/-- Reference semantics, invocation stage. -/
def protoStage3 {σ : Type} (spec : MSpec σ) (op : MethodOp σ)
    (cls label : String) (args : List JVal) (fm : FailureMode) (s : σ) :
    Except String JVal × σ × List Ev :=
  let r0 := op args s
  let r := protoStage4 spec cls label args fm r0.1 r0.2.settle
  (r.1, r.2.1, Ev.invoke false :: r.2.2)

/-- Reference semantics, precondition stage. -/
def protoStage2 {σ : Type} (spec : MSpec σ) (op : MethodOp σ)
    (cls label : String) (args : List JVal) (fm : FailureMode) (s : σ) :
    Except String JVal × σ × List Ev :=
  match spec.before with
  | none => protoStage3 spec op cls label args fm s
  | some b =>
    let ev : List Ev := [.evalStage .before false]
    if (b args).settle then
      let r := protoStage3 spec op cls label args fm s
      (r.1, r.2.1, ev ++ r.2.2)
    else
      let rep := reportMethodFailure .before spec.trace fm cls label args .undef
      (failResultAsync fm rep.2 .undef, s, ev ++ rep.1)

/-- Reference semantics, invariant-before stage. -/
def protoStage1 {σ : Type} (spec : MSpec σ) (op : MethodOp σ)
    (cls label : String) (args : List JVal) (fm : FailureMode) (s : σ) :
    Except String JVal × σ × List Ev :=
  match spec.constant with
  | none => protoStage2 spec op cls label args fm s
  | some c =>
    let ev : List Ev := [.evalStage .constantBefore false]
    if (c s).settle then
      let r := protoStage2 spec op cls label args fm s
      (r.1, r.2.1, ev ++ r.2.2)
    else
      let rep := reportMethodFailure .constantBefore spec.trace fm cls label args .undef
      (failResultAsync fm rep.2 .undef, s, ev ++ rep.1)

/-- Reference semantics of one wrapped method invocation, on settled
values only: the five ordered stages of section 4.2 evaluated
sequentially, independent of which values happen to be pending. -/
def protoMethod {σ : Type} (spec : MSpec σ) (op : MethodOp σ)
    (cls label : String) (args : List JVal) (g : FailureMode) (s : σ) :
    Except String JVal × σ × List Ev :=
  protoStage1 spec op cls label args (spec.failureMode.getD g) s

/-- Reference semantics for setters, invariant-after stage. -/
def protoSetterStage5 {σ : Type} (spec : MSpec σ) (cls label : String)
    (v : JVal) (fm : FailureMode) (s : σ) (res : JVal) :
    Except String JVal × σ × List Ev :=
  match spec.constant with
  | none => (.ok res, s, [])
  | some c =>
    let ev : List Ev := [.evalStage .constantAfter false]
    if (c s).settle then (.ok res, s, ev)
    else
      let rep := reportSetterFailure .constantAfter spec.trace fm cls label v res
      (failResultAsync fm rep.2 res, s, ev ++ rep.1)

/-- Reference semantics for setters, postcondition stage. -/
def protoSetterStage4 {σ : Type} (spec : MSpec σ) (cls label : String)
    (v : JVal) (fm : FailureMode) (s : σ) (res : JVal) :
    Except String JVal × σ × List Ev :=
  match spec.after with
  | none => protoSetterStage5 spec cls label v fm s res
  | some a =>
    let ev : List Ev := [.evalStage .after false]
    if (a res [v]).settle then
      let r := protoSetterStage5 spec cls label v fm s res
      (r.1, r.2.1, ev ++ r.2.2)
    else
      let rep := reportSetterFailure .setterAfter spec.trace fm cls label v res
      (failResultAsync fm rep.2 res, s, ev ++ rep.1)

/-- Reference semantics for setters, invocation stage. -/
def protoSetterStage3 {σ : Type} (spec : MSpec σ) (op : SetterOp σ)
    (cls label : String) (v : JVal) (fm : FailureMode) (s : σ) :
    Except String JVal × σ × List Ev :=
  let r0 := op v s
  let r := protoSetterStage4 spec cls label v fm r0.1 r0.2.settle
  (r.1, r.2.1, Ev.invoke false :: r.2.2)

/-- Reference semantics for setters, precondition stage. -/
def protoSetterStage2 {σ : Type} (spec : MSpec σ) (op : SetterOp σ)
    (cls label : String) (v : JVal) (fm : FailureMode) (s : σ) :
    Except String JVal × σ × List Ev :=
  match spec.before with
  | none => protoSetterStage3 spec op cls label v fm s
  | some b =>
    let ev : List Ev := [.evalStage .before false]
    if (b [v]).settle then
      let r := protoSetterStage3 spec op cls label v fm s
      (r.1, r.2.1, ev ++ r.2.2)
    else
      let rep := reportSetterFailure .setterBefore spec.trace fm cls label v .undef
      (failResultAsync fm rep.2 .undef, s, ev ++ rep.1)

/-- Reference semantics for setters, invariant-before stage. -/
def protoSetterStage1 {σ : Type} (spec : MSpec σ) (op : SetterOp σ)
    (cls label : String) (v : JVal) (fm : FailureMode) (s : σ) :
    Except String JVal × σ × List Ev :=
  match spec.constant with
  | none => protoSetterStage2 spec op cls label v fm s
  | some c =>
    let ev : List Ev := [.evalStage .constantBefore false]
    if (c s).settle then
      let r := protoSetterStage2 spec op cls label v fm s
      (r.1, r.2.1, ev ++ r.2.2)
    else
      let rep := reportSetterFailure .constantBefore spec.trace fm cls label v .undef
      (failResultAsync fm rep.2 .undef, s, ev ++ rep.1)

/-- Reference semantics of one wrapped setter invocation on settled
values. -/
def protoSetter {σ : Type} (spec : MSpec σ) (op : SetterOp σ)
    (cls label : String) (v : JVal) (g : FailureMode) (s : σ) :
    Except String JVal × σ × List Ev :=
  protoSetterStage1 spec op cls label v (spec.failureMode.getD g) s

/-- Is this event an evaluation of the given protocol stage? -/
def isEvalOf (st : Stage) : Ev → Bool
  | .evalStage st2 _ => st2 == st
  | _ => false

/-- Is this event an invocation of the original operation? -/
def isInvoke : Ev → Bool
  | .invoke _ => true
  | _ => false

/-- How many times the given stage's predicate was evaluated. -/
def stageCount (evs : List Ev) (st : Stage) : Nat := evs.countP (isEvalOf st)

/-- How many times the original operation was invoked. -/
def invokeCount (evs : List Ev) : Nat := evs.countP isInvoke

/-- Did this event record a pending (asynchronous) value? -/
def Ev.producedAsync : Ev → Bool
  | .evalStage _ a => a
  | .invoke a => a
  | .traceOut _ => false
  | .logOut _ => false

/-- No event of the invocation produced a pending value. -/
def allSync (evs : List Ev) : Bool := evs.all (fun e => !e.producedAsync)

/-- The same spec with every predicate made asynchronous: each predicate's
result is wrapped in a pending value settling to the same boolean. -/
def MSpec.asyncify {σ : Type} (spec : MSpec σ) : MSpec σ :=
  { before := spec.before.map (fun f args => (f args).toAsync),
    after := spec.after.map (fun f r args => (f r args).toAsync),
    constant := spec.constant.map (fun f s => (f s).toAsync),
    trace := spec.trace,
    failureMode := spec.failureMode }

/-- The constant-field resolution policy the specification describes: the
`invariant` alias is consulted exactly when the primary `constant` field is
absent, i.e. not a function.  (Stated from the specification's words, to be
compared with the implemented `resolveSpec`.) -/
def claimedConstant (r : RawRecord) : Option Nat :=
  if r.constant.isFunc then r.constant.funcId
  else if r.invariant.isFunc then r.invariant.funcId
  else none

/-- Raw record with a mistyped (non-nullish, non-function) `constant` field
next to a function-valued `invariant` alias. -/
def c5rec0 : RawRecord :=
  { before := .undef, requires := .undef, after := .undef, ensures := .undef,
    constant := .num 5, invariant := .func 1, trace := .undef,
    failureMode := .undef }

/-- Raw record exercising several resolver clauses at once. -/
def c5rec1 : RawRecord :=
  { before := .func 1, requires := .func 2, after := .num 0,
    ensures := .func 4, constant := .num 5, invariant := .func 6,
    trace := .str "x", failureMode := .str "nope" }

/-- Spec with no invariant, for the class transform's configuration
check. -/
def c6spec : MSpec Unit :=
  { before := none, after := none, constant := none, trace := none,
    failureMode := none }

/-- The Counter scenario's contract: invariant `value >= 0`, no
precondition or postcondition, default trace, no mode override. -/
def counterSpec : MSpec Int :=
  { before := none, after := none,
    constant := some (fun s => PV.sync (decide (0 ≤ s))),
    trace := none, failureMode := none }

/-- The Counter scenario's `dec` method: subtract the argument from the
receiver's value and return the new value. -/
def counterDec : MethodOp Int := fun args s =>
  match args with
  | [JVal.num n] => (s - n, PV.sync (JVal.num (s - n)))
  | _ => (s, PV.sync JVal.undef)

/-- A spec whose postcondition always fails, with tracing off. -/
def c3spec : MSpec Int :=
  { before := none, after := some (fun _ _ => PV.sync false),
    constant := none, trace := some (.flag false), failureMode := none }

/-- A spec whose invariant always fails. -/
def c8spec : MSpec Int :=
  { before := none, after := none, constant := some (fun _ => PV.sync false),
    trace := none, failureMode := none }

/-- The info mapping of the constructor-check trace event (src/mod.ts line
732): only `kind` and `class`. -/
def ctorInfo (cls : String) : TraceInfo :=
  { kind := "constant-constructor", cls := cls, name := none, args := none,
    value := none, result := none }

/-- The trace-event kind set named by the specification's data model. -/
def claimedKinds : List String :=
  ["invariant-before", "precondition", "postcondition", "invariant-after",
   "invariant-constructor"]

/-- Shape of a method-form trace event as the code emits it. -/
def methodTraceWF (i : TraceInfo) : Prop :=
  i.kind ∈ ["constant-before", "before", "after", "constant-after"] ∧
  i.name.isSome = true ∧ i.args.isSome = true ∧ i.value = none ∧
  (i.result.isSome = true → i.kind ∈ ["after", "constant-after"])

/-- Shape of an accessor-form trace event as the code emits it. -/
def setterTraceWF (i : TraceInfo) : Prop :=
  i.kind ∈ ["constant-before", "setter-before", "setter-after", "constant-after"] ∧
  i.name.isSome = true ∧ i.value.isSome = true ∧ i.args = none ∧
  (i.result.isSome = true → i.kind ∈ ["setter-after", "constant-after"])

/-- Shape of the constructor-check trace event as the code emits it. -/
def ctorTraceWF (i : TraceInfo) : Prop :=
  i.kind = "constant-constructor" ∧ i.name = none ∧ i.args = none ∧
  i.value = none ∧ i.result = none

/-- Precondition "the single argument is a non-negative number". -/
def nonNegArg : List JVal → PV Bool := fun args =>
  match args with
  | [JVal.num n] => PV.sync (decide (0 ≤ n))
  | _ => PV.sync false

/-- Spec with only the non-negative-argument precondition. -/
def c1spec : MSpec Int :=
  { before := some nonNegArg, after := none, constant := none,
    trace := none, failureMode := none }

/-- A void method body: increment the receiver and return `undefined`. -/
def voidInc : MethodOp Int := fun _ s => (s + 1, PV.sync JVal.undef)

/-- A spec whose postcondition is an always-true pending value. -/
def c2spec : MSpec Int :=
  { before := none, after := some (fun _ _ => PV.async true),
    constant := none, trace := none, failureMode := none }

/-- A spec whose postcondition is the settled value `true`. -/
def c4spec : MSpec Int :=
  { before := none, after := some (fun _ _ => PV.sync true),
    constant := none, trace := none, failureMode := none }

/-- A method body returning `undefined` on its first call (receiver `0`)
and the number `9` afterwards, incrementing the receiver each time. -/
def firstUndef : MethodOp Int := fun _ s =>
  (s + 1, PV.sync (if s = 0 then JVal.undef else JVal.num 9))

/-- A spec whose postcondition is an always-false pending value. -/
def c10spec : MSpec Int :=
  { before := none, after := some (fun _ _ => PV.async false),
    constant := none, trace := none, failureMode := none }

/-- One if the async continuation may still evaluate this stage's
predicate: zero when a cached stage result is handed over. -/
def cacheBound {α : Type} : Option α → Nat
  | some _ => 0
  | none => 1

/-- Evaluation bound for a stage: zero when the spec has no predicate for
it, else governed by the cached handover value. -/
def specBound {α β : Type} (field : Option α) (cached : Option β) : Nat :=
  match field with
  | some _ => cacheBound cached
  | none => 0

/-- Invocation bound of the continuation's result block: a cached promise
is never re-invoked; a cached synchronous value may be re-invoked (when
nullish), and an absent cache always invokes. -/
def resInvokeBound : Option (PV JVal) → Nat
  | some (.async _) => 0
  | _ => 1

lemma eraseAsync_append (a b : List Ev) :
    eraseAsync (a ++ b) = eraseAsync a ++ eraseAsync b := by
  simp [eraseAsync]

lemma eraseAsync_report (k : MKind) (t : Option TraceOption)
    (fm : FailureMode) (cls label : String) (args : List JVal) (res : JVal) :
    List.map Ev.erase (reportMethodFailure k t fm cls label args res).1 =
      (reportMethodFailure k t fm cls label args res).1 := by
  cases fm <;>
    simp [reportMethodFailure, emitTrace, handleFailureEvs, eraseAsync, Ev.erase] <;>
    split <;> simp [Ev.erase]

lemma eraseAsync_reportSetter (k : SKind) (t : Option TraceOption)
    (fm : FailureMode) (cls label : String) (v res : JVal) :
    List.map Ev.erase (reportSetterFailure k t fm cls label v res).1 =
      (reportSetterFailure k t fm cls label v res).1 := by
  cases fm <;>
    simp [reportSetterFailure, emitTrace, handleFailureEvs, eraseAsync, Ev.erase] <;>
    split <;> simp [Ev.erase]

lemma settled_failResultSync (fm : FailureMode) (m : String) (v : JVal) :
    (failResultSync fm m v).settled = failResultAsync fm m v := by
  cases fm <;> rfl

lemma eraseCont_step {σ : Type} (ev : List Ev)
    (x p : Except String JVal × σ × List Ev) (h : eraseCont x = p) :
    eraseCont (x.1, x.2.1, ev ++ x.2.2) = (p.1, p.2.1, eraseAsync ev ++ p.2.2) := by
  subst h
  simp [eraseCont, eraseAsync_append]

lemma eraseRun_step {σ : Type} (ev : List Ev)
    (x : MethodResult × σ × List Ev) (p : Except String JVal × σ × List Ev)
    (h : eraseRun x = p) :
    eraseRun (x.1, x.2.1, ev ++ x.2.2) = (p.1, p.2.1, eraseAsync ev ++ p.2.2) := by
  subst h
  simp [eraseRun, eraseAsync_append]

lemma eraseRun_async {σ : Type} (ev : List Ev)
    (r : Except String JVal × σ × List Ev) :
    eraseRun ((MethodResult.asyncVal r.1, r.2.1, ev ++ r.2.2) :
        MethodResult × σ × List Ev) =
      (r.1, r.2.1, eraseAsync ev ++ eraseAsync r.2.2) := by
  simp [eraseRun, MethodResult.settled, eraseAsync_append]

lemma runAsync_handover5 {σ : Type} (spec : MSpec σ) (op : MethodOp σ)
    (cls label : String) (args : List JVal) (fm : FailureMode) (s : σ)
    (res : JVal) (c : σ → PV Bool) (b : Bool) (hc : spec.constant = some c)
    (hres : res.isNullish = false) :
    runAsyncMethod spec op cls label args fm s
      { constantBefore := some (.sync true),
        before := if spec.before.isSome then some (.sync true) else none,
        result := some (.sync res),
        after := if spec.after.isSome then some (.sync true) else none,
        constantAfter := some (.async b) } =
    (if b then ((.ok res : Except String JVal), s, ([] : List Ev))
     else
       (failResultAsync fm
          (reportMethodFailure .constantAfter spec.trace fm cls label args res).2 res,
        s, (reportMethodFailure .constantAfter spec.trace fm cls label args res).1)) := by
  cases hb : spec.before <;> cases ha : spec.after <;> cases b <;>
    simp [runAsyncMethod, runAsyncFrom2, runAsyncFrom3, runAsyncFrom4,
      runAsyncFrom5, hc, hb, ha, hres, PV.settle]

lemma runAsync_handover4 {σ : Type} (spec : MSpec σ) (op : MethodOp σ)
    (cls label : String) (args : List JVal) (fm : FailureMode) (s : σ)
    (res : JVal) (a : JVal → List JVal → PV Bool) (b : Bool)
    (ha : spec.after = some a) (hres : res.isNullish = false) :
    runAsyncMethod spec op cls label args fm s
      { constantBefore := if spec.constant.isSome then some (.sync true) else none,
        before := if spec.before.isSome then some (.sync true) else none,
        result := some (.sync res),
        after := some (.async b),
        constantAfter := none } =
    (if b then runAsyncFrom5 spec cls label args fm s res none
     else
       (failResultAsync fm
          (reportMethodFailure .after spec.trace fm cls label args res).2 res,
        s, (reportMethodFailure .after spec.trace fm cls label args res).1)) := by
  cases hcst : spec.constant <;> cases hb : spec.before <;> cases b <;>
    simp [runAsyncMethod, runAsyncFrom2, runAsyncFrom3, runAsyncFrom4,
      hcst, hb, ha, hres, PV.settle]

lemma runAsync_handover3 {σ : Type} (spec : MSpec σ) (op : MethodOp σ)
    (cls label : String) (args : List JVal) (fm : FailureMode) (s : σ)
    (res : JVal) :
    runAsyncMethod spec op cls label args fm s
      { constantBefore := if spec.constant.isSome then some (.sync true) else none,
        before := if spec.before.isSome then some (.sync true) else none,
        result := some (.async res),
        after := none,
        constantAfter := none } =
    runAsyncFrom4 spec cls label args fm s res none none := by
  cases hcst : spec.constant <;> cases hb : spec.before <;>
    simp [runAsyncMethod, runAsyncFrom2, runAsyncFrom3, hcst, hb, PV.settle]

lemma runAsync_handover2 {σ : Type} (spec : MSpec σ) (op : MethodOp σ)
    (cls label : String) (args : List JVal) (fm : FailureMode) (s : σ)
    (b0 : List JVal → PV Bool) (bb : Bool) (hb : spec.before = some b0) :
    runAsyncMethod spec op cls label args fm s
      { constantBefore := if spec.constant.isSome then some (.sync true) else none,
        before := some (.async bb),
        result := none, after := none, constantAfter := none } =
    (if bb then runAsyncFrom3 spec op cls label args fm s none none none
     else
       (failResultAsync fm
          (reportMethodFailure .before spec.trace fm cls label args .undef).2 .undef,
        s, (reportMethodFailure .before spec.trace fm cls label args .undef).1)) := by
  cases hcst : spec.constant <;> cases bb <;>
    simp [runAsyncMethod, runAsyncFrom2, hcst, hb, PV.settle]

lemma runAsync_handover1 {σ : Type} (spec : MSpec σ) (op : MethodOp σ)
    (cls label : String) (args : List JVal) (fm : FailureMode) (s : σ)
    (c : σ → PV Bool) (bv : Bool) (hc : spec.constant = some c) :
    runAsyncMethod spec op cls label args fm s
      { constantBefore := some (.async bv),
        before := none, result := none, after := none, constantAfter := none } =
    (if bv then runAsyncFrom2 spec op cls label args fm s none none none none
     else
       (failResultAsync fm
          (reportMethodFailure .constantBefore spec.trace fm cls label args .undef).2 .undef,
        s, (reportMethodFailure .constantBefore spec.trace fm cls label args .undef).1)) := by
  cases bv <;> simp [runAsyncMethod, hc, PV.settle]

lemma ra5_none {σ : Type} (spec : MSpec σ) (cls label : String)
    (args : List JVal) (fm : FailureMode) (s : σ) (res : JVal) :
    eraseCont (runAsyncFrom5 spec cls label args fm s res none) =
      protoStage5 spec cls label args fm s res := by
  cases hc : spec.constant with
  | none => simp [runAsyncFrom5, protoStage5, hc, eraseCont, eraseAsync]
  | some c =>
    by_cases h : (c s).settle
    · simp [runAsyncFrom5, protoStage5, hc, h, eraseCont, eraseAsync, Ev.erase]
    · simp [runAsyncFrom5, protoStage5, hc, h, eraseCont, eraseAsync_append,
        eraseAsync_report, eraseAsync, Ev.erase]

lemma ra4_none {σ : Type} (spec : MSpec σ) (cls label : String)
    (args : List JVal) (fm : FailureMode) (s : σ) (res : JVal) :
    eraseCont (runAsyncFrom4 spec cls label args fm s res none none) =
      protoStage4 spec cls label args fm s res := by
  cases ha : spec.after with
  | none =>
    simpa [runAsyncFrom4, protoStage4, ha] using
      ra5_none spec cls label args fm s res
  | some a =>
    by_cases h : (a res args).settle
    · have h5 := ra5_none spec cls label args fm s res
      have := eraseCont_step [Ev.evalStage .after (a res args).isAsync]
        (runAsyncFrom5 spec cls label args fm s res none) _ h5
      simp only [runAsyncFrom4, protoStage4, ha, h, if_true]
      simpa [eraseAsync, Ev.erase, h] using this
    · simp [runAsyncFrom4, protoStage4, ha, h, eraseCont, eraseAsync_append,
        eraseAsync_report, eraseAsync, Ev.erase]

lemma ra3_none {σ : Type} (spec : MSpec σ) (op : MethodOp σ)
    (cls label : String) (args : List JVal) (fm : FailureMode) (s : σ) :
    eraseCont (runAsyncFrom3 spec op cls label args fm s none none none) =
      protoStage3 spec op cls label args fm s := by
  have h4 := ra4_none spec cls label args fm (op args s).1 (op args s).2.settle
  have := eraseCont_step [Ev.invoke (op args s).2.isAsync]
    (runAsyncFrom4 spec cls label args fm (op args s).1 (op args s).2.settle none none)
    _ h4
  simp only [runAsyncFrom3, protoStage3]
  simpa [eraseAsync, Ev.erase] using this

lemma ra2_none {σ : Type} (spec : MSpec σ) (op : MethodOp σ)
    (cls label : String) (args : List JVal) (fm : FailureMode) (s : σ) :
    eraseCont (runAsyncFrom2 spec op cls label args fm s none none none none) =
      protoStage2 spec op cls label args fm s := by
  cases hb : spec.before with
  | none =>
    simpa [runAsyncFrom2, protoStage2, hb] using
      ra3_none spec op cls label args fm s
  | some b =>
    by_cases h : (b args).settle
    · have h3 := ra3_none spec op cls label args fm s
      have := eraseCont_step [Ev.evalStage .before (b args).isAsync]
        (runAsyncFrom3 spec op cls label args fm s none none none) _ h3
      simp only [runAsyncFrom2, protoStage2, hb, h, if_true]
      simpa [eraseAsync, Ev.erase, h] using this
    · simp [runAsyncFrom2, protoStage2, hb, h, eraseCont, eraseAsync_append,
        eraseAsync_report, eraseAsync, Ev.erase]

lemma wrapStage5_proto {σ : Type} (spec : MSpec σ) (op : MethodOp σ)
    (cls label : String) (args : List JVal) (fm : FailureMode) (s : σ)
    (res : JVal) (hres : res.isNullish = false) :
    eraseRun (wrapMethodStage5 spec op cls label args fm s res) =
      protoStage5 spec cls label args fm s res := by
  cases hc : spec.constant with
  | none =>
    simp [wrapMethodStage5, protoStage5, hc, eraseRun, eraseAsync,
      MethodResult.settled]
  | some c =>
    cases hpv : c s with
    | sync b =>
      cases b with
      | true =>
        simp [wrapMethodStage5, protoStage5, hc, hpv, eraseRun, eraseAsync,
          Ev.erase, MethodResult.settled, PV.settle, PV.isAsync]
      | false =>
        simp [wrapMethodStage5, protoStage5, hc, hpv, eraseRun,
          eraseAsync_append, eraseAsync_report, eraseAsync, Ev.erase,
          settled_failResultSync, PV.settle, PV.isAsync]
    | async b =>
      have hh := runAsync_handover5 spec op cls label args fm s res c b hc hres
      cases b with
      | true =>
        simp only [if_true] at hh
        simp [wrapMethodStage5, protoStage5, hc, hpv, hh, eraseRun,
          eraseAsync, Ev.erase, MethodResult.settled, PV.settle, PV.isAsync]
      | false =>
        simp only [Bool.false_eq_true, if_false] at hh
        simp [wrapMethodStage5, protoStage5, hc, hpv, hh, eraseRun,
          eraseAsync_append, eraseAsync_report, eraseAsync, Ev.erase,
          MethodResult.settled, PV.settle, PV.isAsync]

lemma wrapStage4_proto {σ : Type} (spec : MSpec σ) (op : MethodOp σ)
    (cls label : String) (args : List JVal) (fm : FailureMode) (s : σ)
    (res : JVal) (hres : res.isNullish = false) :
    eraseRun (wrapMethodStage4 spec op cls label args fm s res) =
      protoStage4 spec cls label args fm s res := by
  cases ha : spec.after with
  | none =>
    simpa [wrapMethodStage4, protoStage4, ha] using
      wrapStage5_proto spec op cls label args fm s res hres
  | some a =>
    cases hpv : a res args with
    | sync b =>
      cases b with
      | true =>
        have h5 := wrapStage5_proto spec op cls label args fm s res hres
        have := eraseRun_step [Ev.evalStage .after (a res args).isAsync]
          (wrapMethodStage5 spec op cls label args fm s res) _ h5
        simp only [wrapMethodStage4, protoStage4, ha, hpv, PV.settle, if_true]
        simpa [hpv, eraseAsync, Ev.erase] using this
      | false =>
        simp [wrapMethodStage4, protoStage4, ha, hpv, eraseRun,
          eraseAsync_append, eraseAsync_report, eraseAsync, Ev.erase,
          settled_failResultSync, PV.settle, PV.isAsync]
    | async b =>
      have hh := runAsync_handover4 spec op cls label args fm s res a b ha hres
      cases b with
      | true =>
        simp only [if_true] at hh
        have h5 := ra5_none spec cls label args fm s res
        have := eraseCont_step [Ev.evalStage .after true]
          (runAsyncFrom5 spec cls label args fm s res none) _ h5
        simp only [wrapMethodStage4, protoStage4, ha, hpv, PV.settle, if_true]
        rw [hh]
        simpa [eraseAsync, Ev.erase, eraseRun, eraseCont,
          MethodResult.settled] using this
      | false =>
        simp only [Bool.false_eq_true, if_false] at hh
        simp [wrapMethodStage4, protoStage4, ha, hpv, hh, eraseRun,
          eraseAsync_append, eraseAsync_report, eraseAsync, Ev.erase,
          MethodResult.settled, PV.settle, PV.isAsync]

lemma wrapStage3_proto {σ : Type} (spec : MSpec σ) (op : MethodOp σ)
    (cls label : String) (args : List JVal) (fm : FailureMode) (s : σ)
    (h3 : (op args s).2.isAsync = true ∨
      ((op args s).2.settle).isNullish = false) :
    eraseRun (wrapMethodStage3 spec op cls label args fm s) =
      protoStage3 spec op cls label args fm s := by
  cases hr : (op args s).2 with
  | sync res =>
    have hres : res.isNullish = false := by
      rcases h3 with h3 | h3
      · rw [hr] at h3
        simp [PV.isAsync] at h3
      · rw [hr] at h3
        simpa [PV.settle] using h3
    have h4 := wrapStage4_proto spec op cls label args fm (op args s).1 res hres
    have := eraseRun_step [Ev.invoke (op args s).2.isAsync]
      (wrapMethodStage4 spec op cls label args fm (op args s).1 res) _ h4
    simp only [wrapMethodStage3, protoStage3, hr, PV.settle]
    simpa [hr, eraseAsync, Ev.erase] using this
  | async res =>
    have hh := runAsync_handover3 spec op cls label args fm (op args s).1 res
    have h4 := ra4_none spec cls label args fm (op args s).1 res
    simp only [wrapMethodStage3, protoStage3, hr, PV.settle]
    rw [hh]
    have := eraseCont_step [Ev.invoke true]
      (runAsyncFrom4 spec cls label args fm (op args s).1 res none none) _ h4
    simpa [eraseAsync, Ev.erase, eraseRun, eraseCont,
      MethodResult.settled] using this

lemma wrapStage2_proto {σ : Type} (spec : MSpec σ) (op : MethodOp σ)
    (cls label : String) (args : List JVal) (fm : FailureMode) (s : σ)
    (h3 : (∀ b, spec.before = some b → (b args).settle = true) →
      (op args s).2.isAsync = true ∨
        ((op args s).2.settle).isNullish = false) :
    eraseRun (wrapMethodStage2 spec op cls label args fm s) =
      protoStage2 spec op cls label args fm s := by
  cases hb : spec.before with
  | none =>
    have h3p := h3 fun b hb0 => by rw [hb] at hb0; exact Option.noConfusion hb0
    simpa [wrapMethodStage2, protoStage2, hb] using
      wrapStage3_proto spec op cls label args fm s h3p
  | some b =>
    cases hpv : b args with
    | sync bb =>
      cases bb with
      | true =>
        have h3p := h3 fun b2 hb2 => by
          rw [hb] at hb2
          injection hb2 with he
          rw [← he, hpv]
          rfl
        have h3 := wrapStage3_proto spec op cls label args fm s h3p
        have := eraseRun_step [Ev.evalStage .before (b args).isAsync]
          (wrapMethodStage3 spec op cls label args fm s) _ h3
        simp only [wrapMethodStage2, protoStage2, hb, hpv, PV.settle, if_true]
        simpa [hpv, eraseAsync, Ev.erase] using this
      | false =>
        simp [wrapMethodStage2, protoStage2, hb, hpv, eraseRun,
          eraseAsync_append, eraseAsync_report, eraseAsync, Ev.erase,
          settled_failResultSync, PV.settle, PV.isAsync]
    | async bb =>
      have hh := runAsync_handover2 spec op cls label args fm s b bb hb
      cases bb with
      | true =>
        simp only [if_true] at hh
        have h3 := ra3_none spec op cls label args fm s
        have := eraseCont_step [Ev.evalStage .before true]
          (runAsyncFrom3 spec op cls label args fm s none none none) _ h3
        simp only [wrapMethodStage2, protoStage2, hb, hpv, PV.settle, if_true]
        rw [hh]
        simpa [eraseAsync, Ev.erase, eraseRun, eraseCont,
          MethodResult.settled] using this
      | false =>
        simp only [Bool.false_eq_true, if_false] at hh
        simp [wrapMethodStage2, protoStage2, hb, hpv, hh, eraseRun,
          eraseAsync_append, eraseAsync_report, eraseAsync, Ev.erase,
          MethodResult.settled, PV.settle, PV.isAsync]

/-- Master refinement lemma for methods: erasing the sync/async
distinction, one invocation of the wrapped method equals the settled
five-stage reference protocol — same settled outcome, same final receiver
state, same checks, invocation, trace events and log lines. -/
lemma wrapMethod_proto {σ : Type} (spec : MSpec σ) (op : MethodOp σ)
    (cls label : String) (args : List JVal) (g : FailureMode) (s : σ)
    (hG : (∀ c, spec.constant = some c → (c s).settle = true) →
      (∀ b, spec.before = some b → (b args).settle = true) →
      (op args s).2.isAsync = true ∨
        ((op args s).2.settle).isNullish = false) :
    eraseRun (wrapMethodRun spec op cls label args g s) =
      protoMethod spec op cls label args g s := by
  unfold protoMethod
  cases hc : spec.constant with
  | none =>
    have hG2 := hG fun c hc0 => by rw [hc] at hc0; exact Option.noConfusion hc0
    simpa [wrapMethodRun, protoStage1, hc] using
      wrapStage2_proto spec op cls label args (spec.failureMode.getD g) s hG2
  | some c =>
    cases hpv : c s with
    | sync b =>
      cases b with
      | true =>
        have hG2 := hG fun c2 hc2 => by
          rw [hc] at hc2
          injection hc2 with he
          rw [← he, hpv]
          rfl
        have h2 := wrapStage2_proto spec op cls label args (spec.failureMode.getD g) s hG2
        have := eraseRun_step [Ev.evalStage .constantBefore (c s).isAsync]
          (wrapMethodStage2 spec op cls label args (spec.failureMode.getD g) s) _ h2
        simp only [wrapMethodRun, protoStage1, hc, hpv, PV.settle, if_true]
        simpa [hpv, eraseAsync, Ev.erase] using this
      | false =>
        simp [wrapMethodRun, protoStage1, hc, hpv, eraseRun,
          eraseAsync_append, eraseAsync_report, eraseAsync, Ev.erase,
          settled_failResultSync, PV.settle, PV.isAsync]
    | async b =>
      have hh := runAsync_handover1 spec op cls label args (spec.failureMode.getD g) s c b hc
      cases b with
      | true =>
        simp only [if_true] at hh
        have h2 := ra2_none spec op cls label args (spec.failureMode.getD g) s
        have := eraseCont_step [Ev.evalStage .constantBefore true]
          (runAsyncFrom2 spec op cls label args (spec.failureMode.getD g) s none none none none) _ h2
        simp only [wrapMethodRun, protoStage1, hc, hpv, PV.settle, if_true]
        rw [hh]
        simpa [eraseAsync, Ev.erase, eraseRun, eraseCont,
          MethodResult.settled] using this
      | false =>
        simp only [Bool.false_eq_true, if_false] at hh
        simp [wrapMethodRun, protoStage1, hc, hpv, hh, eraseRun,
          eraseAsync_append, eraseAsync_report, eraseAsync, Ev.erase,
          MethodResult.settled, PV.settle, PV.isAsync]

lemma runAsyncSetter_handover5 {σ : Type} (spec : MSpec σ) (op : SetterOp σ)
    (cls label : String) (v : JVal) (fm : FailureMode) (s : σ)
    (res : JVal) (c : σ → PV Bool) (b : Bool) (hc : spec.constant = some c)
    (hres : res.isNullish = false) :
    runAsyncSetter spec op cls label v fm s
      { constantBefore := some (.sync true),
        before := if spec.before.isSome then some (.sync true) else none,
        result := some (.sync res),
        after := if spec.after.isSome then some (.sync true) else none,
        constantAfter := some (.async b) } =
    (if b then ((.ok res : Except String JVal), s, ([] : List Ev))
     else
       (failResultAsync fm
          (reportSetterFailure .constantAfter spec.trace fm cls label v res).2 res,
        s, (reportSetterFailure .constantAfter spec.trace fm cls label v res).1)) := by
  cases hb : spec.before <;> cases ha : spec.after <;> cases b <;>
    simp [runAsyncSetter, runAsyncSetterFrom2, runAsyncSetterFrom3,
      runAsyncSetterFrom4, runAsyncSetterFrom5, hc, hb, ha, hres, PV.settle]

lemma runAsyncSetter_handover4 {σ : Type} (spec : MSpec σ) (op : SetterOp σ)
    (cls label : String) (v : JVal) (fm : FailureMode) (s : σ)
    (res : JVal) (a : JVal → List JVal → PV Bool) (b : Bool)
    (ha : spec.after = some a) (hres : res.isNullish = false) :
    runAsyncSetter spec op cls label v fm s
      { constantBefore := if spec.constant.isSome then some (.sync true) else none,
        before := if spec.before.isSome then some (.sync true) else none,
        result := some (.sync res),
        after := some (.async b),
        constantAfter := none } =
    (if b then runAsyncSetterFrom5 spec cls label v fm s res none
     else
       (failResultAsync fm
          (reportSetterFailure .setterAfter spec.trace fm cls label v res).2 res,
        s, (reportSetterFailure .setterAfter spec.trace fm cls label v res).1)) := by
  cases hcst : spec.constant <;> cases hb : spec.before <;> cases b <;>
    simp [runAsyncSetter, runAsyncSetterFrom2, runAsyncSetterFrom3,
      runAsyncSetterFrom4, hcst, hb, ha, hres, PV.settle]

lemma runAsyncSetter_handover3 {σ : Type} (spec : MSpec σ) (op : SetterOp σ)
    (cls label : String) (v : JVal) (fm : FailureMode) (s : σ)
    (res : JVal) :
    runAsyncSetter spec op cls label v fm s
      { constantBefore := if spec.constant.isSome then some (.sync true) else none,
        before := if spec.before.isSome then some (.sync true) else none,
        result := some (.async res),
        after := none,
        constantAfter := none } =
    runAsyncSetterFrom4 spec cls label v fm s res none none := by
  cases hcst : spec.constant <;> cases hb : spec.before <;>
    simp [runAsyncSetter, runAsyncSetterFrom2, runAsyncSetterFrom3, hcst, hb,
      PV.settle]

lemma runAsyncSetter_handover2 {σ : Type} (spec : MSpec σ) (op : SetterOp σ)
    (cls label : String) (v : JVal) (fm : FailureMode) (s : σ)
    (b0 : List JVal → PV Bool) (bb : Bool) (hb : spec.before = some b0) :
    runAsyncSetter spec op cls label v fm s
      { constantBefore := if spec.constant.isSome then some (.sync true) else none,
        before := some (.async bb),
        result := none, after := none, constantAfter := none } =
    (if bb then runAsyncSetterFrom3 spec op cls label v fm s none none none
     else
       (failResultAsync fm
          (reportSetterFailure .setterBefore spec.trace fm cls label v .undef).2 .undef,
        s, (reportSetterFailure .setterBefore spec.trace fm cls label v .undef).1)) := by
  cases hcst : spec.constant <;> cases bb <;>
    simp [runAsyncSetter, runAsyncSetterFrom2, hcst, hb, PV.settle]

lemma runAsyncSetter_handover1 {σ : Type} (spec : MSpec σ) (op : SetterOp σ)
    (cls label : String) (v : JVal) (fm : FailureMode) (s : σ)
    (c : σ → PV Bool) (bv : Bool) (hc : spec.constant = some c) :
    runAsyncSetter spec op cls label v fm s
      { constantBefore := some (.async bv),
        before := none, result := none, after := none, constantAfter := none } =
    (if bv then runAsyncSetterFrom2 spec op cls label v fm s none none none none
     else
       (failResultAsync fm
          (reportSetterFailure .constantBefore spec.trace fm cls label v .undef).2 .undef,
        s, (reportSetterFailure .constantBefore spec.trace fm cls label v .undef).1)) := by
  cases bv <;> simp [runAsyncSetter, hc, PV.settle]

lemma raS5_none {σ : Type} (spec : MSpec σ) (cls label : String)
    (v : JVal) (fm : FailureMode) (s : σ) (res : JVal) :
    eraseCont (runAsyncSetterFrom5 spec cls label v fm s res none) =
      protoSetterStage5 spec cls label v fm s res := by
  cases hc : spec.constant with
  | none => simp [runAsyncSetterFrom5, protoSetterStage5, hc, eraseCont, eraseAsync]
  | some c =>
    by_cases h : (c s).settle
    · simp [runAsyncSetterFrom5, protoSetterStage5, hc, h, eraseCont,
        eraseAsync, Ev.erase]
    · simp [runAsyncSetterFrom5, protoSetterStage5, hc, h, eraseCont,
        eraseAsync_append, eraseAsync_reportSetter, eraseAsync, Ev.erase]

lemma raS4_none {σ : Type} (spec : MSpec σ) (cls label : String)
    (v : JVal) (fm : FailureMode) (s : σ) (res : JVal) :
    eraseCont (runAsyncSetterFrom4 spec cls label v fm s res none none) =
      protoSetterStage4 spec cls label v fm s res := by
  cases ha : spec.after with
  | none =>
    simpa [runAsyncSetterFrom4, protoSetterStage4, ha] using
      raS5_none spec cls label v fm s res
  | some a =>
    by_cases h : (a res [v]).settle
    · have h5 := raS5_none spec cls label v fm s res
      have := eraseCont_step [Ev.evalStage .after (a res [v]).isAsync]
        (runAsyncSetterFrom5 spec cls label v fm s res none) _ h5
      simp only [runAsyncSetterFrom4, protoSetterStage4, ha, h, if_true]
      simpa [eraseAsync, Ev.erase, h] using this
    · simp [runAsyncSetterFrom4, protoSetterStage4, ha, h, eraseCont,
        eraseAsync_append, eraseAsync_reportSetter, eraseAsync, Ev.erase]

lemma raS3_none {σ : Type} (spec : MSpec σ) (op : SetterOp σ)
    (cls label : String) (v : JVal) (fm : FailureMode) (s : σ) :
    eraseCont (runAsyncSetterFrom3 spec op cls label v fm s none none none) =
      protoSetterStage3 spec op cls label v fm s := by
  have h4 := raS4_none spec cls label v fm (op v s).1 (op v s).2.settle
  have := eraseCont_step [Ev.invoke (op v s).2.isAsync]
    (runAsyncSetterFrom4 spec cls label v fm (op v s).1 (op v s).2.settle none none)
    _ h4
  simp only [runAsyncSetterFrom3, protoSetterStage3]
  simpa [eraseAsync, Ev.erase] using this

lemma raS2_none {σ : Type} (spec : MSpec σ) (op : SetterOp σ)
    (cls label : String) (v : JVal) (fm : FailureMode) (s : σ) :
    eraseCont (runAsyncSetterFrom2 spec op cls label v fm s none none none none) =
      protoSetterStage2 spec op cls label v fm s := by
  cases hb : spec.before with
  | none =>
    simpa [runAsyncSetterFrom2, protoSetterStage2, hb] using
      raS3_none spec op cls label v fm s
  | some b =>
    by_cases h : (b [v]).settle
    · have h3 := raS3_none spec op cls label v fm s
      have := eraseCont_step [Ev.evalStage .before (b [v]).isAsync]
        (runAsyncSetterFrom3 spec op cls label v fm s none none none) _ h3
      simp only [runAsyncSetterFrom2, protoSetterStage2, hb, h, if_true]
      simpa [eraseAsync, Ev.erase, h] using this
    · simp [runAsyncSetterFrom2, protoSetterStage2, hb, h, eraseCont,
        eraseAsync_append, eraseAsync_reportSetter, eraseAsync, Ev.erase]

lemma wrapSetterStage5_proto {σ : Type} (spec : MSpec σ) (op : SetterOp σ)
    (cls label : String) (v : JVal) (fm : FailureMode) (s : σ)
    (res : JVal) (hres : res.isNullish = false) :
    eraseRun (wrapSetterStage5 spec op cls label v fm s res) =
      protoSetterStage5 spec cls label v fm s res := by
  cases hc : spec.constant with
  | none =>
    simp [wrapSetterStage5, protoSetterStage5, hc, eraseRun, eraseAsync,
      MethodResult.settled]
  | some c =>
    cases hpv : c s with
    | sync b =>
      cases b with
      | true =>
        simp [wrapSetterStage5, protoSetterStage5, hc, hpv, eraseRun,
          eraseAsync, Ev.erase, MethodResult.settled, PV.settle, PV.isAsync]
      | false =>
        simp [wrapSetterStage5, protoSetterStage5, hc, hpv, eraseRun,
          eraseAsync_append, eraseAsync_reportSetter, eraseAsync, Ev.erase,
          settled_failResultSync, PV.settle, PV.isAsync]
    | async b =>
      have hh := runAsyncSetter_handover5 spec op cls label v fm s res c b hc hres
      cases b with
      | true =>
        simp only [if_true] at hh
        simp [wrapSetterStage5, protoSetterStage5, hc, hpv, hh, eraseRun,
          eraseAsync, Ev.erase, MethodResult.settled, PV.settle, PV.isAsync]
      | false =>
        simp only [Bool.false_eq_true, if_false] at hh
        simp [wrapSetterStage5, protoSetterStage5, hc, hpv, hh, eraseRun,
          eraseAsync_append, eraseAsync_reportSetter, eraseAsync, Ev.erase,
          MethodResult.settled, PV.settle, PV.isAsync]

lemma wrapSetterStage4_proto {σ : Type} (spec : MSpec σ) (op : SetterOp σ)
    (cls label : String) (v : JVal) (fm : FailureMode) (s : σ)
    (res : JVal) (hres : res.isNullish = false) :
    eraseRun (wrapSetterStage4 spec op cls label v fm s res) =
      protoSetterStage4 spec cls label v fm s res := by
  cases ha : spec.after with
  | none =>
    simpa [wrapSetterStage4, protoSetterStage4, ha] using
      wrapSetterStage5_proto spec op cls label v fm s res hres
  | some a =>
    cases hpv : a res [v] with
    | sync b =>
      cases b with
      | true =>
        have h5 := wrapSetterStage5_proto spec op cls label v fm s res hres
        have := eraseRun_step [Ev.evalStage .after (a res [v]).isAsync]
          (wrapSetterStage5 spec op cls label v fm s res) _ h5
        simp only [wrapSetterStage4, protoSetterStage4, ha, hpv, PV.settle, if_true]
        simpa [hpv, eraseAsync, Ev.erase] using this
      | false =>
        simp [wrapSetterStage4, protoSetterStage4, ha, hpv, eraseRun,
          eraseAsync_append, eraseAsync_reportSetter, eraseAsync, Ev.erase,
          settled_failResultSync, PV.settle, PV.isAsync]
    | async b =>
      have hh := runAsyncSetter_handover4 spec op cls label v fm s res a b ha hres
      cases b with
      | true =>
        simp only [if_true] at hh
        have h5 := raS5_none spec cls label v fm s res
        have := eraseCont_step [Ev.evalStage .after true]
          (runAsyncSetterFrom5 spec cls label v fm s res none) _ h5
        simp only [wrapSetterStage4, protoSetterStage4, ha, hpv, PV.settle, if_true]
        rw [hh]
        simpa [eraseAsync, Ev.erase, eraseRun, eraseCont,
          MethodResult.settled] using this
      | false =>
        simp only [Bool.false_eq_true, if_false] at hh
        simp [wrapSetterStage4, protoSetterStage4, ha, hpv, hh, eraseRun,
          eraseAsync_append, eraseAsync_reportSetter, eraseAsync, Ev.erase,
          MethodResult.settled, PV.settle, PV.isAsync]

lemma wrapSetterStage3_proto {σ : Type} (spec : MSpec σ) (op : SetterOp σ)
    (cls label : String) (v : JVal) (fm : FailureMode) (s : σ)
    (h3 : (op v s).2.isAsync = true ∨ ((op v s).2.settle).isNullish = false) :
    eraseRun (wrapSetterStage3 spec op cls label v fm s) =
      protoSetterStage3 spec op cls label v fm s := by
  cases hr : (op v s).2 with
  | sync res =>
    have hres : res.isNullish = false := by
      rcases h3 with h3 | h3
      · rw [hr] at h3
        simp [PV.isAsync] at h3
      · rw [hr] at h3
        simpa [PV.settle] using h3
    have h4 := wrapSetterStage4_proto spec op cls label v fm (op v s).1 res hres
    have := eraseRun_step [Ev.invoke (op v s).2.isAsync]
      (wrapSetterStage4 spec op cls label v fm (op v s).1 res) _ h4
    simp only [wrapSetterStage3, protoSetterStage3, hr, PV.settle]
    simpa [hr, eraseAsync, Ev.erase] using this
  | async res =>
    have hh := runAsyncSetter_handover3 spec op cls label v fm (op v s).1 res
    have h4 := raS4_none spec cls label v fm (op v s).1 res
    simp only [wrapSetterStage3, protoSetterStage3, hr, PV.settle]
    rw [hh]
    have := eraseCont_step [Ev.invoke true]
      (runAsyncSetterFrom4 spec cls label v fm (op v s).1 res none none) _ h4
    simpa [eraseAsync, Ev.erase, eraseRun, eraseCont,
      MethodResult.settled] using this

lemma wrapSetterStage2_proto {σ : Type} (spec : MSpec σ) (op : SetterOp σ)
    (cls label : String) (v : JVal) (fm : FailureMode) (s : σ)
    (h3 : (∀ b, spec.before = some b → (b [v]).settle = true) →
      (op v s).2.isAsync = true ∨ ((op v s).2.settle).isNullish = false) :
    eraseRun (wrapSetterStage2 spec op cls label v fm s) =
      protoSetterStage2 spec op cls label v fm s := by
  cases hb : spec.before with
  | none =>
    have h3p := h3 fun b hb0 => by rw [hb] at hb0; exact Option.noConfusion hb0
    simpa [wrapSetterStage2, protoSetterStage2, hb] using
      wrapSetterStage3_proto spec op cls label v fm s h3p
  | some b =>
    cases hpv : b [v] with
    | sync bb =>
      cases bb with
      | true =>
        have h3p := h3 fun b2 hb2 => by
          rw [hb] at hb2
          injection hb2 with he
          rw [← he, hpv]
          rfl
        have h3 := wrapSetterStage3_proto spec op cls label v fm s h3p
        have := eraseRun_step [Ev.evalStage .before (b [v]).isAsync]
          (wrapSetterStage3 spec op cls label v fm s) _ h3
        simp only [wrapSetterStage2, protoSetterStage2, hb, hpv, PV.settle, if_true]
        simpa [hpv, eraseAsync, Ev.erase] using this
      | false =>
        simp [wrapSetterStage2, protoSetterStage2, hb, hpv, eraseRun,
          eraseAsync_append, eraseAsync_reportSetter, eraseAsync, Ev.erase,
          settled_failResultSync, PV.settle, PV.isAsync]
    | async bb =>
      have hh := runAsyncSetter_handover2 spec op cls label v fm s b bb hb
      cases bb with
      | true =>
        simp only [if_true] at hh
        have h3 := raS3_none spec op cls label v fm s
        have := eraseCont_step [Ev.evalStage .before true]
          (runAsyncSetterFrom3 spec op cls label v fm s none none none) _ h3
        simp only [wrapSetterStage2, protoSetterStage2, hb, hpv, PV.settle, if_true]
        rw [hh]
        simpa [eraseAsync, Ev.erase, eraseRun, eraseCont,
          MethodResult.settled] using this
      | false =>
        simp only [Bool.false_eq_true, if_false] at hh
        simp [wrapSetterStage2, protoSetterStage2, hb, hpv, hh, eraseRun,
          eraseAsync_append, eraseAsync_reportSetter, eraseAsync, Ev.erase,
          MethodResult.settled, PV.settle, PV.isAsync]

/-- Master refinement lemma for setters: erasing the sync/async
distinction, one invocation of the wrapped setter equals the settled
five-stage reference protocol. -/
lemma wrapSetter_proto {σ : Type} (spec : MSpec σ) (op : SetterOp σ)
    (cls label : String) (v : JVal) (g : FailureMode) (s : σ)
    (hG : (∀ c, spec.constant = some c → (c s).settle = true) →
      (∀ b, spec.before = some b → (b [v]).settle = true) →
      (op v s).2.isAsync = true ∨ ((op v s).2.settle).isNullish = false) :
    eraseRun (wrapSetterRun spec op cls label v g s) =
      protoSetter spec op cls label v g s := by
  unfold protoSetter
  cases hc : spec.constant with
  | none =>
    have hG2 := hG fun c hc0 => by rw [hc] at hc0; exact Option.noConfusion hc0
    simpa [wrapSetterRun, protoSetterStage1, hc] using
      wrapSetterStage2_proto spec op cls label v (spec.failureMode.getD g) s hG2
  | some c =>
    cases hpv : c s with
    | sync b =>
      cases b with
      | true =>
        have hG2 := hG fun c2 hc2 => by
          rw [hc] at hc2
          injection hc2 with he
          rw [← he, hpv]
          rfl
        have h2 := wrapSetterStage2_proto spec op cls label v (spec.failureMode.getD g) s hG2
        have := eraseRun_step [Ev.evalStage .constantBefore (c s).isAsync]
          (wrapSetterStage2 spec op cls label v (spec.failureMode.getD g) s) _ h2
        simp only [wrapSetterRun, protoSetterStage1, hc, hpv, PV.settle, if_true]
        simpa [hpv, eraseAsync, Ev.erase] using this
      | false =>
        simp [wrapSetterRun, protoSetterStage1, hc, hpv, eraseRun,
          eraseAsync_append, eraseAsync_reportSetter, eraseAsync, Ev.erase,
          settled_failResultSync, PV.settle, PV.isAsync]
    | async b =>
      have hh := runAsyncSetter_handover1 spec op cls label v (spec.failureMode.getD g) s c b hc
      cases b with
      | true =>
        simp only [if_true] at hh
        have h2 := raS2_none spec op cls label v (spec.failureMode.getD g) s
        have := eraseCont_step [Ev.evalStage .constantBefore true]
          (runAsyncSetterFrom2 spec op cls label v (spec.failureMode.getD g) s none none none none) _ h2
        simp only [wrapSetterRun, protoSetterStage1, hc, hpv, PV.settle, if_true]
        rw [hh]
        simpa [eraseAsync, Ev.erase, eraseRun, eraseCont,
          MethodResult.settled] using this
      | false =>
        simp only [Bool.false_eq_true, if_false] at hh
        simp [wrapSetterRun, protoSetterStage1, hc, hpv, hh, eraseRun,
          eraseAsync_append, eraseAsync_reportSetter, eraseAsync, Ev.erase,
          MethodResult.settled, PV.settle, PV.isAsync]

lemma isEvalOf_erase (st : Stage) (e : Ev) :
    isEvalOf st (Ev.erase e) = isEvalOf st e := by
  cases e <;> rfl

lemma isInvoke_erase (e : Ev) : isInvoke (Ev.erase e) = isInvoke e := by
  cases e <;> rfl

lemma countP_eraseAsync (p : Ev → Bool) (hp : ∀ e, p (Ev.erase e) = p e)
    (evs : List Ev) : (eraseAsync evs).countP p = evs.countP p := by
  induction evs with
  | nil => rfl
  | cons e rest ih =>
    simp [eraseAsync, List.countP_cons, hp] at ih ⊢
    omega

lemma stageCount_eraseAsync (evs : List Ev) (st : Stage) :
    stageCount (eraseAsync evs) st = stageCount evs st :=
  countP_eraseAsync _ (isEvalOf_erase st) evs

lemma invokeCount_eraseAsync (evs : List Ev) :
    invokeCount (eraseAsync evs) = invokeCount evs :=
  countP_eraseAsync _ isInvoke_erase evs

lemma traceOut_mem_eraseAsync (i : TraceInfo) (evs : List Ev) :
    Ev.traceOut i ∈ eraseAsync evs ↔ Ev.traceOut i ∈ evs := by
  induction evs with
  | nil => simp [eraseAsync]
  | cons e rest ih =>
    have he : eraseAsync (e :: rest) = Ev.erase e :: eraseAsync rest := rfl
    rw [he]
    constructor
    · intro h
      rcases List.mem_cons.mp h with h | h
      · cases e <;> simp [Ev.erase] at h <;> simp [h]
      · exact List.mem_cons_of_mem _ (ih.mp h)
    · intro h
      rcases List.mem_cons.mp h with h | h
      · rw [h]
        cases e <;> simp at h <;> simp [Ev.erase]
      · exact List.mem_cons_of_mem _ (ih.mpr h)

lemma countP_report (p : Ev → Bool) (hp1 : ∀ i, p (.traceOut i) = false)
    (hp2 : ∀ m, p (.logOut m) = false) (k : MKind) (t : Option TraceOption)
    (fm : FailureMode) (cls label : String) (args : List JVal) (res : JVal) :
    ((reportMethodFailure k t fm cls label args res).1).countP p = 0 := by
  cases fm <;>
    simp [reportMethodFailure, emitTrace, handleFailureEvs, List.countP_cons,
      hp1, hp2]

lemma countP_reportSetter (p : Ev → Bool) (hp1 : ∀ i, p (.traceOut i) = false)
    (hp2 : ∀ m, p (.logOut m) = false) (k : SKind) (t : Option TraceOption)
    (fm : FailureMode) (cls label : String) (v res : JVal) :
    ((reportSetterFailure k t fm cls label v res).1).countP p = 0 := by
  cases fm <;>
    simp [reportSetterFailure, emitTrace, handleFailureEvs, List.countP_cons,
      hp1, hp2]

lemma stageCount_report (st : Stage) (k : MKind) (t : Option TraceOption)
    (fm : FailureMode) (cls label : String) (args : List JVal) (res : JVal) :
    stageCount (reportMethodFailure k t fm cls label args res).1 st = 0 :=
  countP_report _ (fun _ => rfl) (fun _ => rfl) k t fm cls label args res

lemma invokeCount_report (k : MKind) (t : Option TraceOption)
    (fm : FailureMode) (cls label : String) (args : List JVal) (res : JVal) :
    invokeCount (reportMethodFailure k t fm cls label args res).1 = 0 :=
  countP_report _ (fun _ => rfl) (fun _ => rfl) k t fm cls label args res

lemma stageCount_reportSetter (st : Stage) (k : SKind) (t : Option TraceOption)
    (fm : FailureMode) (cls label : String) (v res : JVal) :
    stageCount (reportSetterFailure k t fm cls label v res).1 st = 0 :=
  countP_reportSetter _ (fun _ => rfl) (fun _ => rfl) k t fm cls label v res

lemma invokeCount_reportSetter (k : SKind) (t : Option TraceOption)
    (fm : FailureMode) (cls label : String) (v res : JVal) :
    invokeCount (reportSetterFailure k t fm cls label v res).1 = 0 :=
  countP_reportSetter _ (fun _ => rfl) (fun _ => rfl) k t fm cls label v res

lemma stageCount_cons (e : Ev) (l : List Ev) (st : Stage) :
    stageCount (e :: l) st = stageCount l st + (if isEvalOf st e then 1 else 0) := by
  simp [stageCount, List.countP_cons]

lemma invokeCount_cons (e : Ev) (l : List Ev) :
    invokeCount (e :: l) = invokeCount l + (if isInvoke e then 1 else 0) := by
  simp [invokeCount, List.countP_cons]

lemma stageCount_append (a b : List Ev) (st : Stage) :
    stageCount (a ++ b) st = stageCount a st + stageCount b st := by
  simp [stageCount, List.countP_append]

lemma invokeCount_append (a b : List Ev) :
    invokeCount (a ++ b) = invokeCount a + invokeCount b := by
  simp [invokeCount, List.countP_append]

lemma stageCount_singleton_eval (st st2 : Stage) (a : Bool) :
    stageCount [Ev.evalStage st2 a] st = if st2 = st then 1 else 0 := by
  by_cases h : st2 = st <;> simp [stageCount, List.countP_cons, isEvalOf, h]

lemma stageCount_singleton_invoke (st : Stage) (a : Bool) :
    stageCount [Ev.invoke a] st = 0 := rfl

lemma invokeCount_singleton_eval (st2 : Stage) (a : Bool) :
    invokeCount [Ev.evalStage st2 a] = 0 := rfl

lemma invokeCount_singleton_invoke (a : Bool) :
    invokeCount [Ev.invoke a] = 1 := rfl

lemma stageCount_nil (st : Stage) : stageCount [] st = 0 := rfl

lemma stageCount_cons_invoke (a : Bool) (l : List Ev) (st : Stage) :
    stageCount (Ev.invoke a :: l) st = stageCount l st := by
  simp [stageCount, List.countP_cons, isEvalOf]

lemma invokeCount_cons_invoke (a : Bool) (l : List Ev) :
    invokeCount (Ev.invoke a :: l) = invokeCount l + 1 := by
  simp [invokeCount, List.countP_cons, isInvoke]

lemma invokeCount_nil : invokeCount [] = 0 := rfl

lemma protoStage5_counts {σ : Type} (spec : MSpec σ) (cls label : String)
    (args : List JVal) (fm : FailureMode) (s : σ) (res : JVal) :
    stageCount (protoStage5 spec cls label args fm s res).2.2 Stage.constantBefore = 0 ∧
    stageCount (protoStage5 spec cls label args fm s res).2.2 Stage.before = 0 ∧
    stageCount (protoStage5 spec cls label args fm s res).2.2 Stage.after = 0 ∧
    stageCount (protoStage5 spec cls label args fm s res).2.2 Stage.constantAfter ≤ 1 ∧
    invokeCount (protoStage5 spec cls label args fm s res).2.2 = 0 := by
  cases hc : spec.constant with
  | none => simp [protoStage5, hc, stageCount_nil, invokeCount_nil]
  | some c =>
    by_cases h : (c s).settle <;>
      simp [protoStage5, hc, h, stageCount_append, invokeCount_append,
        stageCount_cons, invokeCount_cons, isEvalOf, isInvoke,
        stageCount_nil, invokeCount_nil, stageCount_report, invokeCount_report]

lemma protoStage4_counts {σ : Type} (spec : MSpec σ) (cls label : String)
    (args : List JVal) (fm : FailureMode) (s : σ) (res : JVal) :
    stageCount (protoStage4 spec cls label args fm s res).2.2 Stage.constantBefore = 0 ∧
    stageCount (protoStage4 spec cls label args fm s res).2.2 Stage.before = 0 ∧
    stageCount (protoStage4 spec cls label args fm s res).2.2 Stage.after ≤ 1 ∧
    stageCount (protoStage4 spec cls label args fm s res).2.2 Stage.constantAfter ≤ 1 ∧
    invokeCount (protoStage4 spec cls label args fm s res).2.2 = 0 := by
  obtain ⟨a1, a2, a3, a4, a5⟩ := protoStage5_counts spec cls label args fm s res
  cases ha : spec.after with
  | none =>
    have he : protoStage4 spec cls label args fm s res =
        protoStage5 spec cls label args fm s res := by
      simp [protoStage4, ha]
    rw [he]
    exact ⟨a1, a2, by omega, a4, a5⟩
  | some a =>
    by_cases h : (a res args).settle <;>
      simp [protoStage4, ha, h, stageCount_append, invokeCount_append,
        stageCount_cons, invokeCount_cons, isEvalOf, isInvoke,
        stageCount_nil, invokeCount_nil, stageCount_report,
        invokeCount_report] <;>
      refine ⟨by omega, by omega, by omega, by omega⟩

lemma protoStage3_counts {σ : Type} (spec : MSpec σ) (op : MethodOp σ)
    (cls label : String) (args : List JVal) (fm : FailureMode) (s : σ) :
    stageCount (protoStage3 spec op cls label args fm s).2.2 Stage.constantBefore = 0 ∧
    stageCount (protoStage3 spec op cls label args fm s).2.2 Stage.before = 0 ∧
    stageCount (protoStage3 spec op cls label args fm s).2.2 Stage.after ≤ 1 ∧
    stageCount (protoStage3 spec op cls label args fm s).2.2 Stage.constantAfter ≤ 1 ∧
    invokeCount (protoStage3 spec op cls label args fm s).2.2 ≤ 1 := by
  obtain ⟨a1, a2, a3, a4, a5⟩ :=
    protoStage4_counts spec cls label args fm (op args s).1 (op args s).2.settle
  simp only [protoStage3, stageCount_cons_invoke, invokeCount_cons_invoke]
  refine ⟨by omega, by omega, by omega, by omega, by omega⟩

lemma protoStage2_counts {σ : Type} (spec : MSpec σ) (op : MethodOp σ)
    (cls label : String) (args : List JVal) (fm : FailureMode) (s : σ) :
    stageCount (protoStage2 spec op cls label args fm s).2.2 Stage.constantBefore = 0 ∧
    stageCount (protoStage2 spec op cls label args fm s).2.2 Stage.before ≤ 1 ∧
    stageCount (protoStage2 spec op cls label args fm s).2.2 Stage.after ≤ 1 ∧
    stageCount (protoStage2 spec op cls label args fm s).2.2 Stage.constantAfter ≤ 1 ∧
    invokeCount (protoStage2 spec op cls label args fm s).2.2 ≤ 1 := by
  obtain ⟨a1, a2, a3, a4, a5⟩ := protoStage3_counts spec op cls label args fm s
  cases hb : spec.before with
  | none =>
    have he : protoStage2 spec op cls label args fm s =
        protoStage3 spec op cls label args fm s := by
      simp [protoStage2, hb]
    rw [he]
    exact ⟨a1, by omega, a3, a4, a5⟩
  | some b =>
    by_cases h : (b args).settle <;>
      simp [protoStage2, hb, h, stageCount_append, invokeCount_append,
        stageCount_cons, invokeCount_cons, isEvalOf, isInvoke,
        stageCount_nil, invokeCount_nil, stageCount_report,
        invokeCount_report] <;>
      refine ⟨by omega, by omega, by omega, by omega, by omega⟩

lemma protoStage1_counts {σ : Type} (spec : MSpec σ) (op : MethodOp σ)
    (cls label : String) (args : List JVal) (fm : FailureMode) (s : σ) :
    stageCount (protoStage1 spec op cls label args fm s).2.2 Stage.constantBefore ≤ 1 ∧
    stageCount (protoStage1 spec op cls label args fm s).2.2 Stage.before ≤ 1 ∧
    stageCount (protoStage1 spec op cls label args fm s).2.2 Stage.after ≤ 1 ∧
    stageCount (protoStage1 spec op cls label args fm s).2.2 Stage.constantAfter ≤ 1 ∧
    invokeCount (protoStage1 spec op cls label args fm s).2.2 ≤ 1 := by
  obtain ⟨a1, a2, a3, a4, a5⟩ := protoStage2_counts spec op cls label args fm s
  cases hc : spec.constant with
  | none =>
    have he : protoStage1 spec op cls label args fm s =
        protoStage2 spec op cls label args fm s := by
      simp [protoStage1, hc]
    rw [he]
    exact ⟨by omega, a2, a3, a4, a5⟩
  | some c =>
    by_cases h : (c s).settle <;>
      simp [protoStage1, hc, h, stageCount_append, invokeCount_append,
        stageCount_cons, invokeCount_cons, isEvalOf, isInvoke,
        stageCount_nil, invokeCount_nil, stageCount_report,
        invokeCount_report] <;>
      refine ⟨by omega, by omega, by omega, by omega, by omega⟩

lemma protoSetterStage5_counts {σ : Type} (spec : MSpec σ) (cls label : String)
    (v : JVal) (fm : FailureMode) (s : σ) (res : JVal) :
    stageCount (protoSetterStage5 spec cls label v fm s res).2.2 Stage.constantBefore = 0 ∧
    stageCount (protoSetterStage5 spec cls label v fm s res).2.2 Stage.before = 0 ∧
    stageCount (protoSetterStage5 spec cls label v fm s res).2.2 Stage.after = 0 ∧
    stageCount (protoSetterStage5 spec cls label v fm s res).2.2 Stage.constantAfter ≤ 1 ∧
    invokeCount (protoSetterStage5 spec cls label v fm s res).2.2 = 0 := by
  cases hc : spec.constant with
  | none => simp [protoSetterStage5, hc, stageCount_nil, invokeCount_nil]
  | some c =>
    by_cases h : (c s).settle <;>
      simp [protoSetterStage5, hc, h, stageCount_append, invokeCount_append,
        stageCount_cons, invokeCount_cons, isEvalOf, isInvoke,
        stageCount_nil, invokeCount_nil, stageCount_reportSetter,
        invokeCount_reportSetter]

lemma protoSetterStage4_counts {σ : Type} (spec : MSpec σ) (cls label : String)
    (v : JVal) (fm : FailureMode) (s : σ) (res : JVal) :
    stageCount (protoSetterStage4 spec cls label v fm s res).2.2 Stage.constantBefore = 0 ∧
    stageCount (protoSetterStage4 spec cls label v fm s res).2.2 Stage.before = 0 ∧
    stageCount (protoSetterStage4 spec cls label v fm s res).2.2 Stage.after ≤ 1 ∧
    stageCount (protoSetterStage4 spec cls label v fm s res).2.2 Stage.constantAfter ≤ 1 ∧
    invokeCount (protoSetterStage4 spec cls label v fm s res).2.2 = 0 := by
  obtain ⟨a1, a2, a3, a4, a5⟩ := protoSetterStage5_counts spec cls label v fm s res
  cases ha : spec.after with
  | none =>
    have he : protoSetterStage4 spec cls label v fm s res =
        protoSetterStage5 spec cls label v fm s res := by
      simp [protoSetterStage4, ha]
    rw [he]
    exact ⟨a1, a2, by omega, a4, a5⟩
  | some a =>
    by_cases h : (a res [v]).settle <;>
      simp [protoSetterStage4, ha, h, stageCount_append, invokeCount_append,
        stageCount_cons, invokeCount_cons, isEvalOf, isInvoke,
        stageCount_nil, invokeCount_nil, stageCount_reportSetter,
        invokeCount_reportSetter] <;>
      refine ⟨by omega, by omega, by omega, by omega⟩

lemma protoSetterStage3_counts {σ : Type} (spec : MSpec σ) (op : SetterOp σ)
    (cls label : String) (v : JVal) (fm : FailureMode) (s : σ) :
    stageCount (protoSetterStage3 spec op cls label v fm s).2.2 Stage.constantBefore = 0 ∧
    stageCount (protoSetterStage3 spec op cls label v fm s).2.2 Stage.before = 0 ∧
    stageCount (protoSetterStage3 spec op cls label v fm s).2.2 Stage.after ≤ 1 ∧
    stageCount (protoSetterStage3 spec op cls label v fm s).2.2 Stage.constantAfter ≤ 1 ∧
    invokeCount (protoSetterStage3 spec op cls label v fm s).2.2 ≤ 1 := by
  obtain ⟨a1, a2, a3, a4, a5⟩ :=
    protoSetterStage4_counts spec cls label v fm (op v s).1 (op v s).2.settle
  simp only [protoSetterStage3, stageCount_cons_invoke, invokeCount_cons_invoke]
  refine ⟨by omega, by omega, by omega, by omega, by omega⟩

lemma protoSetterStage2_counts {σ : Type} (spec : MSpec σ) (op : SetterOp σ)
    (cls label : String) (v : JVal) (fm : FailureMode) (s : σ) :
    stageCount (protoSetterStage2 spec op cls label v fm s).2.2 Stage.constantBefore = 0 ∧
    stageCount (protoSetterStage2 spec op cls label v fm s).2.2 Stage.before ≤ 1 ∧
    stageCount (protoSetterStage2 spec op cls label v fm s).2.2 Stage.after ≤ 1 ∧
    stageCount (protoSetterStage2 spec op cls label v fm s).2.2 Stage.constantAfter ≤ 1 ∧
    invokeCount (protoSetterStage2 spec op cls label v fm s).2.2 ≤ 1 := by
  obtain ⟨a1, a2, a3, a4, a5⟩ := protoSetterStage3_counts spec op cls label v fm s
  cases hb : spec.before with
  | none =>
    have he : protoSetterStage2 spec op cls label v fm s =
        protoSetterStage3 spec op cls label v fm s := by
      simp [protoSetterStage2, hb]
    rw [he]
    exact ⟨a1, by omega, a3, a4, a5⟩
  | some b =>
    by_cases h : (b [v]).settle <;>
      simp [protoSetterStage2, hb, h, stageCount_append, invokeCount_append,
        stageCount_cons, invokeCount_cons, isEvalOf, isInvoke,
        stageCount_nil, invokeCount_nil, stageCount_reportSetter,
        invokeCount_reportSetter] <;>
      refine ⟨by omega, by omega, by omega, by omega, by omega⟩

lemma protoSetterStage1_counts {σ : Type} (spec : MSpec σ) (op : SetterOp σ)
    (cls label : String) (v : JVal) (fm : FailureMode) (s : σ) :
    stageCount (protoSetterStage1 spec op cls label v fm s).2.2 Stage.constantBefore ≤ 1 ∧
    stageCount (protoSetterStage1 spec op cls label v fm s).2.2 Stage.before ≤ 1 ∧
    stageCount (protoSetterStage1 spec op cls label v fm s).2.2 Stage.after ≤ 1 ∧
    stageCount (protoSetterStage1 spec op cls label v fm s).2.2 Stage.constantAfter ≤ 1 ∧
    invokeCount (protoSetterStage1 spec op cls label v fm s).2.2 ≤ 1 := by
  obtain ⟨a1, a2, a3, a4, a5⟩ := protoSetterStage2_counts spec op cls label v fm s
  cases hc : spec.constant with
  | none =>
    have he : protoSetterStage1 spec op cls label v fm s =
        protoSetterStage2 spec op cls label v fm s := by
      simp [protoSetterStage1, hc]
    rw [he]
    exact ⟨by omega, a2, a3, a4, a5⟩
  | some c =>
    by_cases h : (c s).settle <;>
      simp [protoSetterStage1, hc, h, stageCount_append, invokeCount_append,
        stageCount_cons, invokeCount_cons, isEvalOf, isInvoke,
        stageCount_nil, invokeCount_nil, stageCount_reportSetter,
        invokeCount_reportSetter] <;>
      refine ⟨by omega, by omega, by omega, by omega, by omega⟩

lemma specBound_matched {α : Type} (f : Option α) (x : PV Bool) :
    specBound f (if f.isSome then some x else none) = 0 := by
  cases f <;> simp [specBound, cacheBound]

lemma specBound_le_one {α β : Type} (f : Option α) (c : Option β) :
    specBound f c ≤ 1 := by
  cases f <;> cases c <;> simp [specBound, cacheBound]

lemma specBound_some_some {α β : Type} (x : α) (y : β) :
    specBound (some x) (some y) = 0 := rfl

lemma specBound_some_none {α β : Type} (x : α) :
    specBound (some x) (none : Option β) = 1 := rfl

lemma specBound_none {α β : Type} (c : Option β) :
    specBound (none : Option α) c = 0 := rfl

lemma resInvokeBound_le_one (ir : Option (PV JVal)) :
    resInvokeBound ir ≤ 1 := by
  cases ir with
  | none => simp [resInvokeBound]
  | some pv => cases pv <;> simp [resInvokeBound]

lemma resInvokeBound_sync (r : JVal) :
    resInvokeBound (some (.sync r)) = 1 := rfl

lemma resInvokeBound_async (r : JVal) :
    resInvokeBound (some (.async r)) = 0 := rfl

lemma resInvokeBound_none : resInvokeBound none = 1 := rfl

lemma runAsyncFrom5_counts {σ : Type} (spec : MSpec σ) (cls label : String)
    (args : List JVal) (fm : FailureMode) (s : σ) (res : JVal)
    (initCA : Option (PV Bool)) :
    stageCount (runAsyncFrom5 spec cls label args fm s res initCA).2.2 Stage.constantBefore = 0 ∧
    stageCount (runAsyncFrom5 spec cls label args fm s res initCA).2.2 Stage.before = 0 ∧
    stageCount (runAsyncFrom5 spec cls label args fm s res initCA).2.2 Stage.after = 0 ∧
    stageCount (runAsyncFrom5 spec cls label args fm s res initCA).2.2 Stage.constantAfter ≤
      specBound spec.constant initCA ∧
    invokeCount (runAsyncFrom5 spec cls label args fm s res initCA).2.2 = 0 := by
  cases hc : spec.constant with
  | none => simp [runAsyncFrom5, hc, stageCount_nil, invokeCount_nil]
  | some c =>
    cases hca : initCA with
    | some pv =>
      by_cases h : pv.settle <;>
        simp [runAsyncFrom5, hc, hca, h, specBound_some_some,
          stageCount_append, invokeCount_append, stageCount_cons,
          invokeCount_cons, isEvalOf, isInvoke, stageCount_nil,
          invokeCount_nil, stageCount_report, invokeCount_report]
    | none =>
      by_cases h : (c s).settle <;>
        simp [runAsyncFrom5, hc, hca, h, specBound_some_none,
          stageCount_append, invokeCount_append, stageCount_cons,
          invokeCount_cons, isEvalOf, isInvoke, stageCount_nil,
          invokeCount_nil, stageCount_report, invokeCount_report]

lemma runAsyncFrom4_counts {σ : Type} (spec : MSpec σ) (cls label : String)
    (args : List JVal) (fm : FailureMode) (s : σ) (res : JVal)
    (initAfter initCA : Option (PV Bool)) :
    stageCount (runAsyncFrom4 spec cls label args fm s res initAfter initCA).2.2 Stage.constantBefore = 0 ∧
    stageCount (runAsyncFrom4 spec cls label args fm s res initAfter initCA).2.2 Stage.before = 0 ∧
    stageCount (runAsyncFrom4 spec cls label args fm s res initAfter initCA).2.2 Stage.after ≤
      specBound spec.after initAfter ∧
    stageCount (runAsyncFrom4 spec cls label args fm s res initAfter initCA).2.2 Stage.constantAfter ≤
      specBound spec.constant initCA ∧
    invokeCount (runAsyncFrom4 spec cls label args fm s res initAfter initCA).2.2 = 0 := by
  obtain ⟨a1, a2, a3, a4, a5⟩ := runAsyncFrom5_counts spec cls label args fm s res initCA
  cases ha : spec.after with
  | none =>
    have he : runAsyncFrom4 spec cls label args fm s res initAfter initCA =
        runAsyncFrom5 spec cls label args fm s res initCA := by
      simp [runAsyncFrom4, ha]
    rw [he]
    refine ⟨a1, a2, ?_, a4, a5⟩
    omega
  | some a =>
    cases hia : initAfter with
    | some pv =>
      by_cases h : pv.settle <;> refine ⟨?_, ?_, ?_, ?_, ?_⟩ <;>
        (try simp [runAsyncFrom4, ha, hia, h,
          stageCount_append, invokeCount_append, stageCount_cons,
          invokeCount_cons, isEvalOf, isInvoke, stageCount_nil,
          invokeCount_nil, stageCount_report, invokeCount_report,
          stageCount_cons_invoke, invokeCount_cons_invoke,
          specBound_some_some, specBound_some_none]) <;>
        omega
    | none =>
      by_cases h : (a res args).settle <;> refine ⟨?_, ?_, ?_, ?_, ?_⟩ <;>
        (try simp [runAsyncFrom4, ha, hia, h,
          stageCount_append, invokeCount_append, stageCount_cons,
          invokeCount_cons, isEvalOf, isInvoke, stageCount_nil,
          invokeCount_nil, stageCount_report, invokeCount_report,
          stageCount_cons_invoke, invokeCount_cons_invoke,
          specBound_some_some, specBound_some_none]) <;>
        omega

lemma runAsyncFrom3_counts {σ : Type} (spec : MSpec σ) (op : MethodOp σ)
    (cls label : String) (args : List JVal) (fm : FailureMode) (s : σ)
    (initResult : Option (PV JVal)) (initAfter initCA : Option (PV Bool)) :
    stageCount (runAsyncFrom3 spec op cls label args fm s initResult initAfter initCA).2.2 Stage.constantBefore = 0 ∧
    stageCount (runAsyncFrom3 spec op cls label args fm s initResult initAfter initCA).2.2 Stage.before = 0 ∧
    stageCount (runAsyncFrom3 spec op cls label args fm s initResult initAfter initCA).2.2 Stage.after ≤
      specBound spec.after initAfter ∧
    stageCount (runAsyncFrom3 spec op cls label args fm s initResult initAfter initCA).2.2 Stage.constantAfter ≤
      specBound spec.constant initCA ∧
    invokeCount (runAsyncFrom3 spec op cls label args fm s initResult initAfter initCA).2.2 ≤
      resInvokeBound initResult := by
  cases hir : initResult with
  | none =>
    obtain ⟨a1, a2, a3, a4, a5⟩ := runAsyncFrom4_counts spec cls label args fm
      (op args s).1 (op args s).2.settle initAfter initCA
    refine ⟨?_, ?_, ?_, ?_, ?_⟩ <;>
      (try simp [runAsyncFrom3, hir, resInvokeBound,
        stageCount_append, invokeCount_append, stageCount_cons,
          invokeCount_cons, isEvalOf, isInvoke, stageCount_nil,
          invokeCount_nil, stageCount_report, invokeCount_report,
          stageCount_cons_invoke, invokeCount_cons_invoke,
          specBound_some_some, specBound_some_none]) <;>
      omega
  | some pv =>
    cases pv with
    | async r =>
      obtain ⟨a1, a2, a3, a4, a5⟩ := runAsyncFrom4_counts spec cls label args fm
        s r initAfter initCA
      refine ⟨?_, ?_, ?_, ?_, ?_⟩ <;>
        (try simp [runAsyncFrom3, hir, resInvokeBound,
          stageCount_append, invokeCount_append, stageCount_cons,
          invokeCount_cons, isEvalOf, isInvoke, stageCount_nil,
          invokeCount_nil, stageCount_report, invokeCount_report,
          stageCount_cons_invoke, invokeCount_cons_invoke,
          specBound_some_some, specBound_some_none]) <;>
        omega
    | sync r =>
      by_cases h : r.isNullish = true
      · obtain ⟨a1, a2, a3, a4, a5⟩ := runAsyncFrom4_counts spec cls label args
          fm (op args s).1 (op args s).2.settle initAfter initCA
        refine ⟨?_, ?_, ?_, ?_, ?_⟩ <;>
          (try simp [runAsyncFrom3, hir, h, resInvokeBound,
            stageCount_append, invokeCount_append, stageCount_cons,
          invokeCount_cons, isEvalOf, isInvoke, stageCount_nil,
          invokeCount_nil, stageCount_report, invokeCount_report,
          stageCount_cons_invoke, invokeCount_cons_invoke,
          specBound_some_some, specBound_some_none]) <;>
          omega
      · obtain ⟨a1, a2, a3, a4, a5⟩ := runAsyncFrom4_counts spec cls label args
          fm s r initAfter initCA
        refine ⟨?_, ?_, ?_, ?_, ?_⟩ <;>
          (try simp [runAsyncFrom3, hir, h, resInvokeBound,
            stageCount_append, invokeCount_append, stageCount_cons,
          invokeCount_cons, isEvalOf, isInvoke, stageCount_nil,
          invokeCount_nil, stageCount_report, invokeCount_report,
          stageCount_cons_invoke, invokeCount_cons_invoke,
          specBound_some_some, specBound_some_none]) <;>
          omega

lemma runAsyncFrom2_counts {σ : Type} (spec : MSpec σ) (op : MethodOp σ)
    (cls label : String) (args : List JVal) (fm : FailureMode) (s : σ)
    (initBefore : Option (PV Bool)) (initResult : Option (PV JVal))
    (initAfter initCA : Option (PV Bool)) :
    stageCount (runAsyncFrom2 spec op cls label args fm s initBefore initResult initAfter initCA).2.2 Stage.constantBefore = 0 ∧
    stageCount (runAsyncFrom2 spec op cls label args fm s initBefore initResult initAfter initCA).2.2 Stage.before ≤
      specBound spec.before initBefore ∧
    stageCount (runAsyncFrom2 spec op cls label args fm s initBefore initResult initAfter initCA).2.2 Stage.after ≤
      specBound spec.after initAfter ∧
    stageCount (runAsyncFrom2 spec op cls label args fm s initBefore initResult initAfter initCA).2.2 Stage.constantAfter ≤
      specBound spec.constant initCA ∧
    invokeCount (runAsyncFrom2 spec op cls label args fm s initBefore initResult initAfter initCA).2.2 ≤
      resInvokeBound initResult := by
  obtain ⟨a1, a2, a3, a4, a5⟩ := runAsyncFrom3_counts spec op cls label args fm
    s initResult initAfter initCA
  cases hb : spec.before with
  | none =>
    have he : runAsyncFrom2 spec op cls label args fm s initBefore initResult initAfter initCA =
        runAsyncFrom3 spec op cls label args fm s initResult initAfter initCA := by
      simp [runAsyncFrom2, hb]
    rw [he]
    refine ⟨a1, ?_, a3, a4, a5⟩
    omega
  | some b =>
    cases hib : initBefore with
    | some pv =>
      by_cases h : pv.settle <;> refine ⟨?_, ?_, ?_, ?_, ?_⟩ <;>
        (try simp [runAsyncFrom2, hb, hib, h,
          stageCount_append, invokeCount_append, stageCount_cons,
          invokeCount_cons, isEvalOf, isInvoke, stageCount_nil,
          invokeCount_nil, stageCount_report, invokeCount_report,
          stageCount_cons_invoke, invokeCount_cons_invoke,
          specBound_some_some, specBound_some_none]) <;>
        omega
    | none =>
      by_cases h : (b args).settle <;> refine ⟨?_, ?_, ?_, ?_, ?_⟩ <;>
        (try simp [runAsyncFrom2, hb, hib, h,
          stageCount_append, invokeCount_append, stageCount_cons,
          invokeCount_cons, isEvalOf, isInvoke, stageCount_nil,
          invokeCount_nil, stageCount_report, invokeCount_report,
          stageCount_cons_invoke, invokeCount_cons_invoke,
          specBound_some_some, specBound_some_none]) <;>
        omega

lemma runAsyncMethod_counts {σ : Type} (spec : MSpec σ) (op : MethodOp σ)
    (cls label : String) (args : List JVal) (fm : FailureMode) (s : σ)
    (init : AState) :
    stageCount (runAsyncMethod spec op cls label args fm s init).2.2 Stage.constantBefore ≤
      specBound spec.constant init.constantBefore ∧
    stageCount (runAsyncMethod spec op cls label args fm s init).2.2 Stage.before ≤
      specBound spec.before init.before ∧
    stageCount (runAsyncMethod spec op cls label args fm s init).2.2 Stage.after ≤
      specBound spec.after init.after ∧
    stageCount (runAsyncMethod spec op cls label args fm s init).2.2 Stage.constantAfter ≤
      specBound spec.constant init.constantAfter ∧
    invokeCount (runAsyncMethod spec op cls label args fm s init).2.2 ≤
      resInvokeBound init.result := by
  obtain ⟨a1, a2, a3, a4, a5⟩ := runAsyncFrom2_counts spec op cls label args fm
    s init.before init.result init.after init.constantAfter
  cases hc : spec.constant with
  | none =>
    have he : runAsyncMethod spec op cls label args fm s init =
        runAsyncFrom2 spec op cls label args fm s init.before init.result
          init.after init.constantAfter := by
      simp [runAsyncMethod, hc]
    rw [hc] at a4
    rw [he]
    refine ⟨?_, a2, a3, a4, a5⟩
    omega
  | some c =>
    rw [hc] at a4
    cases hib : init.constantBefore with
    | some pv =>
      by_cases h : pv.settle <;> refine ⟨?_, ?_, ?_, ?_, ?_⟩ <;>
        (try simp [runAsyncMethod, hc, hib, h,
          stageCount_append, invokeCount_append, stageCount_cons,
          invokeCount_cons, isEvalOf, isInvoke, stageCount_nil,
          invokeCount_nil, stageCount_report, invokeCount_report,
          stageCount_cons_invoke, invokeCount_cons_invoke,
          specBound_some_some, specBound_some_none]) <;>
        omega
    | none =>
      by_cases h : (c s).settle <;> refine ⟨?_, ?_, ?_, ?_, ?_⟩ <;>
        (try simp [runAsyncMethod, hc, hib, h,
          stageCount_append, invokeCount_append, stageCount_cons,
          invokeCount_cons, isEvalOf, isInvoke, stageCount_nil,
          invokeCount_nil, stageCount_report, invokeCount_report,
          stageCount_cons_invoke, invokeCount_cons_invoke,
          specBound_some_some, specBound_some_none]) <;>
        omega


/-- Event counts of the synchronous invariant-after step: no earlier
stage, the invariant-after at most once, the operation invoked at most
once (only by the re-invocation inside the handed-over continuation). -/
lemma wrapMethodStage5_counts {σ : Type} (spec : MSpec σ) (op : MethodOp σ)
    (cls label : String) (args : List JVal) (fm : FailureMode) (s : σ)
    (res : JVal) :
    stageCount (wrapMethodStage5 spec op cls label args fm s res).2.2 Stage.constantBefore = 0 ∧
    stageCount (wrapMethodStage5 spec op cls label args fm s res).2.2 Stage.before = 0 ∧
    stageCount (wrapMethodStage5 spec op cls label args fm s res).2.2 Stage.after = 0 ∧
    stageCount (wrapMethodStage5 spec op cls label args fm s res).2.2 Stage.constantAfter ≤ 1 ∧
    invokeCount (wrapMethodStage5 spec op cls label args fm s res).2.2 ≤ 1 := by
  cases hc : spec.constant with
  | none => simp [wrapMethodStage5, hc, stageCount_nil, invokeCount_nil]
  | some c =>
    cases hpv : c s with
    | async b =>
      obtain ⟨a1, a2, a3, a4, a5⟩ := runAsyncMethod_counts spec op cls label
        args fm s
        { constantBefore := some (.sync true),
          before := if spec.before.isSome then some (.sync true) else none,
          result := some (.sync res),
          after := if spec.after.isSome then some (.sync true) else none,
          constantAfter := some (.async b) }
      try simp [hc, specBound_matched,
          specBound_some_some, specBound_some_none, specBound_none,
          resInvokeBound_sync, resInvokeBound_async, resInvokeBound_none,
          stageCount_append, invokeCount_append, stageCount_cons,
          invokeCount_cons, isEvalOf, isInvoke, stageCount_nil,
          invokeCount_nil, stageCount_report, invokeCount_report,
          stageCount_cons_invoke, invokeCount_cons_invoke] at a1
      try simp [hc, specBound_matched,
          specBound_some_some, specBound_some_none, specBound_none,
          resInvokeBound_sync, resInvokeBound_async, resInvokeBound_none,
          stageCount_append, invokeCount_append, stageCount_cons,
          invokeCount_cons, isEvalOf, isInvoke, stageCount_nil,
          invokeCount_nil, stageCount_report, invokeCount_report,
          stageCount_cons_invoke, invokeCount_cons_invoke] at a2
      try simp [hc, specBound_matched,
          specBound_some_some, specBound_some_none, specBound_none,
          resInvokeBound_sync, resInvokeBound_async, resInvokeBound_none,
          stageCount_append, invokeCount_append, stageCount_cons,
          invokeCount_cons, isEvalOf, isInvoke, stageCount_nil,
          invokeCount_nil, stageCount_report, invokeCount_report,
          stageCount_cons_invoke, invokeCount_cons_invoke] at a3
      try simp [hc, specBound_matched,
          specBound_some_some, specBound_some_none, specBound_none,
          resInvokeBound_sync, resInvokeBound_async, resInvokeBound_none,
          stageCount_append, invokeCount_append, stageCount_cons,
          invokeCount_cons, isEvalOf, isInvoke, stageCount_nil,
          invokeCount_nil, stageCount_report, invokeCount_report,
          stageCount_cons_invoke, invokeCount_cons_invoke] at a4
      try simp [hc, specBound_matched,
          specBound_some_some, specBound_some_none, specBound_none,
          resInvokeBound_sync, resInvokeBound_async, resInvokeBound_none,
          stageCount_append, invokeCount_append, stageCount_cons,
          invokeCount_cons, isEvalOf, isInvoke, stageCount_nil,
          invokeCount_nil, stageCount_report, invokeCount_report,
          stageCount_cons_invoke, invokeCount_cons_invoke] at a5
      refine ⟨?_, ?_, ?_, ?_, ?_⟩ <;>
        (try simp [wrapMethodStage5, hc, hpv, specBound_matched,
          specBound_some_some, specBound_some_none, specBound_none,
          resInvokeBound_sync, resInvokeBound_async, resInvokeBound_none,
          stageCount_append, invokeCount_append, stageCount_cons,
          invokeCount_cons, isEvalOf, isInvoke, stageCount_nil,
          invokeCount_nil, stageCount_report, invokeCount_report,
          stageCount_cons_invoke, invokeCount_cons_invoke]) <;>
        omega
    | sync b =>
      cases b <;> refine ⟨?_, ?_, ?_, ?_, ?_⟩ <;>
        (try simp [wrapMethodStage5, hc, hpv, specBound_matched,
          specBound_some_some, specBound_some_none, specBound_none,
          resInvokeBound_sync, resInvokeBound_async, resInvokeBound_none,
          stageCount_append, invokeCount_append, stageCount_cons,
          invokeCount_cons, isEvalOf, isInvoke, stageCount_nil,
          invokeCount_nil, stageCount_report, invokeCount_report,
          stageCount_cons_invoke, invokeCount_cons_invoke]) <;>
        omega

/-- Event counts of the synchronous postcondition step. -/
lemma wrapMethodStage4_counts {σ : Type} (spec : MSpec σ) (op : MethodOp σ)
    (cls label : String) (args : List JVal) (fm : FailureMode) (s : σ)
    (res : JVal) :
    stageCount (wrapMethodStage4 spec op cls label args fm s res).2.2 Stage.constantBefore = 0 ∧
    stageCount (wrapMethodStage4 spec op cls label args fm s res).2.2 Stage.before = 0 ∧
    stageCount (wrapMethodStage4 spec op cls label args fm s res).2.2 Stage.after ≤ 1 ∧
    stageCount (wrapMethodStage4 spec op cls label args fm s res).2.2 Stage.constantAfter ≤ 1 ∧
    invokeCount (wrapMethodStage4 spec op cls label args fm s res).2.2 ≤ 1 := by
  have hle3 := specBound_le_one spec.constant (none : Option (PV Bool))
  cases ha : spec.after with
  | none =>
    obtain ⟨a1, a2, a3, a4, a5⟩ :=
      wrapMethodStage5_counts spec op cls label args fm s res
    have he : wrapMethodStage4 spec op cls label args fm s res =
        wrapMethodStage5 spec op cls label args fm s res := by
      simp [wrapMethodStage4, ha]
    rw [he]
    exact ⟨a1, a2, by omega, a4, a5⟩
  | some a =>
    cases hpv : a res args with
    | async b =>
      obtain ⟨a1, a2, a3, a4, a5⟩ := runAsyncMethod_counts spec op cls label
        args fm s
        { constantBefore := if spec.constant.isSome then some (.sync true) else none,
          before := if spec.before.isSome then some (.sync true) else none,
          result := some (.sync res),
          after := some (.async b),
          constantAfter := none }
      try simp [ha, specBound_matched,
          specBound_some_some, specBound_some_none, specBound_none,
          resInvokeBound_sync, resInvokeBound_async, resInvokeBound_none,
          stageCount_append, invokeCount_append, stageCount_cons,
          invokeCount_cons, isEvalOf, isInvoke, stageCount_nil,
          invokeCount_nil, stageCount_report, invokeCount_report,
          stageCount_cons_invoke, invokeCount_cons_invoke] at a1
      try simp [ha, specBound_matched,
          specBound_some_some, specBound_some_none, specBound_none,
          resInvokeBound_sync, resInvokeBound_async, resInvokeBound_none,
          stageCount_append, invokeCount_append, stageCount_cons,
          invokeCount_cons, isEvalOf, isInvoke, stageCount_nil,
          invokeCount_nil, stageCount_report, invokeCount_report,
          stageCount_cons_invoke, invokeCount_cons_invoke] at a2
      try simp [ha, specBound_matched,
          specBound_some_some, specBound_some_none, specBound_none,
          resInvokeBound_sync, resInvokeBound_async, resInvokeBound_none,
          stageCount_append, invokeCount_append, stageCount_cons,
          invokeCount_cons, isEvalOf, isInvoke, stageCount_nil,
          invokeCount_nil, stageCount_report, invokeCount_report,
          stageCount_cons_invoke, invokeCount_cons_invoke] at a3
      try simp [ha, specBound_matched,
          specBound_some_some, specBound_some_none, specBound_none,
          resInvokeBound_sync, resInvokeBound_async, resInvokeBound_none,
          stageCount_append, invokeCount_append, stageCount_cons,
          invokeCount_cons, isEvalOf, isInvoke, stageCount_nil,
          invokeCount_nil, stageCount_report, invokeCount_report,
          stageCount_cons_invoke, invokeCount_cons_invoke] at a4
      try simp [ha, specBound_matched,
          specBound_some_some, specBound_some_none, specBound_none,
          resInvokeBound_sync, resInvokeBound_async, resInvokeBound_none,
          stageCount_append, invokeCount_append, stageCount_cons,
          invokeCount_cons, isEvalOf, isInvoke, stageCount_nil,
          invokeCount_nil, stageCount_report, invokeCount_report,
          stageCount_cons_invoke, invokeCount_cons_invoke] at a5
      refine ⟨?_, ?_, ?_, ?_, ?_⟩ <;>
        (try simp [wrapMethodStage4, ha, hpv, specBound_matched,
          specBound_some_some, specBound_some_none, specBound_none,
          resInvokeBound_sync, resInvokeBound_async, resInvokeBound_none,
          stageCount_append, invokeCount_append, stageCount_cons,
          invokeCount_cons, isEvalOf, isInvoke, stageCount_nil,
          invokeCount_nil, stageCount_report, invokeCount_report,
          stageCount_cons_invoke, invokeCount_cons_invoke]) <;>
        omega
    | sync b =>
      obtain ⟨a1, a2, a3, a4, a5⟩ :=
        wrapMethodStage5_counts spec op cls label args fm s res
      cases b <;> refine ⟨?_, ?_, ?_, ?_, ?_⟩ <;>
        (try simp [wrapMethodStage4, ha, hpv, specBound_matched,
          specBound_some_some, specBound_some_none, specBound_none,
          resInvokeBound_sync, resInvokeBound_async, resInvokeBound_none,
          stageCount_append, invokeCount_append, stageCount_cons,
          invokeCount_cons, isEvalOf, isInvoke, stageCount_nil,
          invokeCount_nil, stageCount_report, invokeCount_report,
          stageCount_cons_invoke, invokeCount_cons_invoke]) <;>
        omega

/-- Event counts of the synchronous invocation step: the operation runs
once here and at most once more in a handed-over continuation. -/
lemma wrapMethodStage3_counts {σ : Type} (spec : MSpec σ) (op : MethodOp σ)
    (cls label : String) (args : List JVal) (fm : FailureMode) (s : σ) :
    stageCount (wrapMethodStage3 spec op cls label args fm s).2.2 Stage.constantBefore = 0 ∧
    stageCount (wrapMethodStage3 spec op cls label args fm s).2.2 Stage.before = 0 ∧
    stageCount (wrapMethodStage3 spec op cls label args fm s).2.2 Stage.after ≤ 1 ∧
    stageCount (wrapMethodStage3 spec op cls label args fm s).2.2 Stage.constantAfter ≤ 1 ∧
    invokeCount (wrapMethodStage3 spec op cls label args fm s).2.2 ≤ 2 := by
  have hle2 := specBound_le_one spec.after (none : Option (PV Bool))
  have hle3 := specBound_le_one spec.constant (none : Option (PV Bool))
  cases hr : (op args s).2 with
  | async res =>
    obtain ⟨a1, a2, a3, a4, a5⟩ := runAsyncMethod_counts spec op cls label
      args fm (op args s).1
      { constantBefore := if spec.constant.isSome then some (.sync true) else none,
        before := if spec.before.isSome then some (.sync true) else none,
        result := some (.async res),
        after := none,
        constantAfter := none }
    try simp [specBound_matched,
          specBound_some_some, specBound_some_none, specBound_none,
          resInvokeBound_sync, resInvokeBound_async, resInvokeBound_none,
          stageCount_append, invokeCount_append, stageCount_cons,
          invokeCount_cons, isEvalOf, isInvoke, stageCount_nil,
          invokeCount_nil, stageCount_report, invokeCount_report,
          stageCount_cons_invoke, invokeCount_cons_invoke] at a1
    try simp [specBound_matched,
          specBound_some_some, specBound_some_none, specBound_none,
          resInvokeBound_sync, resInvokeBound_async, resInvokeBound_none,
          stageCount_append, invokeCount_append, stageCount_cons,
          invokeCount_cons, isEvalOf, isInvoke, stageCount_nil,
          invokeCount_nil, stageCount_report, invokeCount_report,
          stageCount_cons_invoke, invokeCount_cons_invoke] at a2
    try simp [specBound_matched,
          specBound_some_some, specBound_some_none, specBound_none,
          resInvokeBound_sync, resInvokeBound_async, resInvokeBound_none,
          stageCount_append, invokeCount_append, stageCount_cons,
          invokeCount_cons, isEvalOf, isInvoke, stageCount_nil,
          invokeCount_nil, stageCount_report, invokeCount_report,
          stageCount_cons_invoke, invokeCount_cons_invoke] at a3
    try simp [specBound_matched,
          specBound_some_some, specBound_some_none, specBound_none,
          resInvokeBound_sync, resInvokeBound_async, resInvokeBound_none,
          stageCount_append, invokeCount_append, stageCount_cons,
          invokeCount_cons, isEvalOf, isInvoke, stageCount_nil,
          invokeCount_nil, stageCount_report, invokeCount_report,
          stageCount_cons_invoke, invokeCount_cons_invoke] at a4
    try simp [specBound_matched,
          specBound_some_some, specBound_some_none, specBound_none,
          resInvokeBound_sync, resInvokeBound_async, resInvokeBound_none,
          stageCount_append, invokeCount_append, stageCount_cons,
          invokeCount_cons, isEvalOf, isInvoke, stageCount_nil,
          invokeCount_nil, stageCount_report, invokeCount_report,
          stageCount_cons_invoke, invokeCount_cons_invoke] at a5
    refine ⟨?_, ?_, ?_, ?_, ?_⟩ <;>
      (try simp [wrapMethodStage3, hr, specBound_matched,
          specBound_some_some, specBound_some_none, specBound_none,
          resInvokeBound_sync, resInvokeBound_async, resInvokeBound_none,
          stageCount_append, invokeCount_append, stageCount_cons,
          invokeCount_cons, isEvalOf, isInvoke, stageCount_nil,
          invokeCount_nil, stageCount_report, invokeCount_report,
          stageCount_cons_invoke, invokeCount_cons_invoke]) <;>
      omega
  | sync res =>
    obtain ⟨a1, a2, a3, a4, a5⟩ :=
      wrapMethodStage4_counts spec op cls label args fm (op args s).1 res
    refine ⟨?_, ?_, ?_, ?_, ?_⟩ <;>
      (try simp [wrapMethodStage3, hr, specBound_matched,
          specBound_some_some, specBound_some_none, specBound_none,
          resInvokeBound_sync, resInvokeBound_async, resInvokeBound_none,
          stageCount_append, invokeCount_append, stageCount_cons,
          invokeCount_cons, isEvalOf, isInvoke, stageCount_nil,
          invokeCount_nil, stageCount_report, invokeCount_report,
          stageCount_cons_invoke, invokeCount_cons_invoke]) <;>
      omega

/-- Event counts of the synchronous precondition step. -/
lemma wrapMethodStage2_counts {σ : Type} (spec : MSpec σ) (op : MethodOp σ)
    (cls label : String) (args : List JVal) (fm : FailureMode) (s : σ) :
    stageCount (wrapMethodStage2 spec op cls label args fm s).2.2 Stage.constantBefore = 0 ∧
    stageCount (wrapMethodStage2 spec op cls label args fm s).2.2 Stage.before ≤ 1 ∧
    stageCount (wrapMethodStage2 spec op cls label args fm s).2.2 Stage.after ≤ 1 ∧
    stageCount (wrapMethodStage2 spec op cls label args fm s).2.2 Stage.constantAfter ≤ 1 ∧
    invokeCount (wrapMethodStage2 spec op cls label args fm s).2.2 ≤ 2 := by
  have hle2 := specBound_le_one spec.after (none : Option (PV Bool))
  have hle3 := specBound_le_one spec.constant (none : Option (PV Bool))
  cases hb : spec.before with
  | none =>
    obtain ⟨a1, a2, a3, a4, a5⟩ :=
      wrapMethodStage3_counts spec op cls label args fm s
    have he : wrapMethodStage2 spec op cls label args fm s =
        wrapMethodStage3 spec op cls label args fm s := by
      simp [wrapMethodStage2, hb]
    rw [he]
    exact ⟨a1, by omega, a3, a4, a5⟩
  | some b =>
    cases hpv : b args with
    | async bb =>
      obtain ⟨a1, a2, a3, a4, a5⟩ := runAsyncMethod_counts spec op cls label
        args fm s
        { constantBefore := if spec.constant.isSome then some (.sync true) else none,
          before := some (.async bb),
          result := none, after := none, constantAfter := none }
      try simp [hb, specBound_matched,
          specBound_some_some, specBound_some_none, specBound_none,
          resInvokeBound_sync, resInvokeBound_async, resInvokeBound_none,
          stageCount_append, invokeCount_append, stageCount_cons,
          invokeCount_cons, isEvalOf, isInvoke, stageCount_nil,
          invokeCount_nil, stageCount_report, invokeCount_report,
          stageCount_cons_invoke, invokeCount_cons_invoke] at a1
      try simp [hb, specBound_matched,
          specBound_some_some, specBound_some_none, specBound_none,
          resInvokeBound_sync, resInvokeBound_async, resInvokeBound_none,
          stageCount_append, invokeCount_append, stageCount_cons,
          invokeCount_cons, isEvalOf, isInvoke, stageCount_nil,
          invokeCount_nil, stageCount_report, invokeCount_report,
          stageCount_cons_invoke, invokeCount_cons_invoke] at a2
      try simp [hb, specBound_matched,
          specBound_some_some, specBound_some_none, specBound_none,
          resInvokeBound_sync, resInvokeBound_async, resInvokeBound_none,
          stageCount_append, invokeCount_append, stageCount_cons,
          invokeCount_cons, isEvalOf, isInvoke, stageCount_nil,
          invokeCount_nil, stageCount_report, invokeCount_report,
          stageCount_cons_invoke, invokeCount_cons_invoke] at a3
      try simp [hb, specBound_matched,
          specBound_some_some, specBound_some_none, specBound_none,
          resInvokeBound_sync, resInvokeBound_async, resInvokeBound_none,
          stageCount_append, invokeCount_append, stageCount_cons,
          invokeCount_cons, isEvalOf, isInvoke, stageCount_nil,
          invokeCount_nil, stageCount_report, invokeCount_report,
          stageCount_cons_invoke, invokeCount_cons_invoke] at a4
      try simp [hb, specBound_matched,
          specBound_some_some, specBound_some_none, specBound_none,
          resInvokeBound_sync, resInvokeBound_async, resInvokeBound_none,
          stageCount_append, invokeCount_append, stageCount_cons,
          invokeCount_cons, isEvalOf, isInvoke, stageCount_nil,
          invokeCount_nil, stageCount_report, invokeCount_report,
          stageCount_cons_invoke, invokeCount_cons_invoke] at a5
      refine ⟨?_, ?_, ?_, ?_, ?_⟩ <;>
        (try simp [wrapMethodStage2, hb, hpv, specBound_matched,
          specBound_some_some, specBound_some_none, specBound_none,
          resInvokeBound_sync, resInvokeBound_async, resInvokeBound_none,
          stageCount_append, invokeCount_append, stageCount_cons,
          invokeCount_cons, isEvalOf, isInvoke, stageCount_nil,
          invokeCount_nil, stageCount_report, invokeCount_report,
          stageCount_cons_invoke, invokeCount_cons_invoke]) <;>
        omega
    | sync bb =>
      obtain ⟨a1, a2, a3, a4, a5⟩ :=
        wrapMethodStage3_counts spec op cls label args fm s
      cases bb <;> refine ⟨?_, ?_, ?_, ?_, ?_⟩ <;>
        (try simp [wrapMethodStage2, hb, hpv, specBound_matched,
          specBound_some_some, specBound_some_none, specBound_none,
          resInvokeBound_sync, resInvokeBound_async, resInvokeBound_none,
          stageCount_append, invokeCount_append, stageCount_cons,
          invokeCount_cons, isEvalOf, isInvoke, stageCount_nil,
          invokeCount_nil, stageCount_report, invokeCount_report,
          stageCount_cons_invoke, invokeCount_cons_invoke]) <;>
        omega

/-- Event counts of a whole wrapped method invocation: every stage
evaluated at most once, the operation invoked at most twice (the second
time only by the nullish-result re-invocation of the continuation). -/
lemma wrapMethodRun_counts {σ : Type} (spec : MSpec σ) (op : MethodOp σ)
    (cls label : String) (args : List JVal) (g : FailureMode) (s : σ) :
    stageCount (wrapMethodRun spec op cls label args g s).2.2 Stage.constantBefore ≤ 1 ∧
    stageCount (wrapMethodRun spec op cls label args g s).2.2 Stage.before ≤ 1 ∧
    stageCount (wrapMethodRun spec op cls label args g s).2.2 Stage.after ≤ 1 ∧
    stageCount (wrapMethodRun spec op cls label args g s).2.2 Stage.constantAfter ≤ 1 ∧
    invokeCount (wrapMethodRun spec op cls label args g s).2.2 ≤ 2 := by
  have hle1 := specBound_le_one spec.before (none : Option (PV Bool))
  have hle2 := specBound_le_one spec.after (none : Option (PV Bool))
  have hle3 := specBound_le_one spec.constant (none : Option (PV Bool))
  cases hc : spec.constant with
  | none =>
    obtain ⟨a1, a2, a3, a4, a5⟩ := wrapMethodStage2_counts spec op cls label
      args (spec.failureMode.getD g) s
    have he : wrapMethodRun spec op cls label args g s =
        wrapMethodStage2 spec op cls label args (spec.failureMode.getD g) s := by
      simp [wrapMethodRun, hc]
    rw [he]
    exact ⟨by omega, a2, a3, a4, a5⟩
  | some c =>
    cases hpv : c s with
    | async b =>
      obtain ⟨a1, a2, a3, a4, a5⟩ := runAsyncMethod_counts spec op cls label
        args (spec.failureMode.getD g) s
        { constantBefore := some (.async b),
          before := none, result := none, after := none, constantAfter := none }
      try simp [hc, specBound_matched,
          specBound_some_some, specBound_some_none, specBound_none,
          resInvokeBound_sync, resInvokeBound_async, resInvokeBound_none,
          stageCount_append, invokeCount_append, stageCount_cons,
          invokeCount_cons, isEvalOf, isInvoke, stageCount_nil,
          invokeCount_nil, stageCount_report, invokeCount_report,
          stageCount_cons_invoke, invokeCount_cons_invoke] at a1
      try simp [hc, specBound_matched,
          specBound_some_some, specBound_some_none, specBound_none,
          resInvokeBound_sync, resInvokeBound_async, resInvokeBound_none,
          stageCount_append, invokeCount_append, stageCount_cons,
          invokeCount_cons, isEvalOf, isInvoke, stageCount_nil,
          invokeCount_nil, stageCount_report, invokeCount_report,
          stageCount_cons_invoke, invokeCount_cons_invoke] at a2
      try simp [hc, specBound_matched,
          specBound_some_some, specBound_some_none, specBound_none,
          resInvokeBound_sync, resInvokeBound_async, resInvokeBound_none,
          stageCount_append, invokeCount_append, stageCount_cons,
          invokeCount_cons, isEvalOf, isInvoke, stageCount_nil,
          invokeCount_nil, stageCount_report, invokeCount_report,
          stageCount_cons_invoke, invokeCount_cons_invoke] at a3
      try simp [hc, specBound_matched,
          specBound_some_some, specBound_some_none, specBound_none,
          resInvokeBound_sync, resInvokeBound_async, resInvokeBound_none,
          stageCount_append, invokeCount_append, stageCount_cons,
          invokeCount_cons, isEvalOf, isInvoke, stageCount_nil,
          invokeCount_nil, stageCount_report, invokeCount_report,
          stageCount_cons_invoke, invokeCount_cons_invoke] at a4
      try simp [hc, specBound_matched,
          specBound_some_some, specBound_some_none, specBound_none,
          resInvokeBound_sync, resInvokeBound_async, resInvokeBound_none,
          stageCount_append, invokeCount_append, stageCount_cons,
          invokeCount_cons, isEvalOf, isInvoke, stageCount_nil,
          invokeCount_nil, stageCount_report, invokeCount_report,
          stageCount_cons_invoke, invokeCount_cons_invoke] at a5
      refine ⟨?_, ?_, ?_, ?_, ?_⟩ <;>
        (try simp [wrapMethodRun, hc, hpv, specBound_matched,
          specBound_some_some, specBound_some_none, specBound_none,
          resInvokeBound_sync, resInvokeBound_async, resInvokeBound_none,
          stageCount_append, invokeCount_append, stageCount_cons,
          invokeCount_cons, isEvalOf, isInvoke, stageCount_nil,
          invokeCount_nil, stageCount_report, invokeCount_report,
          stageCount_cons_invoke, invokeCount_cons_invoke]) <;>
        omega
    | sync b =>
      obtain ⟨a1, a2, a3, a4, a5⟩ := wrapMethodStage2_counts spec op cls label
        args (spec.failureMode.getD g) s
      cases b <;> refine ⟨?_, ?_, ?_, ?_, ?_⟩ <;>
        (try simp [wrapMethodRun, hc, hpv, specBound_matched,
          specBound_some_some, specBound_some_none, specBound_none,
          resInvokeBound_sync, resInvokeBound_async, resInvokeBound_none,
          stageCount_append, invokeCount_append, stageCount_cons,
          invokeCount_cons, isEvalOf, isInvoke, stageCount_nil,
          invokeCount_nil, stageCount_report, invokeCount_report,
          stageCount_cons_invoke, invokeCount_cons_invoke]) <;>
        omega

lemma runAsyncSetterFrom5_counts {σ : Type} (spec : MSpec σ) (cls label : String)
    (v : JVal) (fm : FailureMode) (s : σ) (res : JVal)
    (initCA : Option (PV Bool)) :
    stageCount (runAsyncSetterFrom5 spec cls label v fm s res initCA).2.2 Stage.constantBefore = 0 ∧
    stageCount (runAsyncSetterFrom5 spec cls label v fm s res initCA).2.2 Stage.before = 0 ∧
    stageCount (runAsyncSetterFrom5 spec cls label v fm s res initCA).2.2 Stage.after = 0 ∧
    stageCount (runAsyncSetterFrom5 spec cls label v fm s res initCA).2.2 Stage.constantAfter ≤
      specBound spec.constant initCA ∧
    invokeCount (runAsyncSetterFrom5 spec cls label v fm s res initCA).2.2 = 0 := by
  cases hc : spec.constant with
  | none => simp [runAsyncSetterFrom5, hc, stageCount_nil, invokeCount_nil]
  | some c =>
    cases hca : initCA with
    | some pv =>
      by_cases h : pv.settle <;>
        simp [runAsyncSetterFrom5, hc, hca, h, specBound_some_some,
          stageCount_append, invokeCount_append, stageCount_cons,
          invokeCount_cons, isEvalOf, isInvoke, stageCount_nil,
          invokeCount_nil, stageCount_reportSetter, invokeCount_reportSetter]
    | none =>
      by_cases h : (c s).settle <;>
        simp [runAsyncSetterFrom5, hc, hca, h, specBound_some_none,
          stageCount_append, invokeCount_append, stageCount_cons,
          invokeCount_cons, isEvalOf, isInvoke, stageCount_nil,
          invokeCount_nil, stageCount_reportSetter, invokeCount_reportSetter]

lemma runAsyncSetterFrom4_counts {σ : Type} (spec : MSpec σ) (cls label : String)
    (v : JVal) (fm : FailureMode) (s : σ) (res : JVal)
    (initAfter initCA : Option (PV Bool)) :
    stageCount (runAsyncSetterFrom4 spec cls label v fm s res initAfter initCA).2.2 Stage.constantBefore = 0 ∧
    stageCount (runAsyncSetterFrom4 spec cls label v fm s res initAfter initCA).2.2 Stage.before = 0 ∧
    stageCount (runAsyncSetterFrom4 spec cls label v fm s res initAfter initCA).2.2 Stage.after ≤
      specBound spec.after initAfter ∧
    stageCount (runAsyncSetterFrom4 spec cls label v fm s res initAfter initCA).2.2 Stage.constantAfter ≤
      specBound spec.constant initCA ∧
    invokeCount (runAsyncSetterFrom4 spec cls label v fm s res initAfter initCA).2.2 = 0 := by
  obtain ⟨a1, a2, a3, a4, a5⟩ := runAsyncSetterFrom5_counts spec cls label v fm s res initCA
  cases ha : spec.after with
  | none =>
    have he : runAsyncSetterFrom4 spec cls label v fm s res initAfter initCA =
        runAsyncSetterFrom5 spec cls label v fm s res initCA := by
      simp [runAsyncSetterFrom4, ha]
    rw [he]
    refine ⟨a1, a2, ?_, a4, a5⟩
    omega
  | some a =>
    cases hia : initAfter with
    | some pv =>
      by_cases h : pv.settle <;> refine ⟨?_, ?_, ?_, ?_, ?_⟩ <;>
        (try simp [runAsyncSetterFrom4, ha, hia, h,
          stageCount_append, invokeCount_append, stageCount_cons,
          invokeCount_cons, isEvalOf, isInvoke, stageCount_nil,
          invokeCount_nil, stageCount_reportSetter, invokeCount_reportSetter,
          stageCount_cons_invoke, invokeCount_cons_invoke,
          specBound_some_some, specBound_some_none]) <;>
        omega
    | none =>
      by_cases h : (a res [v]).settle <;> refine ⟨?_, ?_, ?_, ?_, ?_⟩ <;>
        (try simp [runAsyncSetterFrom4, ha, hia, h,
          stageCount_append, invokeCount_append, stageCount_cons,
          invokeCount_cons, isEvalOf, isInvoke, stageCount_nil,
          invokeCount_nil, stageCount_reportSetter, invokeCount_reportSetter,
          stageCount_cons_invoke, invokeCount_cons_invoke,
          specBound_some_some, specBound_some_none]) <;>
        omega

lemma runAsyncSetterFrom3_counts {σ : Type} (spec : MSpec σ) (op : SetterOp σ)
    (cls label : String) (v : JVal) (fm : FailureMode) (s : σ)
    (initResult : Option (PV JVal)) (initAfter initCA : Option (PV Bool)) :
    stageCount (runAsyncSetterFrom3 spec op cls label v fm s initResult initAfter initCA).2.2 Stage.constantBefore = 0 ∧
    stageCount (runAsyncSetterFrom3 spec op cls label v fm s initResult initAfter initCA).2.2 Stage.before = 0 ∧
    stageCount (runAsyncSetterFrom3 spec op cls label v fm s initResult initAfter initCA).2.2 Stage.after ≤
      specBound spec.after initAfter ∧
    stageCount (runAsyncSetterFrom3 spec op cls label v fm s initResult initAfter initCA).2.2 Stage.constantAfter ≤
      specBound spec.constant initCA ∧
    invokeCount (runAsyncSetterFrom3 spec op cls label v fm s initResult initAfter initCA).2.2 ≤
      resInvokeBound initResult := by
  cases hir : initResult with
  | none =>
    obtain ⟨a1, a2, a3, a4, a5⟩ := runAsyncSetterFrom4_counts spec cls label v fm
      (op v s).1 (op v s).2.settle initAfter initCA
    refine ⟨?_, ?_, ?_, ?_, ?_⟩ <;>
      (try simp [runAsyncSetterFrom3, hir, resInvokeBound,
        stageCount_append, invokeCount_append, stageCount_cons,
          invokeCount_cons, isEvalOf, isInvoke, stageCount_nil,
          invokeCount_nil, stageCount_reportSetter, invokeCount_reportSetter,
          stageCount_cons_invoke, invokeCount_cons_invoke,
          specBound_some_some, specBound_some_none]) <;>
      omega
  | some pv =>
    cases pv with
    | async r =>
      obtain ⟨a1, a2, a3, a4, a5⟩ := runAsyncSetterFrom4_counts spec cls label v fm
        s r initAfter initCA
      refine ⟨?_, ?_, ?_, ?_, ?_⟩ <;>
        (try simp [runAsyncSetterFrom3, hir, resInvokeBound,
          stageCount_append, invokeCount_append, stageCount_cons,
          invokeCount_cons, isEvalOf, isInvoke, stageCount_nil,
          invokeCount_nil, stageCount_reportSetter, invokeCount_reportSetter,
          stageCount_cons_invoke, invokeCount_cons_invoke,
          specBound_some_some, specBound_some_none]) <;>
        omega
    | sync r =>
      by_cases h : r.isNullish = true
      · obtain ⟨a1, a2, a3, a4, a5⟩ := runAsyncSetterFrom4_counts spec cls label v
          fm (op v s).1 (op v s).2.settle initAfter initCA
        refine ⟨?_, ?_, ?_, ?_, ?_⟩ <;>
          (try simp [runAsyncSetterFrom3, hir, h, resInvokeBound,
            stageCount_append, invokeCount_append, stageCount_cons,
          invokeCount_cons, isEvalOf, isInvoke, stageCount_nil,
          invokeCount_nil, stageCount_reportSetter, invokeCount_reportSetter,
          stageCount_cons_invoke, invokeCount_cons_invoke,
          specBound_some_some, specBound_some_none]) <;>
          omega
      · obtain ⟨a1, a2, a3, a4, a5⟩ := runAsyncSetterFrom4_counts spec cls label v
          fm s r initAfter initCA
        refine ⟨?_, ?_, ?_, ?_, ?_⟩ <;>
          (try simp [runAsyncSetterFrom3, hir, h, resInvokeBound,
            stageCount_append, invokeCount_append, stageCount_cons,
          invokeCount_cons, isEvalOf, isInvoke, stageCount_nil,
          invokeCount_nil, stageCount_reportSetter, invokeCount_reportSetter,
          stageCount_cons_invoke, invokeCount_cons_invoke,
          specBound_some_some, specBound_some_none]) <;>
          omega

lemma runAsyncSetterFrom2_counts {σ : Type} (spec : MSpec σ) (op : SetterOp σ)
    (cls label : String) (v : JVal) (fm : FailureMode) (s : σ)
    (initBefore : Option (PV Bool)) (initResult : Option (PV JVal))
    (initAfter initCA : Option (PV Bool)) :
    stageCount (runAsyncSetterFrom2 spec op cls label v fm s initBefore initResult initAfter initCA).2.2 Stage.constantBefore = 0 ∧
    stageCount (runAsyncSetterFrom2 spec op cls label v fm s initBefore initResult initAfter initCA).2.2 Stage.before ≤
      specBound spec.before initBefore ∧
    stageCount (runAsyncSetterFrom2 spec op cls label v fm s initBefore initResult initAfter initCA).2.2 Stage.after ≤
      specBound spec.after initAfter ∧
    stageCount (runAsyncSetterFrom2 spec op cls label v fm s initBefore initResult initAfter initCA).2.2 Stage.constantAfter ≤
      specBound spec.constant initCA ∧
    invokeCount (runAsyncSetterFrom2 spec op cls label v fm s initBefore initResult initAfter initCA).2.2 ≤
      resInvokeBound initResult := by
  obtain ⟨a1, a2, a3, a4, a5⟩ := runAsyncSetterFrom3_counts spec op cls label v fm
    s initResult initAfter initCA
  cases hb : spec.before with
  | none =>
    have he : runAsyncSetterFrom2 spec op cls label v fm s initBefore initResult initAfter initCA =
        runAsyncSetterFrom3 spec op cls label v fm s initResult initAfter initCA := by
      simp [runAsyncSetterFrom2, hb]
    rw [he]
    refine ⟨a1, ?_, a3, a4, a5⟩
    omega
  | some b =>
    cases hib : initBefore with
    | some pv =>
      by_cases h : pv.settle <;> refine ⟨?_, ?_, ?_, ?_, ?_⟩ <;>
        (try simp [runAsyncSetterFrom2, hb, hib, h,
          stageCount_append, invokeCount_append, stageCount_cons,
          invokeCount_cons, isEvalOf, isInvoke, stageCount_nil,
          invokeCount_nil, stageCount_reportSetter, invokeCount_reportSetter,
          stageCount_cons_invoke, invokeCount_cons_invoke,
          specBound_some_some, specBound_some_none]) <;>
        omega
    | none =>
      by_cases h : (b [v]).settle <;> refine ⟨?_, ?_, ?_, ?_, ?_⟩ <;>
        (try simp [runAsyncSetterFrom2, hb, hib, h,
          stageCount_append, invokeCount_append, stageCount_cons,
          invokeCount_cons, isEvalOf, isInvoke, stageCount_nil,
          invokeCount_nil, stageCount_reportSetter, invokeCount_reportSetter,
          stageCount_cons_invoke, invokeCount_cons_invoke,
          specBound_some_some, specBound_some_none]) <;>
        omega

lemma runAsyncSetter_counts {σ : Type} (spec : MSpec σ) (op : SetterOp σ)
    (cls label : String) (v : JVal) (fm : FailureMode) (s : σ)
    (init : AState) :
    stageCount (runAsyncSetter spec op cls label v fm s init).2.2 Stage.constantBefore ≤
      specBound spec.constant init.constantBefore ∧
    stageCount (runAsyncSetter spec op cls label v fm s init).2.2 Stage.before ≤
      specBound spec.before init.before ∧
    stageCount (runAsyncSetter spec op cls label v fm s init).2.2 Stage.after ≤
      specBound spec.after init.after ∧
    stageCount (runAsyncSetter spec op cls label v fm s init).2.2 Stage.constantAfter ≤
      specBound spec.constant init.constantAfter ∧
    invokeCount (runAsyncSetter spec op cls label v fm s init).2.2 ≤
      resInvokeBound init.result := by
  obtain ⟨a1, a2, a3, a4, a5⟩ := runAsyncSetterFrom2_counts spec op cls label v fm
    s init.before init.result init.after init.constantAfter
  cases hc : spec.constant with
  | none =>
    have he : runAsyncSetter spec op cls label v fm s init =
        runAsyncSetterFrom2 spec op cls label v fm s init.before init.result
          init.after init.constantAfter := by
      simp [runAsyncSetter, hc]
    rw [hc] at a4
    rw [he]
    refine ⟨?_, a2, a3, a4, a5⟩
    omega
  | some c =>
    rw [hc] at a4
    cases hib : init.constantBefore with
    | some pv =>
      by_cases h : pv.settle <;> refine ⟨?_, ?_, ?_, ?_, ?_⟩ <;>
        (try simp [runAsyncSetter, hc, hib, h,
          stageCount_append, invokeCount_append, stageCount_cons,
          invokeCount_cons, isEvalOf, isInvoke, stageCount_nil,
          invokeCount_nil, stageCount_reportSetter, invokeCount_reportSetter,
          stageCount_cons_invoke, invokeCount_cons_invoke,
          specBound_some_some, specBound_some_none]) <;>
        omega
    | none =>
      by_cases h : (c s).settle <;> refine ⟨?_, ?_, ?_, ?_, ?_⟩ <;>
        (try simp [runAsyncSetter, hc, hib, h,
          stageCount_append, invokeCount_append, stageCount_cons,
          invokeCount_cons, isEvalOf, isInvoke, stageCount_nil,
          invokeCount_nil, stageCount_reportSetter, invokeCount_reportSetter,
          stageCount_cons_invoke, invokeCount_cons_invoke,
          specBound_some_some, specBound_some_none]) <;>
        omega


/-- Event counts of the synchronous invariant-after step: no earlier
stage, the invariant-after at most once, the operation invoked at most
once (only by the re-invocation inside the handed-over continuation). -/
lemma wrapSetterStage5_counts {σ : Type} (spec : MSpec σ) (op : SetterOp σ)
    (cls label : String) (v : JVal) (fm : FailureMode) (s : σ)
    (res : JVal) :
    stageCount (wrapSetterStage5 spec op cls label v fm s res).2.2 Stage.constantBefore = 0 ∧
    stageCount (wrapSetterStage5 spec op cls label v fm s res).2.2 Stage.before = 0 ∧
    stageCount (wrapSetterStage5 spec op cls label v fm s res).2.2 Stage.after = 0 ∧
    stageCount (wrapSetterStage5 spec op cls label v fm s res).2.2 Stage.constantAfter ≤ 1 ∧
    invokeCount (wrapSetterStage5 spec op cls label v fm s res).2.2 ≤ 1 := by
  cases hc : spec.constant with
  | none => simp [wrapSetterStage5, hc, stageCount_nil, invokeCount_nil]
  | some c =>
    cases hpv : c s with
    | async b =>
      obtain ⟨a1, a2, a3, a4, a5⟩ := runAsyncSetter_counts spec op cls label
        v fm s
        { constantBefore := some (.sync true),
          before := if spec.before.isSome then some (.sync true) else none,
          result := some (.sync res),
          after := if spec.after.isSome then some (.sync true) else none,
          constantAfter := some (.async b) }
      try simp [hc, specBound_matched,
          specBound_some_some, specBound_some_none, specBound_none,
          resInvokeBound_sync, resInvokeBound_async, resInvokeBound_none,
          stageCount_append, invokeCount_append, stageCount_cons,
          invokeCount_cons, isEvalOf, isInvoke, stageCount_nil,
          invokeCount_nil, stageCount_reportSetter, invokeCount_reportSetter,
          stageCount_cons_invoke, invokeCount_cons_invoke] at a1
      try simp [hc, specBound_matched,
          specBound_some_some, specBound_some_none, specBound_none,
          resInvokeBound_sync, resInvokeBound_async, resInvokeBound_none,
          stageCount_append, invokeCount_append, stageCount_cons,
          invokeCount_cons, isEvalOf, isInvoke, stageCount_nil,
          invokeCount_nil, stageCount_reportSetter, invokeCount_reportSetter,
          stageCount_cons_invoke, invokeCount_cons_invoke] at a2
      try simp [hc, specBound_matched,
          specBound_some_some, specBound_some_none, specBound_none,
          resInvokeBound_sync, resInvokeBound_async, resInvokeBound_none,
          stageCount_append, invokeCount_append, stageCount_cons,
          invokeCount_cons, isEvalOf, isInvoke, stageCount_nil,
          invokeCount_nil, stageCount_reportSetter, invokeCount_reportSetter,
          stageCount_cons_invoke, invokeCount_cons_invoke] at a3
      try simp [hc, specBound_matched,
          specBound_some_some, specBound_some_none, specBound_none,
          resInvokeBound_sync, resInvokeBound_async, resInvokeBound_none,
          stageCount_append, invokeCount_append, stageCount_cons,
          invokeCount_cons, isEvalOf, isInvoke, stageCount_nil,
          invokeCount_nil, stageCount_reportSetter, invokeCount_reportSetter,
          stageCount_cons_invoke, invokeCount_cons_invoke] at a4
      try simp [hc, specBound_matched,
          specBound_some_some, specBound_some_none, specBound_none,
          resInvokeBound_sync, resInvokeBound_async, resInvokeBound_none,
          stageCount_append, invokeCount_append, stageCount_cons,
          invokeCount_cons, isEvalOf, isInvoke, stageCount_nil,
          invokeCount_nil, stageCount_reportSetter, invokeCount_reportSetter,
          stageCount_cons_invoke, invokeCount_cons_invoke] at a5
      refine ⟨?_, ?_, ?_, ?_, ?_⟩ <;>
        (try simp [wrapSetterStage5, hc, hpv, specBound_matched,
          specBound_some_some, specBound_some_none, specBound_none,
          resInvokeBound_sync, resInvokeBound_async, resInvokeBound_none,
          stageCount_append, invokeCount_append, stageCount_cons,
          invokeCount_cons, isEvalOf, isInvoke, stageCount_nil,
          invokeCount_nil, stageCount_reportSetter, invokeCount_reportSetter,
          stageCount_cons_invoke, invokeCount_cons_invoke]) <;>
        omega
    | sync b =>
      cases b <;> refine ⟨?_, ?_, ?_, ?_, ?_⟩ <;>
        (try simp [wrapSetterStage5, hc, hpv, specBound_matched,
          specBound_some_some, specBound_some_none, specBound_none,
          resInvokeBound_sync, resInvokeBound_async, resInvokeBound_none,
          stageCount_append, invokeCount_append, stageCount_cons,
          invokeCount_cons, isEvalOf, isInvoke, stageCount_nil,
          invokeCount_nil, stageCount_reportSetter, invokeCount_reportSetter,
          stageCount_cons_invoke, invokeCount_cons_invoke]) <;>
        omega

/-- Event counts of the synchronous postcondition step. -/
lemma wrapSetterStage4_counts {σ : Type} (spec : MSpec σ) (op : SetterOp σ)
    (cls label : String) (v : JVal) (fm : FailureMode) (s : σ)
    (res : JVal) :
    stageCount (wrapSetterStage4 spec op cls label v fm s res).2.2 Stage.constantBefore = 0 ∧
    stageCount (wrapSetterStage4 spec op cls label v fm s res).2.2 Stage.before = 0 ∧
    stageCount (wrapSetterStage4 spec op cls label v fm s res).2.2 Stage.after ≤ 1 ∧
    stageCount (wrapSetterStage4 spec op cls label v fm s res).2.2 Stage.constantAfter ≤ 1 ∧
    invokeCount (wrapSetterStage4 spec op cls label v fm s res).2.2 ≤ 1 := by
  have hle3 := specBound_le_one spec.constant (none : Option (PV Bool))
  cases ha : spec.after with
  | none =>
    obtain ⟨a1, a2, a3, a4, a5⟩ :=
      wrapSetterStage5_counts spec op cls label v fm s res
    have he : wrapSetterStage4 spec op cls label v fm s res =
        wrapSetterStage5 spec op cls label v fm s res := by
      simp [wrapSetterStage4, ha]
    rw [he]
    exact ⟨a1, a2, by omega, a4, a5⟩
  | some a =>
    cases hpv : a res [v] with
    | async b =>
      obtain ⟨a1, a2, a3, a4, a5⟩ := runAsyncSetter_counts spec op cls label
        v fm s
        { constantBefore := if spec.constant.isSome then some (.sync true) else none,
          before := if spec.before.isSome then some (.sync true) else none,
          result := some (.sync res),
          after := some (.async b),
          constantAfter := none }
      try simp [ha, specBound_matched,
          specBound_some_some, specBound_some_none, specBound_none,
          resInvokeBound_sync, resInvokeBound_async, resInvokeBound_none,
          stageCount_append, invokeCount_append, stageCount_cons,
          invokeCount_cons, isEvalOf, isInvoke, stageCount_nil,
          invokeCount_nil, stageCount_reportSetter, invokeCount_reportSetter,
          stageCount_cons_invoke, invokeCount_cons_invoke] at a1
      try simp [ha, specBound_matched,
          specBound_some_some, specBound_some_none, specBound_none,
          resInvokeBound_sync, resInvokeBound_async, resInvokeBound_none,
          stageCount_append, invokeCount_append, stageCount_cons,
          invokeCount_cons, isEvalOf, isInvoke, stageCount_nil,
          invokeCount_nil, stageCount_reportSetter, invokeCount_reportSetter,
          stageCount_cons_invoke, invokeCount_cons_invoke] at a2
      try simp [ha, specBound_matched,
          specBound_some_some, specBound_some_none, specBound_none,
          resInvokeBound_sync, resInvokeBound_async, resInvokeBound_none,
          stageCount_append, invokeCount_append, stageCount_cons,
          invokeCount_cons, isEvalOf, isInvoke, stageCount_nil,
          invokeCount_nil, stageCount_reportSetter, invokeCount_reportSetter,
          stageCount_cons_invoke, invokeCount_cons_invoke] at a3
      try simp [ha, specBound_matched,
          specBound_some_some, specBound_some_none, specBound_none,
          resInvokeBound_sync, resInvokeBound_async, resInvokeBound_none,
          stageCount_append, invokeCount_append, stageCount_cons,
          invokeCount_cons, isEvalOf, isInvoke, stageCount_nil,
          invokeCount_nil, stageCount_reportSetter, invokeCount_reportSetter,
          stageCount_cons_invoke, invokeCount_cons_invoke] at a4
      try simp [ha, specBound_matched,
          specBound_some_some, specBound_some_none, specBound_none,
          resInvokeBound_sync, resInvokeBound_async, resInvokeBound_none,
          stageCount_append, invokeCount_append, stageCount_cons,
          invokeCount_cons, isEvalOf, isInvoke, stageCount_nil,
          invokeCount_nil, stageCount_reportSetter, invokeCount_reportSetter,
          stageCount_cons_invoke, invokeCount_cons_invoke] at a5
      refine ⟨?_, ?_, ?_, ?_, ?_⟩ <;>
        (try simp [wrapSetterStage4, ha, hpv, specBound_matched,
          specBound_some_some, specBound_some_none, specBound_none,
          resInvokeBound_sync, resInvokeBound_async, resInvokeBound_none,
          stageCount_append, invokeCount_append, stageCount_cons,
          invokeCount_cons, isEvalOf, isInvoke, stageCount_nil,
          invokeCount_nil, stageCount_reportSetter, invokeCount_reportSetter,
          stageCount_cons_invoke, invokeCount_cons_invoke]) <;>
        omega
    | sync b =>
      obtain ⟨a1, a2, a3, a4, a5⟩ :=
        wrapSetterStage5_counts spec op cls label v fm s res
      cases b <;> refine ⟨?_, ?_, ?_, ?_, ?_⟩ <;>
        (try simp [wrapSetterStage4, ha, hpv, specBound_matched,
          specBound_some_some, specBound_some_none, specBound_none,
          resInvokeBound_sync, resInvokeBound_async, resInvokeBound_none,
          stageCount_append, invokeCount_append, stageCount_cons,
          invokeCount_cons, isEvalOf, isInvoke, stageCount_nil,
          invokeCount_nil, stageCount_reportSetter, invokeCount_reportSetter,
          stageCount_cons_invoke, invokeCount_cons_invoke]) <;>
        omega

/-- Event counts of the synchronous invocation step: the operation runs
once here and at most once more in a handed-over continuation. -/
lemma wrapSetterStage3_counts {σ : Type} (spec : MSpec σ) (op : SetterOp σ)
    (cls label : String) (v : JVal) (fm : FailureMode) (s : σ) :
    stageCount (wrapSetterStage3 spec op cls label v fm s).2.2 Stage.constantBefore = 0 ∧
    stageCount (wrapSetterStage3 spec op cls label v fm s).2.2 Stage.before = 0 ∧
    stageCount (wrapSetterStage3 spec op cls label v fm s).2.2 Stage.after ≤ 1 ∧
    stageCount (wrapSetterStage3 spec op cls label v fm s).2.2 Stage.constantAfter ≤ 1 ∧
    invokeCount (wrapSetterStage3 spec op cls label v fm s).2.2 ≤ 2 := by
  have hle2 := specBound_le_one spec.after (none : Option (PV Bool))
  have hle3 := specBound_le_one spec.constant (none : Option (PV Bool))
  cases hr : (op v s).2 with
  | async res =>
    obtain ⟨a1, a2, a3, a4, a5⟩ := runAsyncSetter_counts spec op cls label
      v fm (op v s).1
      { constantBefore := if spec.constant.isSome then some (.sync true) else none,
        before := if spec.before.isSome then some (.sync true) else none,
        result := some (.async res),
        after := none,
        constantAfter := none }
    try simp [specBound_matched,
          specBound_some_some, specBound_some_none, specBound_none,
          resInvokeBound_sync, resInvokeBound_async, resInvokeBound_none,
          stageCount_append, invokeCount_append, stageCount_cons,
          invokeCount_cons, isEvalOf, isInvoke, stageCount_nil,
          invokeCount_nil, stageCount_reportSetter, invokeCount_reportSetter,
          stageCount_cons_invoke, invokeCount_cons_invoke] at a1
    try simp [specBound_matched,
          specBound_some_some, specBound_some_none, specBound_none,
          resInvokeBound_sync, resInvokeBound_async, resInvokeBound_none,
          stageCount_append, invokeCount_append, stageCount_cons,
          invokeCount_cons, isEvalOf, isInvoke, stageCount_nil,
          invokeCount_nil, stageCount_reportSetter, invokeCount_reportSetter,
          stageCount_cons_invoke, invokeCount_cons_invoke] at a2
    try simp [specBound_matched,
          specBound_some_some, specBound_some_none, specBound_none,
          resInvokeBound_sync, resInvokeBound_async, resInvokeBound_none,
          stageCount_append, invokeCount_append, stageCount_cons,
          invokeCount_cons, isEvalOf, isInvoke, stageCount_nil,
          invokeCount_nil, stageCount_reportSetter, invokeCount_reportSetter,
          stageCount_cons_invoke, invokeCount_cons_invoke] at a3
    try simp [specBound_matched,
          specBound_some_some, specBound_some_none, specBound_none,
          resInvokeBound_sync, resInvokeBound_async, resInvokeBound_none,
          stageCount_append, invokeCount_append, stageCount_cons,
          invokeCount_cons, isEvalOf, isInvoke, stageCount_nil,
          invokeCount_nil, stageCount_reportSetter, invokeCount_reportSetter,
          stageCount_cons_invoke, invokeCount_cons_invoke] at a4
    try simp [specBound_matched,
          specBound_some_some, specBound_some_none, specBound_none,
          resInvokeBound_sync, resInvokeBound_async, resInvokeBound_none,
          stageCount_append, invokeCount_append, stageCount_cons,
          invokeCount_cons, isEvalOf, isInvoke, stageCount_nil,
          invokeCount_nil, stageCount_reportSetter, invokeCount_reportSetter,
          stageCount_cons_invoke, invokeCount_cons_invoke] at a5
    refine ⟨?_, ?_, ?_, ?_, ?_⟩ <;>
      (try simp [wrapSetterStage3, hr, specBound_matched,
          specBound_some_some, specBound_some_none, specBound_none,
          resInvokeBound_sync, resInvokeBound_async, resInvokeBound_none,
          stageCount_append, invokeCount_append, stageCount_cons,
          invokeCount_cons, isEvalOf, isInvoke, stageCount_nil,
          invokeCount_nil, stageCount_reportSetter, invokeCount_reportSetter,
          stageCount_cons_invoke, invokeCount_cons_invoke]) <;>
      omega
  | sync res =>
    obtain ⟨a1, a2, a3, a4, a5⟩ :=
      wrapSetterStage4_counts spec op cls label v fm (op v s).1 res
    refine ⟨?_, ?_, ?_, ?_, ?_⟩ <;>
      (try simp [wrapSetterStage3, hr, specBound_matched,
          specBound_some_some, specBound_some_none, specBound_none,
          resInvokeBound_sync, resInvokeBound_async, resInvokeBound_none,
          stageCount_append, invokeCount_append, stageCount_cons,
          invokeCount_cons, isEvalOf, isInvoke, stageCount_nil,
          invokeCount_nil, stageCount_reportSetter, invokeCount_reportSetter,
          stageCount_cons_invoke, invokeCount_cons_invoke]) <;>
      omega

/-- Event counts of the synchronous precondition step. -/
lemma wrapSetterStage2_counts {σ : Type} (spec : MSpec σ) (op : SetterOp σ)
    (cls label : String) (v : JVal) (fm : FailureMode) (s : σ) :
    stageCount (wrapSetterStage2 spec op cls label v fm s).2.2 Stage.constantBefore = 0 ∧
    stageCount (wrapSetterStage2 spec op cls label v fm s).2.2 Stage.before ≤ 1 ∧
    stageCount (wrapSetterStage2 spec op cls label v fm s).2.2 Stage.after ≤ 1 ∧
    stageCount (wrapSetterStage2 spec op cls label v fm s).2.2 Stage.constantAfter ≤ 1 ∧
    invokeCount (wrapSetterStage2 spec op cls label v fm s).2.2 ≤ 2 := by
  have hle2 := specBound_le_one spec.after (none : Option (PV Bool))
  have hle3 := specBound_le_one spec.constant (none : Option (PV Bool))
  cases hb : spec.before with
  | none =>
    obtain ⟨a1, a2, a3, a4, a5⟩ :=
      wrapSetterStage3_counts spec op cls label v fm s
    have he : wrapSetterStage2 spec op cls label v fm s =
        wrapSetterStage3 spec op cls label v fm s := by
      simp [wrapSetterStage2, hb]
    rw [he]
    exact ⟨a1, by omega, a3, a4, a5⟩
  | some b =>
    cases hpv : b [v] with
    | async bb =>
      obtain ⟨a1, a2, a3, a4, a5⟩ := runAsyncSetter_counts spec op cls label
        v fm s
        { constantBefore := if spec.constant.isSome then some (.sync true) else none,
          before := some (.async bb),
          result := none, after := none, constantAfter := none }
      try simp [hb, specBound_matched,
          specBound_some_some, specBound_some_none, specBound_none,
          resInvokeBound_sync, resInvokeBound_async, resInvokeBound_none,
          stageCount_append, invokeCount_append, stageCount_cons,
          invokeCount_cons, isEvalOf, isInvoke, stageCount_nil,
          invokeCount_nil, stageCount_reportSetter, invokeCount_reportSetter,
          stageCount_cons_invoke, invokeCount_cons_invoke] at a1
      try simp [hb, specBound_matched,
          specBound_some_some, specBound_some_none, specBound_none,
          resInvokeBound_sync, resInvokeBound_async, resInvokeBound_none,
          stageCount_append, invokeCount_append, stageCount_cons,
          invokeCount_cons, isEvalOf, isInvoke, stageCount_nil,
          invokeCount_nil, stageCount_reportSetter, invokeCount_reportSetter,
          stageCount_cons_invoke, invokeCount_cons_invoke] at a2
      try simp [hb, specBound_matched,
          specBound_some_some, specBound_some_none, specBound_none,
          resInvokeBound_sync, resInvokeBound_async, resInvokeBound_none,
          stageCount_append, invokeCount_append, stageCount_cons,
          invokeCount_cons, isEvalOf, isInvoke, stageCount_nil,
          invokeCount_nil, stageCount_reportSetter, invokeCount_reportSetter,
          stageCount_cons_invoke, invokeCount_cons_invoke] at a3
      try simp [hb, specBound_matched,
          specBound_some_some, specBound_some_none, specBound_none,
          resInvokeBound_sync, resInvokeBound_async, resInvokeBound_none,
          stageCount_append, invokeCount_append, stageCount_cons,
          invokeCount_cons, isEvalOf, isInvoke, stageCount_nil,
          invokeCount_nil, stageCount_reportSetter, invokeCount_reportSetter,
          stageCount_cons_invoke, invokeCount_cons_invoke] at a4
      try simp [hb, specBound_matched,
          specBound_some_some, specBound_some_none, specBound_none,
          resInvokeBound_sync, resInvokeBound_async, resInvokeBound_none,
          stageCount_append, invokeCount_append, stageCount_cons,
          invokeCount_cons, isEvalOf, isInvoke, stageCount_nil,
          invokeCount_nil, stageCount_reportSetter, invokeCount_reportSetter,
          stageCount_cons_invoke, invokeCount_cons_invoke] at a5
      refine ⟨?_, ?_, ?_, ?_, ?_⟩ <;>
        (try simp [wrapSetterStage2, hb, hpv, specBound_matched,
          specBound_some_some, specBound_some_none, specBound_none,
          resInvokeBound_sync, resInvokeBound_async, resInvokeBound_none,
          stageCount_append, invokeCount_append, stageCount_cons,
          invokeCount_cons, isEvalOf, isInvoke, stageCount_nil,
          invokeCount_nil, stageCount_reportSetter, invokeCount_reportSetter,
          stageCount_cons_invoke, invokeCount_cons_invoke]) <;>
        omega
    | sync bb =>
      obtain ⟨a1, a2, a3, a4, a5⟩ :=
        wrapSetterStage3_counts spec op cls label v fm s
      cases bb <;> refine ⟨?_, ?_, ?_, ?_, ?_⟩ <;>
        (try simp [wrapSetterStage2, hb, hpv, specBound_matched,
          specBound_some_some, specBound_some_none, specBound_none,
          resInvokeBound_sync, resInvokeBound_async, resInvokeBound_none,
          stageCount_append, invokeCount_append, stageCount_cons,
          invokeCount_cons, isEvalOf, isInvoke, stageCount_nil,
          invokeCount_nil, stageCount_reportSetter, invokeCount_reportSetter,
          stageCount_cons_invoke, invokeCount_cons_invoke]) <;>
        omega

/-- Event counts of a whole wrapped setter invocation: every stage
evaluated at most once, the operation invoked at most twice (the second
time only by the nullish-result re-invocation of the continuation). -/
lemma wrapSetterRun_counts {σ : Type} (spec : MSpec σ) (op : SetterOp σ)
    (cls label : String) (v : JVal) (g : FailureMode) (s : σ) :
    stageCount (wrapSetterRun spec op cls label v g s).2.2 Stage.constantBefore ≤ 1 ∧
    stageCount (wrapSetterRun spec op cls label v g s).2.2 Stage.before ≤ 1 ∧
    stageCount (wrapSetterRun spec op cls label v g s).2.2 Stage.after ≤ 1 ∧
    stageCount (wrapSetterRun spec op cls label v g s).2.2 Stage.constantAfter ≤ 1 ∧
    invokeCount (wrapSetterRun spec op cls label v g s).2.2 ≤ 2 := by
  have hle1 := specBound_le_one spec.before (none : Option (PV Bool))
  have hle2 := specBound_le_one spec.after (none : Option (PV Bool))
  have hle3 := specBound_le_one spec.constant (none : Option (PV Bool))
  cases hc : spec.constant with
  | none =>
    obtain ⟨a1, a2, a3, a4, a5⟩ := wrapSetterStage2_counts spec op cls label
      v (spec.failureMode.getD g) s
    have he : wrapSetterRun spec op cls label v g s =
        wrapSetterStage2 spec op cls label v (spec.failureMode.getD g) s := by
      simp [wrapSetterRun, hc]
    rw [he]
    exact ⟨by omega, a2, a3, a4, a5⟩
  | some c =>
    cases hpv : c s with
    | async b =>
      obtain ⟨a1, a2, a3, a4, a5⟩ := runAsyncSetter_counts spec op cls label
        v (spec.failureMode.getD g) s
        { constantBefore := some (.async b),
          before := none, result := none, after := none, constantAfter := none }
      try simp [hc, specBound_matched,
          specBound_some_some, specBound_some_none, specBound_none,
          resInvokeBound_sync, resInvokeBound_async, resInvokeBound_none,
          stageCount_append, invokeCount_append, stageCount_cons,
          invokeCount_cons, isEvalOf, isInvoke, stageCount_nil,
          invokeCount_nil, stageCount_reportSetter, invokeCount_reportSetter,
          stageCount_cons_invoke, invokeCount_cons_invoke] at a1
      try simp [hc, specBound_matched,
          specBound_some_some, specBound_some_none, specBound_none,
          resInvokeBound_sync, resInvokeBound_async, resInvokeBound_none,
          stageCount_append, invokeCount_append, stageCount_cons,
          invokeCount_cons, isEvalOf, isInvoke, stageCount_nil,
          invokeCount_nil, stageCount_reportSetter, invokeCount_reportSetter,
          stageCount_cons_invoke, invokeCount_cons_invoke] at a2
      try simp [hc, specBound_matched,
          specBound_some_some, specBound_some_none, specBound_none,
          resInvokeBound_sync, resInvokeBound_async, resInvokeBound_none,
          stageCount_append, invokeCount_append, stageCount_cons,
          invokeCount_cons, isEvalOf, isInvoke, stageCount_nil,
          invokeCount_nil, stageCount_reportSetter, invokeCount_reportSetter,
          stageCount_cons_invoke, invokeCount_cons_invoke] at a3
      try simp [hc, specBound_matched,
          specBound_some_some, specBound_some_none, specBound_none,
          resInvokeBound_sync, resInvokeBound_async, resInvokeBound_none,
          stageCount_append, invokeCount_append, stageCount_cons,
          invokeCount_cons, isEvalOf, isInvoke, stageCount_nil,
          invokeCount_nil, stageCount_reportSetter, invokeCount_reportSetter,
          stageCount_cons_invoke, invokeCount_cons_invoke] at a4
      try simp [hc, specBound_matched,
          specBound_some_some, specBound_some_none, specBound_none,
          resInvokeBound_sync, resInvokeBound_async, resInvokeBound_none,
          stageCount_append, invokeCount_append, stageCount_cons,
          invokeCount_cons, isEvalOf, isInvoke, stageCount_nil,
          invokeCount_nil, stageCount_reportSetter, invokeCount_reportSetter,
          stageCount_cons_invoke, invokeCount_cons_invoke] at a5
      refine ⟨?_, ?_, ?_, ?_, ?_⟩ <;>
        (try simp [wrapSetterRun, hc, hpv, specBound_matched,
          specBound_some_some, specBound_some_none, specBound_none,
          resInvokeBound_sync, resInvokeBound_async, resInvokeBound_none,
          stageCount_append, invokeCount_append, stageCount_cons,
          invokeCount_cons, isEvalOf, isInvoke, stageCount_nil,
          invokeCount_nil, stageCount_reportSetter, invokeCount_reportSetter,
          stageCount_cons_invoke, invokeCount_cons_invoke]) <;>
        omega
    | sync b =>
      obtain ⟨a1, a2, a3, a4, a5⟩ := wrapSetterStage2_counts spec op cls label
        v (spec.failureMode.getD g) s
      cases b <;> refine ⟨?_, ?_, ?_, ?_, ?_⟩ <;>
        (try simp [wrapSetterRun, hc, hpv, specBound_matched,
          specBound_some_some, specBound_some_none, specBound_none,
          resInvokeBound_sync, resInvokeBound_async, resInvokeBound_none,
          stageCount_append, invokeCount_append, stageCount_cons,
          invokeCount_cons, isEvalOf, isInvoke, stageCount_nil,
          invokeCount_nil, stageCount_reportSetter, invokeCount_reportSetter,
          stageCount_cons_invoke, invokeCount_cons_invoke]) <;>
        omega

lemma allSync_cons (e : Ev) (l : List Ev) :
    allSync (e :: l) = (!e.producedAsync && allSync l) := by
  simp [allSync]

lemma allSync_append (a b : List Ev) :
    allSync (a ++ b) = (allSync a && allSync b) := by
  simp [allSync, List.all_append]

lemma allSync_report (k : MKind) (t : Option TraceOption) (fm : FailureMode)
    (cls label : String) (args : List JVal) (res : JVal) :
    allSync (reportMethodFailure k t fm cls label args res).1 = true := by
  cases fm <;>
    simp [reportMethodFailure, emitTrace, handleFailureEvs, allSync,
      Ev.producedAsync]

lemma allSync_reportSetter (k : SKind) (t : Option TraceOption)
    (fm : FailureMode) (cls label : String) (v res : JVal) :
    allSync (reportSetterFailure k t fm cls label v res).1 = true := by
  cases fm <;>
    simp [reportSetterFailure, emitTrace, handleFailureEvs, allSync,
      Ev.producedAsync]

lemma isSync_failResultSync (fm : FailureMode) (m : String) (v : JVal) :
    (failResultSync fm m v).isSync = true := by
  cases fm <;> rfl

lemma wrapStage5_syncIff {σ : Type} (spec : MSpec σ) (op : MethodOp σ)
    (cls label : String) (args : List JVal) (fm : FailureMode) (s : σ)
    (res : JVal) :
    ((wrapMethodStage5 spec op cls label args fm s res).1.isSync = true) ↔
      (allSync (wrapMethodStage5 spec op cls label args fm s res).2.2 = true) := by
  cases hc : spec.constant with
  | none => simp [wrapMethodStage5, hc, MethodResult.isSync, allSync]
  | some c =>
    cases hpv : c s with
    | sync b =>
      cases b with
      | true =>
        simp [wrapMethodStage5, hc, hpv, MethodResult.isSync, allSync,
          Ev.producedAsync, PV.isAsync]
      | false =>
        simp [wrapMethodStage5, hc, hpv,
          isSync_failResultSync, allSync_append, allSync_cons, allSync_report,
          Ev.producedAsync, PV.isAsync]
    | async b =>
      simp [wrapMethodStage5, hc, hpv, MethodResult.isSync, allSync_cons,
        allSync_append, Ev.producedAsync, PV.isAsync]

lemma wrapStage4_syncIff {σ : Type} (spec : MSpec σ) (op : MethodOp σ)
    (cls label : String) (args : List JVal) (fm : FailureMode) (s : σ)
    (res : JVal) :
    ((wrapMethodStage4 spec op cls label args fm s res).1.isSync = true) ↔
      (allSync (wrapMethodStage4 spec op cls label args fm s res).2.2 = true) := by
  cases ha : spec.after with
  | none =>
    simpa [wrapMethodStage4, ha] using
      wrapStage5_syncIff spec op cls label args fm s res
  | some a =>
    cases hpv : a res args with
    | sync b =>
      cases b with
      | true =>
        have h5 := wrapStage5_syncIff spec op cls label args fm s res
        simpa [wrapMethodStage4, ha, hpv, allSync_cons, allSync_append,
          Ev.producedAsync, PV.isAsync] using h5
      | false =>
        simp [wrapMethodStage4, ha, hpv,
          isSync_failResultSync, allSync_append, allSync_cons, allSync_report,
          Ev.producedAsync, PV.isAsync]
    | async b =>
      simp [wrapMethodStage4, ha, hpv, MethodResult.isSync, allSync_cons,
        allSync_append, Ev.producedAsync, PV.isAsync]

lemma wrapStage3_syncIff {σ : Type} (spec : MSpec σ) (op : MethodOp σ)
    (cls label : String) (args : List JVal) (fm : FailureMode) (s : σ) :
    ((wrapMethodStage3 spec op cls label args fm s).1.isSync = true) ↔
      (allSync (wrapMethodStage3 spec op cls label args fm s).2.2 = true) := by
  cases hr : (op args s).2 with
  | sync res =>
    have h4 := wrapStage4_syncIff spec op cls label args fm (op args s).1 res
    simpa [wrapMethodStage3, hr, allSync_cons, allSync_append,
      Ev.producedAsync, PV.isAsync] using h4
  | async res =>
    simp [wrapMethodStage3, hr, MethodResult.isSync, allSync_cons,
      allSync_append, Ev.producedAsync, PV.isAsync]

lemma wrapStage2_syncIff {σ : Type} (spec : MSpec σ) (op : MethodOp σ)
    (cls label : String) (args : List JVal) (fm : FailureMode) (s : σ) :
    ((wrapMethodStage2 spec op cls label args fm s).1.isSync = true) ↔
      (allSync (wrapMethodStage2 spec op cls label args fm s).2.2 = true) := by
  cases hb : spec.before with
  | none =>
    simpa [wrapMethodStage2, hb] using
      wrapStage3_syncIff spec op cls label args fm s
  | some b =>
    cases hpv : b args with
    | sync bb =>
      cases bb with
      | true =>
        have h3 := wrapStage3_syncIff spec op cls label args fm s
        simpa [wrapMethodStage2, hb, hpv, allSync_cons, allSync_append,
          Ev.producedAsync, PV.isAsync] using h3
      | false =>
        simp [wrapMethodStage2, hb, hpv,
          isSync_failResultSync, allSync_append, allSync_cons, allSync_report,
          Ev.producedAsync, PV.isAsync]
    | async bb =>
      simp [wrapMethodStage2, hb, hpv, MethodResult.isSync, allSync_cons,
        allSync_append, Ev.producedAsync, PV.isAsync]

/-- A wrapped method call returns synchronously exactly when no
participating value of the invocation was pending. -/
lemma wrapMethod_syncIff {σ : Type} (spec : MSpec σ) (op : MethodOp σ)
    (cls label : String) (args : List JVal) (g : FailureMode) (s : σ) :
    ((wrapMethodRun spec op cls label args g s).1.isSync = true) ↔
      (allSync (wrapMethodRun spec op cls label args g s).2.2 = true) := by
  cases hc : spec.constant with
  | none =>
    simpa [wrapMethodRun, hc] using
      wrapStage2_syncIff spec op cls label args (spec.failureMode.getD g) s
  | some c =>
    cases hpv : c s with
    | sync b =>
      cases b with
      | true =>
        have h2 := wrapStage2_syncIff spec op cls label args (spec.failureMode.getD g) s
        simpa [wrapMethodRun, hc, hpv, allSync_cons, allSync_append,
          Ev.producedAsync, PV.isAsync] using h2
      | false =>
        simp [wrapMethodRun, hc, hpv,
          isSync_failResultSync, allSync_append, allSync_cons, allSync_report,
          Ev.producedAsync, PV.isAsync]
    | async b =>
      simp [wrapMethodRun, hc, hpv, MethodResult.isSync, allSync_cons,
        allSync_append, Ev.producedAsync, PV.isAsync]

lemma PV.settle_toAsync {α : Type} (pv : PV α) :
    pv.toAsync.settle = pv.settle := by
  cases pv <;> rfl

lemma MSpec.asyncify_before {σ : Type} (spec : MSpec σ) :
    spec.asyncify.before = spec.before.map (fun f args => (f args).toAsync) := rfl

lemma MSpec.asyncify_after {σ : Type} (spec : MSpec σ) :
    spec.asyncify.after = spec.after.map (fun f r args => (f r args).toAsync) := rfl

lemma MSpec.asyncify_constant {σ : Type} (spec : MSpec σ) :
    spec.asyncify.constant = spec.constant.map (fun f s => (f s).toAsync) := rfl

lemma MSpec.asyncify_trace {σ : Type} (spec : MSpec σ) :
    spec.asyncify.trace = spec.trace := rfl

lemma MSpec.asyncify_failureMode {σ : Type} (spec : MSpec σ) :
    spec.asyncify.failureMode = spec.failureMode := rfl

lemma protoStage5_asyncify {σ : Type} (spec : MSpec σ) (cls label : String)
    (args : List JVal) (fm : FailureMode) (s : σ) (res : JVal) :
    protoStage5 spec.asyncify cls label args fm s res =
      protoStage5 spec cls label args fm s res := by
  cases hc : spec.constant <;>
    simp [protoStage5, MSpec.asyncify_constant, MSpec.asyncify_trace, hc,
      PV.settle_toAsync]

lemma protoStage4_asyncify {σ : Type} (spec : MSpec σ) (cls label : String)
    (args : List JVal) (fm : FailureMode) (s : σ) (res : JVal) :
    protoStage4 spec.asyncify cls label args fm s res =
      protoStage4 spec cls label args fm s res := by
  cases ha : spec.after with
  | none =>
    simp [protoStage4, MSpec.asyncify_after, MSpec.asyncify_trace, ha,
      protoStage5_asyncify]
  | some a =>
    have h5 := protoStage5_asyncify spec cls label args fm s res
    by_cases h : (a res args).settle <;>
      simp [protoStage4, MSpec.asyncify_after, MSpec.asyncify_trace, ha, h,
        PV.settle_toAsync, h5]

lemma protoStage3_asyncify {σ : Type} (spec : MSpec σ) (op : MethodOp σ)
    (cls label : String) (args : List JVal) (fm : FailureMode) (s : σ) :
    protoStage3 spec.asyncify op cls label args fm s =
      protoStage3 spec op cls label args fm s := by
  simp [protoStage3, protoStage4_asyncify]

lemma protoStage2_asyncify {σ : Type} (spec : MSpec σ) (op : MethodOp σ)
    (cls label : String) (args : List JVal) (fm : FailureMode) (s : σ) :
    protoStage2 spec.asyncify op cls label args fm s =
      protoStage2 spec op cls label args fm s := by
  cases hb : spec.before with
  | none =>
    simp [protoStage2, MSpec.asyncify_before, MSpec.asyncify_trace, hb,
      protoStage3_asyncify]
  | some b =>
    have h3 := protoStage3_asyncify spec op cls label args fm s
    by_cases h : (b args).settle <;>
      simp [protoStage2, MSpec.asyncify_before, MSpec.asyncify_trace, hb, h,
        PV.settle_toAsync, h3]

/-- The settled reference protocol only looks at the booleans the
predicates settle to: making every predicate asynchronous changes
nothing. -/
lemma protoMethod_asyncify {σ : Type} (spec : MSpec σ) (op : MethodOp σ)
    (cls label : String) (args : List JVal) (g : FailureMode) (s : σ) :
    protoMethod spec.asyncify op cls label args g s =
      protoMethod spec op cls label args g s := by
  have hfm : spec.asyncify.failureMode = spec.failureMode := rfl
  unfold protoMethod
  rw [hfm]
  cases hc : spec.constant with
  | none =>
    simp [protoStage1, MSpec.asyncify_constant, MSpec.asyncify_trace, hc,
      protoStage2_asyncify]
  | some c =>
    have h2 := protoStage2_asyncify spec op cls label args (spec.failureMode.getD g) s
    by_cases h : (c s).settle <;>
      simp [protoStage1, MSpec.asyncify_constant, MSpec.asyncify_trace, hc, h,
        PV.settle_toAsync, h2]

/-- C9: `setFailureMode m` returns the previously effective mode and makes
`m` the new process-wide default, so the round trip
`setFailureMode (setFailureMode m)` restores the original mode exactly. -/
theorem alwaysC9 (m g : FailureMode) :
    (setFailureMode m g).1 = g ∧
    (setFailureMode m g).2 = m ∧
    (setFailureMode (setFailureMode m g).1 (setFailureMode m g).2).2 = g := by
  simp [setFailureMode]

/-- C5 counterexample: on a record whose `constant` field holds the number
`5` and whose `invariant` field holds a function, the resolver drops the
invariant entirely (the nullish coalescing `constant ?? invariant` keeps
the mistyped `5`, which then fails the function check), while the claimed
policy — alias consulted exactly when the primary is not a function — would
have resolved the invariant function. -/
theorem alwaysC5_counterexample :
    (resolveSpec (.record c5rec0)).constant = none ∧
    claimedConstant c5rec0 = some 1 ∧
    (resolveSpec (.record c5rec0)).constant ≠ claimedConstant c5rec0 := by
  refine ⟨by decide, by decide, by decide⟩

/-- C5 (amended): the resolver checks field presence by exact shape (a
function value), never coercing and never erring; the `requires` and
`ensures` aliases are consulted exactly when their primary field is not a
function; the `invariant` alias however is consulted exactly when the
primary `constant` field is nullish — a non-nullish mistyped `constant`
(e.g. a number) suppresses the alias and the invariant resolves to absent;
mistyped `trace` and `failureMode` fields are silently dropped. -/
theorem alwaysC5 (r : RawRecord) (i j : Nat) :
    (r.before = .func i → (resolveSpec (.record r)).before = some i) ∧
    (r.before.isFunc = false → r.requires = .func j →
      (resolveSpec (.record r)).before = some j) ∧
    (r.before.isFunc = false → r.requires.isFunc = false →
      (resolveSpec (.record r)).before = none) ∧
    (r.after = .func i → (resolveSpec (.record r)).after = some i) ∧
    (r.after.isFunc = false → r.ensures = .func j →
      (resolveSpec (.record r)).after = some j) ∧
    (r.after.isFunc = false → r.ensures.isFunc = false →
      (resolveSpec (.record r)).after = none) ∧
    (r.constant = .func i → (resolveSpec (.record r)).constant = some i) ∧
    ((r.constant = .undef ∨ r.constant = .null) → r.invariant = .func j →
      (resolveSpec (.record r)).constant = some j) ∧
    (r.constant ≠ .undef → r.constant ≠ .null → r.constant.isFunc = false →
      (resolveSpec (.record r)).constant = none) ∧
    (r.trace.isFunc = false → (∀ b, r.trace ≠ .bool b) →
      (resolveSpec (.record r)).trace = none) ∧
    (r.failureMode ≠ .str "throw" → r.failureMode ≠ .str "log" →
      (resolveSpec (.record r)).failureMode = none) := by
  refine ⟨?_, ?_, ?_, ?_, ?_, ?_, ?_, ?_, ?_, ?_, ?_⟩
  · intro h
    simp [resolveSpec, h, JSVal.isFunc, JSVal.funcId]
  · intro h1 h2
    simp only [resolveSpec, h1, h2]
    simp [JSVal.isFunc, JSVal.funcId]
  · intro h1 h2
    simp [resolveSpec, h1, h2]
  · intro h
    simp [resolveSpec, h, JSVal.isFunc, JSVal.funcId]
  · intro h1 h2
    simp only [resolveSpec, h1, h2]
    simp [JSVal.isFunc, JSVal.funcId]
  · intro h1 h2
    simp [resolveSpec, h1, h2]
  · intro h
    simp [resolveSpec, h, JSVal.coalesce, JSVal.isFunc, JSVal.funcId]
  · intro h1 h2
    rcases h1 with h1 | h1 <;>
      simp [resolveSpec, h1, h2, JSVal.coalesce, JSVal.isFunc, JSVal.funcId]
  · intro h1 h2 h3
    cases hc : r.constant with
    | undef => exact absurd hc h1
    | null => exact absurd hc h2
    | func k => rw [hc] at h3; exact absurd h3 (by simp [JSVal.isFunc])
    | bool b => simp [resolveSpec, hc, JSVal.coalesce, JSVal.isFunc]
    | str t => simp [resolveSpec, hc, JSVal.coalesce, JSVal.isFunc]
    | num n => simp [resolveSpec, hc, JSVal.coalesce, JSVal.isFunc]
  · intro h1 h2
    cases ht : r.trace with
    | bool b => exact absurd ht (h2 b)
    | func k => rw [ht] at h1; exact absurd h1 (by simp [JSVal.isFunc])
    | undef => simp [resolveSpec, ht]
    | null => simp [resolveSpec, ht]
    | str t => simp [resolveSpec, ht]
    | num n => simp [resolveSpec, ht]
  · intro h1 h2
    simp [resolveSpec, h1, h2]

/-- C5 witness: concrete record exercising the amended clauses. -/
theorem alwaysC5_witness :
    (resolveSpec (.record c5rec1)).before = some 1 ∧
    (resolveSpec (.record c5rec1)).after = some 4 ∧
    (resolveSpec (.record c5rec1)).constant = none ∧
    (resolveSpec (.record c5rec1)).trace = none ∧
    (resolveSpec (.record c5rec1)).failureMode = none :=
  ⟨(alwaysC5 c5rec1 1 4).1 rfl,
   (alwaysC5 c5rec1 1 4).2.2.2.2.1 rfl rfl,
   (alwaysC5 c5rec1 1 4).2.2.2.2.2.2.2.2.1 (by decide) (by decide) rfl,
   (alwaysC5 c5rec1 1 4).2.2.2.2.2.2.2.2.2.1 rfl (by decide),
   (alwaysC5 c5rec1 1 4).2.2.2.2.2.2.2.2.2.2 (by decide) (by decide)⟩

/-- C6: the class transform rejects a spec without a function-valued
invariant unconditionally at transform time; a constructor-time invariant
that yields a pending value throws at construction time regardless of the
failure mode; and a constructor invariant that synchronously evaluates to
false in log mode still returns the constructed instance. -/
theorem alwaysC6 {σ : Type} (spec : MSpec σ) (constant : σ → PV Bool)
    (t : Option TraceOption) (fo : Option FailureMode) (g : FailureMode)
    (cls : String) (inst : σ) (b : Bool) :
    (spec.constant = none →
      wrapClassCheck spec =
        .error "always class decorator requires \x7b constant: (self) => boolean \x7d") ∧
    (constant inst = .async b →
      (constructInstance constant t fo g cls inst).1 =
        .error "always class decorator invariants must be synchronous during construction") ∧
    (constant inst = .sync false → fo.getD g = .log →
      (constructInstance constant t fo g cls inst).1 = .ok inst) := by
  refine ⟨?_, ?_, ?_⟩
  · intro h
    simp [wrapClassCheck, h]
  · intro h
    simp [constructInstance, h]
  · intro h hm
    simp [constructInstance, h, hm]

/-- C6 witness: concrete instantiations of the three clauses. -/
theorem alwaysC6_witness :
    wrapClassCheck c6spec =
      .error "always class decorator requires \x7b constant: (self) => boolean \x7d" ∧
    (constructInstance (fun _ => PV.async true) none none FailureMode.log "A" ()).1 =
      .error "always class decorator invariants must be synchronous during construction" ∧
    (constructInstance (fun _ => PV.sync false) none none FailureMode.log "A" ()).1 =
      .ok () :=
  ⟨(alwaysC6 c6spec (fun _ => PV.async true) none none .log "A" () true).1 rfl,
   (alwaysC6 c6spec (fun _ => PV.async true) none none .log "A" () true).2.1 rfl,
   (alwaysC6 c6spec (fun _ => PV.sync false) none none .log "A" () true).2.2 rfl rfl⟩

/-- C7: every failure message is exactly the documented template — methods
use `<Class>.<member>(<args>)`, accessors `<Class>.set <member>(<value>)`,
with `Before failed:`/`After failed:`/`Constant failed before:`/`Constant
failed after:` prefixes, `-> <result>` appended for the after kinds, and
`Constant failed after constructor: <Class>` for the constructor check; in
particular the Counter scenario raises exactly
`Constant failed after: Counter.dec(2) -> -1`. -/
theorem alwaysC7 (cls label : String) (args : List JVal) (v res : JVal)
    (constant : Int → PV Bool) (fo : Option FailureMode) (inst : Int) :
    methodFailureMessage .before cls label args res =
      "Before failed: " ++ (cls ++ "." ++ label ++ "(" ++ formatArgs args ++ ")") ∧
    methodFailureMessage .after cls label args res =
      "After failed: " ++ (cls ++ "." ++ label ++ "(" ++ formatArgs args ++ ")") ++
        " -> " ++ formatValue res ∧
    methodFailureMessage .constantBefore cls label args res =
      "Constant failed before: " ++ (cls ++ "." ++ label ++ "(" ++ formatArgs args ++ ")") ∧
    methodFailureMessage .constantAfter cls label args res =
      "Constant failed after: " ++ (cls ++ "." ++ label ++ "(" ++ formatArgs args ++ ")") ++
        " -> " ++ formatValue res ∧
    setterFailureMessage .setterBefore cls label v res =
      "Before failed: " ++ (cls ++ ".set " ++ label ++ "(" ++ formatValue v ++ ")") ∧
    setterFailureMessage .setterAfter cls label v res =
      "After failed: " ++ (cls ++ ".set " ++ label ++ "(" ++ formatValue v ++ ")") ++
        " -> " ++ formatValue res ∧
    (constant inst = .sync false → fo.getD FailureMode.throw = .throw →
      (constructInstance constant none fo FailureMode.throw cls inst).1 =
        .error ("Constant failed after constructor: " ++ cls)) ∧
    (wrapMethodRun counterSpec counterDec "Counter" "dec" [JVal.num 2]
        FailureMode.throw 1).1 =
      .syncThrown "Constant failed after: Counter.dec(2) -> -1" := by
  refine ⟨?_, ?_, ?_, ?_, ?_, ?_, ?_, by decide⟩
  · simp [methodFailureMessage, String.append_assoc]
  · simp [methodFailureMessage, String.append_assoc]
  · simp [methodFailureMessage, String.append_assoc]
  · simp [methodFailureMessage, String.append_assoc]
  · simp [setterFailureMessage, String.append_assoc]
  · simp [setterFailureMessage, String.append_assoc]
  · intro h hm
    simp [constructInstance, h, hm]

/-- C7 witness: the constructor-message clause at a concrete failing
invariant. -/
theorem alwaysC7_witness :
    (constructInstance (fun (_ : Int) => PV.sync false) none none
        FailureMode.throw "Person" 0).1 =
      .error ("Constant failed after constructor: " ++ "Person") :=
  (alwaysC7 "Person" "x" [] JVal.undef JVal.undef (fun _ => PV.sync false)
      none 0).2.2.2.2.2.2.1 rfl rfl

/-- C2 counterexample: a method that increments the receiver and returns
`undefined`, under a pending always-true postcondition, is invoked twice
within one wrapped call — the cached synchronous `undefined` does not
short-circuit the continuation's `??` — refuting "the original operation
is invoked at most once". -/
theorem alwaysC2_counterexample :
    invokeCount (wrapMethodRun c2spec voidInc "C" "m" [] FailureMode.log
      0).2.2 = 2 ∧
    (wrapMethodRun c2spec voidInc "C" "m" [] FailureMode.log 0).2.1 = 2 := by
  exact ⟨by decide, by decide⟩

/-- C2 (amended): in any single invocation of a wrapped method or setter,
each of the four predicates is evaluated at most once; the original
operation, however, is invoked at most twice — a second time exactly when
the handed-over continuation coalesces away a cached nullish synchronous
result — and at most once whenever the operation is asynchronous or its
synchronous result is not nullish. -/
theorem alwaysC2 {σ : Type} (spec : MSpec σ) (op : MethodOp σ)
    (sop : SetterOp σ) (cls label : String) (args : List JVal) (v : JVal)
    (g : FailureMode) (s s2 : σ) :
    (∀ st, stageCount (wrapMethodRun spec op cls label args g s).2.2 st ≤ 1) ∧
    invokeCount (wrapMethodRun spec op cls label args g s).2.2 ≤ 2 ∧
    (∀ st, stageCount (wrapSetterRun spec sop cls label v g s2).2.2 st ≤ 1) ∧
    invokeCount (wrapSetterRun spec sop cls label v g s2).2.2 ≤ 2 ∧
    ((op args s).2.isAsync = true ∨ ((op args s).2.settle).isNullish = false →
      invokeCount (wrapMethodRun spec op cls label args g s).2.2 ≤ 1) ∧
    ((sop v s2).2.isAsync = true ∨ ((sop v s2).2.settle).isNullish = false →
      invokeCount (wrapSetterRun spec sop cls label v g s2).2.2 ≤ 1) := by
  obtain ⟨a1, a2, a3, a4, a5⟩ := wrapMethodRun_counts spec op cls label args g s
  obtain ⟨b1, b2, b3, b4, b5⟩ := wrapSetterRun_counts spec sop cls label v g s2
  refine ⟨fun st => ?_, a5, fun st => ?_, b5, ?_, ?_⟩
  · cases st
    · exact a1
    · exact a2
    · exact a3
    · exact a4
  · cases st
    · exact b1
    · exact b2
    · exact b3
    · exact b4
  · intro hnn
    have hM := wrapMethod_proto spec op cls label args g s (fun _ _ => hnn)
    have hMe : eraseAsync (wrapMethodRun spec op cls label args g s).2.2 =
        (protoMethod spec op cls label args g s).2.2 :=
      congrArg (fun t => t.2.2) hM
    have h := invokeCount_eraseAsync (wrapMethodRun spec op cls label args g s).2.2
    rw [hMe] at h
    rw [← h]
    exact (protoStage1_counts spec op cls label args
      (spec.failureMode.getD g) s).2.2.2.2
  · intro hnn
    have hS := wrapSetter_proto spec sop cls label v g s2 (fun _ _ => hnn)
    have hSe : eraseAsync (wrapSetterRun spec sop cls label v g s2).2.2 =
        (protoSetter spec sop cls label v g s2).2.2 :=
      congrArg (fun t => t.2.2) hS
    have h := invokeCount_eraseAsync (wrapSetterRun spec sop cls label v g s2).2.2
    rw [hSe] at h
    rw [← h]
    exact (protoSetterStage1_counts spec sop cls label v
      (spec.failureMode.getD g) s2).2.2.2.2

/-- C2 witness: a method and setter whose body returns `7` (not nullish):
the operation is invoked at most once. -/
theorem alwaysC2_witness :
    invokeCount (wrapMethodRun c3spec (fun _ s => (s, PV.sync (JVal.num 7)))
      "C" "m" [] FailureMode.log (0 : Int)).2.2 ≤ 1 ∧
    invokeCount (wrapSetterRun c3spec (fun _ s => (s, PV.sync (JVal.num 7)))
      "C" "m" JVal.undef FailureMode.log (0 : Int)).2.2 ≤ 1 :=
  ⟨(alwaysC2 c3spec (fun _ s => (s, PV.sync (JVal.num 7)))
      (fun _ s => (s, PV.sync (JVal.num 7))) "C" "m" [] JVal.undef
      FailureMode.log 0 0).2.2.2.2.1 (Or.inr (by decide)),
   (alwaysC2 c3spec (fun _ s => (s, PV.sync (JVal.num 7)))
      (fun _ s => (s, PV.sync (JVal.num 7))) "C" "m" [] JVal.undef
      FailureMode.log 0 0).2.2.2.2.2 (Or.inr (by decide))⟩

/-- C4 counterexample: for the void incrementing method under a settled
always-true postcondition, asyncifying the predicates changes the final
receiver state from `1` to `2`: the handed-over continuation re-invokes
the operation because its cached synchronous result `undefined` is
nullish. -/
theorem alwaysC4_counterexample :
    (wrapMethodRun c4spec.asyncify voidInc "C" "m" [] FailureMode.log
      0).2.1 = 2 ∧
    (wrapMethodRun c4spec voidInc "C" "m" [] FailureMode.log 0).2.1 = 1 := by
  exact ⟨by decide, by decide⟩

/-- C4 (amended): a wrapped method call returns synchronously exactly when
no participating value (predicate result or operation body) was pending;
and whenever the operation is asynchronous or its synchronous result is
not nullish, the all-synchronous build and the all-asynchronous build
(every predicate wrapped in a pending value settling to the same boolean)
produce the same settled outcome, the same final receiver state, and the
same observable events.  Without that proviso the equivalence fails: see
the counterexample. -/
theorem alwaysC4 {σ : Type} (spec : MSpec σ) (op : MethodOp σ)
    (cls label : String) (args : List JVal) (g : FailureMode) (s : σ) :
    ((wrapMethodRun spec op cls label args g s).1.isSync = true ↔
      allSync (wrapMethodRun spec op cls label args g s).2.2 = true) ∧
    ((op args s).2.isAsync = true ∨ ((op args s).2.settle).isNullish = false →
      (wrapMethodRun spec.asyncify op cls label args g s).1.settled =
        (wrapMethodRun spec op cls label args g s).1.settled ∧
      (wrapMethodRun spec.asyncify op cls label args g s).2.1 =
        (wrapMethodRun spec op cls label args g s).2.1 ∧
      eraseAsync (wrapMethodRun spec.asyncify op cls label args g s).2.2 =
        eraseAsync (wrapMethodRun spec op cls label args g s).2.2) := by
  refine ⟨wrapMethod_syncIff spec op cls label args g s, fun hnn => ?_⟩
  have h1 := wrapMethod_proto spec op cls label args g s (fun _ _ => hnn)
  have h2 := wrapMethod_proto spec.asyncify op cls label args g s
    (fun _ _ => hnn)
  have h3 := protoMethod_asyncify spec op cls label args g s
  have key : eraseRun (wrapMethodRun spec.asyncify op cls label args g s) =
      eraseRun (wrapMethodRun spec op cls label args g s) := by
    rw [h1, h2, h3]
  exact ⟨congrArg (fun t => t.1) key, congrArg (fun t => t.2.1) key,
    congrArg (fun t => t.2.2) key⟩

/-- C4 witness: the always-false-postcondition spec with a body returning
`7` settles to the same outcome with and without asyncified predicates. -/
theorem alwaysC4_witness :
    (wrapMethodRun c3spec.asyncify (fun _ s => (s, PV.sync (JVal.num 7)))
      "C" "m" [] FailureMode.log (0 : Int)).1.settled =
    (wrapMethodRun c3spec (fun _ s => (s, PV.sync (JVal.num 7)))
      "C" "m" [] FailureMode.log (0 : Int)).1.settled :=
  ((alwaysC4 c3spec (fun _ s => (s, PV.sync (JVal.num 7))) "C" "m" []
      FailureMode.log 0).2 (Or.inr (by decide))).1

lemma protoMethod_prefail {σ : Type} (spec : MSpec σ) (op : MethodOp σ)
    (cls label : String) (args : List JVal) (g : FailureMode) (s : σ)
    (h : (∃ c, spec.constant = some c ∧ (c s).settle = false) ∨
         ((∀ c, spec.constant = some c → (c s).settle = true) ∧
          ∃ b, spec.before = some b ∧ (b args).settle = false)) :
    (protoMethod spec op cls label args g s).2.1 = s ∧
    invokeCount (protoMethod spec op cls label args g s).2.2 = 0 ∧
    (spec.failureMode.getD g = .log →
      (protoMethod spec op cls label args g s).1 = .ok .undef) ∧
    (spec.failureMode.getD g = .throw →
      ∃ m, (protoMethod spec op cls label args g s).1 = .error m) := by
  rcases h with ⟨c, hc, hf⟩ | ⟨hcb, b, hb, hf⟩
  · have key : protoMethod spec op cls label args g s =
        (failResultAsync (spec.failureMode.getD g)
           (reportMethodFailure .constantBefore spec.trace
             (spec.failureMode.getD g) cls label args .undef).2 .undef, s,
         Ev.evalStage .constantBefore false ::
           (reportMethodFailure .constantBefore spec.trace
             (spec.failureMode.getD g) cls label args .undef).1) := by
      simp [protoMethod, protoStage1, hc, hf]
    rw [key]
    refine ⟨rfl, ?_, ?_, ?_⟩
    · simp [invokeCount_cons, isInvoke, invokeCount_report]
    · intro hm
      simp [hm, failResultAsync]
    · intro hm
      rw [hm]
      exact ⟨_, rfl⟩
  · have key2 : protoStage2 spec op cls label args (spec.failureMode.getD g) s =
        (failResultAsync (spec.failureMode.getD g)
           (reportMethodFailure .before spec.trace
             (spec.failureMode.getD g) cls label args .undef).2 .undef, s,
         Ev.evalStage .before false ::
           (reportMethodFailure .before spec.trace
             (spec.failureMode.getD g) cls label args .undef).1) := by
      simp [protoStage2, hb, hf]
    cases hc : spec.constant with
    | none =>
      have key : protoMethod spec op cls label args g s =
          protoStage2 spec op cls label args (spec.failureMode.getD g) s := by
        simp [protoMethod, protoStage1, hc]
      rw [key, key2]
      refine ⟨rfl, ?_, ?_, ?_⟩
      · simp [invokeCount_cons, isInvoke, invokeCount_report]
      · intro hm
        simp [hm, failResultAsync]
      · intro hm
        rw [hm]
        exact ⟨_, rfl⟩
    | some c =>
      have hcs := hcb c hc
      have key : protoMethod spec op cls label args g s =
          ((protoStage2 spec op cls label args (spec.failureMode.getD g) s).1,
           (protoStage2 spec op cls label args (spec.failureMode.getD g) s).2.1,
           Ev.evalStage .constantBefore false ::
             (protoStage2 spec op cls label args (spec.failureMode.getD g) s).2.2) := by
        simp [protoMethod, protoStage1, hc, hcs]
      rw [key, key2]
      refine ⟨rfl, ?_, ?_, ?_⟩
      · simp [invokeCount_cons, isInvoke, invokeCount_report]
      · intro hm
        simp [hm, failResultAsync]
      · intro hm
        rw [hm]
        exact ⟨_, rfl⟩

lemma protoSetter_prefail {σ : Type} (spec : MSpec σ) (op : SetterOp σ)
    (cls label : String) (v : JVal) (g : FailureMode) (s : σ)
    (h : (∃ c, spec.constant = some c ∧ (c s).settle = false) ∨
         ((∀ c, spec.constant = some c → (c s).settle = true) ∧
          ∃ b, spec.before = some b ∧ (b [v]).settle = false)) :
    (protoSetter spec op cls label v g s).2.1 = s ∧
    invokeCount (protoSetter spec op cls label v g s).2.2 = 0 ∧
    (spec.failureMode.getD g = .log →
      (protoSetter spec op cls label v g s).1 = .ok .undef) ∧
    (spec.failureMode.getD g = .throw →
      ∃ m, (protoSetter spec op cls label v g s).1 = .error m) := by
  rcases h with ⟨c, hc, hf⟩ | ⟨hcb, b, hb, hf⟩
  · have key : protoSetter spec op cls label v g s =
        (failResultAsync (spec.failureMode.getD g)
           (reportSetterFailure .constantBefore spec.trace
             (spec.failureMode.getD g) cls label v .undef).2 .undef, s,
         Ev.evalStage .constantBefore false ::
           (reportSetterFailure .constantBefore spec.trace
             (spec.failureMode.getD g) cls label v .undef).1) := by
      simp [protoSetter, protoSetterStage1, hc, hf]
    rw [key]
    refine ⟨rfl, ?_, ?_, ?_⟩
    · simp [invokeCount_cons, isInvoke, invokeCount_reportSetter]
    · intro hm
      simp [hm, failResultAsync]
    · intro hm
      rw [hm]
      exact ⟨_, rfl⟩
  · have key2 : protoSetterStage2 spec op cls label v (spec.failureMode.getD g) s =
        (failResultAsync (spec.failureMode.getD g)
           (reportSetterFailure .setterBefore spec.trace
             (spec.failureMode.getD g) cls label v .undef).2 .undef, s,
         Ev.evalStage .before false ::
           (reportSetterFailure .setterBefore spec.trace
             (spec.failureMode.getD g) cls label v .undef).1) := by
      simp [protoSetterStage2, hb, hf]
    cases hc : spec.constant with
    | none =>
      have key : protoSetter spec op cls label v g s =
          protoSetterStage2 spec op cls label v (spec.failureMode.getD g) s := by
        simp [protoSetter, protoSetterStage1, hc]
      rw [key, key2]
      refine ⟨rfl, ?_, ?_, ?_⟩
      · simp [invokeCount_cons, isInvoke, invokeCount_reportSetter]
      · intro hm
        simp [hm, failResultAsync]
      · intro hm
        rw [hm]
        exact ⟨_, rfl⟩
    | some c =>
      have hcs := hcb c hc
      have key : protoSetter spec op cls label v g s =
          ((protoSetterStage2 spec op cls label v (spec.failureMode.getD g) s).1,
           (protoSetterStage2 spec op cls label v (spec.failureMode.getD g) s).2.1,
           Ev.evalStage .constantBefore false ::
             (protoSetterStage2 spec op cls label v (spec.failureMode.getD g) s).2.2) := by
        simp [protoSetter, protoSetterStage1, hc, hcs]
      rw [key, key2]
      refine ⟨rfl, ?_, ?_, ?_⟩
      · simp [invokeCount_cons, isInvoke, invokeCount_reportSetter]
      · intro hm
        simp [hm, failResultAsync]
      · intro hm
        rw [hm]
        exact ⟨_, rfl⟩

lemma protoMethod_afterFail {σ : Type} (spec : MSpec σ) (op : MethodOp σ)
    (cls label : String) (args : List JVal) (g : FailureMode) (s : σ)
    (hcb : ∀ c, spec.constant = some c → (c s).settle = true)
    (hb : ∀ b, spec.before = some b → (b args).settle = true)
    (a : JVal → List JVal → PV Bool) (ha : spec.after = some a)
    (hf : (a (op args s).2.settle args).settle = false) :
    ∃ pre : List Ev,
      protoMethod spec op cls label args g s =
        (failResultAsync (spec.failureMode.getD g)
           (reportMethodFailure .after spec.trace (spec.failureMode.getD g)
             cls label args ((op args s).2.settle)).2 ((op args s).2.settle),
         (op args s).1,
         pre ++ (reportMethodFailure .after spec.trace (spec.failureMode.getD g)
             cls label args ((op args s).2.settle)).1) ∧
      stageCount pre Stage.constantAfter = 0 ∧
      invokeCount pre = 1 := by
  cases hc : spec.constant with
  | none =>
    cases hb0 : spec.before with
    | none =>
      refine ⟨[Ev.invoke false, Ev.evalStage .after false], ?_, by decide, by decide⟩
      simp [protoMethod, protoStage1, protoStage2, protoStage3, protoStage4,
        hc, hb0, ha, hf]
    | some b =>
      have hbs := hb b hb0
      refine ⟨[Ev.evalStage .before false, Ev.invoke false,
        Ev.evalStage .after false], ?_, by decide, by decide⟩
      simp [protoMethod, protoStage1, protoStage2, protoStage3, protoStage4,
        hc, hb0, hbs, ha, hf]
  | some c =>
    have hcs := hcb c hc
    cases hb0 : spec.before with
    | none =>
      refine ⟨[Ev.evalStage .constantBefore false, Ev.invoke false,
        Ev.evalStage .after false], ?_, by decide, by decide⟩
      simp [protoMethod, protoStage1, protoStage2, protoStage3, protoStage4,
        hc, hcs, hb0, ha, hf]
    | some b =>
      have hbs := hb b hb0
      refine ⟨[Ev.evalStage .constantBefore false, Ev.evalStage .before false,
        Ev.invoke false, Ev.evalStage .after false], ?_, by decide, by decide⟩
      simp [protoMethod, protoStage1, protoStage2, protoStage3, protoStage4,
        hc, hcs, hb0, hbs, ha, hf]

lemma protoMethod_caFail {σ : Type} (spec : MSpec σ) (op : MethodOp σ)
    (cls label : String) (args : List JVal) (g : FailureMode) (s : σ)
    (hcb : ∀ c, spec.constant = some c → (c s).settle = true)
    (hb : ∀ b, spec.before = some b → (b args).settle = true)
    (haPass : ∀ a, spec.after = some a →
      (a (op args s).2.settle args).settle = true)
    (c : σ → PV Bool) (hc : spec.constant = some c)
    (hf : (c (op args s).1).settle = false) :
    ∃ pre : List Ev,
      protoMethod spec op cls label args g s =
        (failResultAsync (spec.failureMode.getD g)
           (reportMethodFailure .constantAfter spec.trace
             (spec.failureMode.getD g) cls label args
             ((op args s).2.settle)).2 ((op args s).2.settle),
         (op args s).1,
         pre ++ (reportMethodFailure .constantAfter spec.trace
             (spec.failureMode.getD g) cls label args
             ((op args s).2.settle)).1) ∧
      invokeCount pre = 1 := by
  have hcs := hcb c hc
  cases hb0 : spec.before with
  | none =>
    cases ha0 : spec.after with
    | none =>
      refine ⟨[Ev.evalStage .constantBefore false, Ev.invoke false,
        Ev.evalStage .constantAfter false], ?_, by decide⟩
      simp [protoMethod, protoStage1, protoStage2, protoStage3, protoStage4,
        protoStage5, hc, hcs, hb0, ha0, hf]
    | some a =>
      have has := haPass a ha0
      refine ⟨[Ev.evalStage .constantBefore false, Ev.invoke false,
        Ev.evalStage .after false, Ev.evalStage .constantAfter false], ?_,
        by decide⟩
      simp [protoMethod, protoStage1, protoStage2, protoStage3, protoStage4,
        protoStage5, hc, hcs, hb0, ha0, has, hf]
  | some b =>
    have hbs := hb b hb0
    cases ha0 : spec.after with
    | none =>
      refine ⟨[Ev.evalStage .constantBefore false, Ev.evalStage .before false,
        Ev.invoke false, Ev.evalStage .constantAfter false], ?_, by decide⟩
      simp [protoMethod, protoStage1, protoStage2, protoStage3, protoStage4,
        protoStage5, hc, hcs, hb0, hbs, ha0, hf]
    | some a =>
      have has := haPass a ha0
      refine ⟨[Ev.evalStage .constantBefore false, Ev.evalStage .before false,
        Ev.invoke false, Ev.evalStage .after false,
        Ev.evalStage .constantAfter false], ?_, by decide⟩
      simp [protoMethod, protoStage1, protoStage2, protoStage3, protoStage4,
        protoStage5, hc, hcs, hb0, hbs, ha0, has, hf]

/-- C1: whenever the invariant-before fails, or the invariant-before
passes and the precondition fails, the original operation is never invoked
and the receiver state is unchanged; in log mode the wrapped call settles
to `undefined`, in throw mode it fails with an error — for methods and for
setters alike. -/
theorem alwaysC1 {σ : Type} (spec : MSpec σ) (op : MethodOp σ)
    (sop : SetterOp σ) (cls label : String) (args : List JVal) (v : JVal)
    (g : FailureMode) (s s2 : σ)
    (hm : (∃ c, spec.constant = some c ∧ (c s).settle = false) ∨
          ((∀ c, spec.constant = some c → (c s).settle = true) ∧
           ∃ b, spec.before = some b ∧ (b args).settle = false))
    (hs : (∃ c, spec.constant = some c ∧ (c s2).settle = false) ∨
          ((∀ c, spec.constant = some c → (c s2).settle = true) ∧
           ∃ b, spec.before = some b ∧ (b [v]).settle = false)) :
    ((wrapMethodRun spec op cls label args g s).2.1 = s ∧
     invokeCount (wrapMethodRun spec op cls label args g s).2.2 = 0 ∧
     (spec.failureMode.getD g = .log →
       (wrapMethodRun spec op cls label args g s).1.settled = .ok .undef) ∧
     (spec.failureMode.getD g = .throw →
       ∃ m, (wrapMethodRun spec op cls label args g s).1.settled = .error m)) ∧
    ((wrapSetterRun spec sop cls label v g s2).2.1 = s2 ∧
     invokeCount (wrapSetterRun spec sop cls label v g s2).2.2 = 0 ∧
     (spec.failureMode.getD g = .log →
       (wrapSetterRun spec sop cls label v g s2).1.settled = .ok .undef) ∧
     (spec.failureMode.getD g = .throw →
       ∃ m, (wrapSetterRun spec sop cls label v g s2).1.settled = .error m)) := by
  have hGm : (∀ c, spec.constant = some c → (c s).settle = true) →
      (∀ b, spec.before = some b → (b args).settle = true) →
      (op args s).2.isAsync = true ∨
        ((op args s).2.settle).isNullish = false := by
    intro hcp hbp
    rcases hm with ⟨c, hc, hf⟩ | ⟨_, b, hbeq, hf⟩
    · rw [hcp c hc] at hf
      exact absurd hf (by decide)
    · rw [hbp b hbeq] at hf
      exact absurd hf (by decide)
  have hGs : (∀ c, spec.constant = some c → (c s2).settle = true) →
      (∀ b, spec.before = some b → (b [v]).settle = true) →
      (sop v s2).2.isAsync = true ∨
        ((sop v s2).2.settle).isNullish = false := by
    intro hcp hbp
    rcases hs with ⟨c, hc, hf⟩ | ⟨_, b, hbeq, hf⟩
    · rw [hcp c hc] at hf
      exact absurd hf (by decide)
    · rw [hbp b hbeq] at hf
      exact absurd hf (by decide)
  have hM := wrapMethod_proto spec op cls label args g s hGm
  have hS := wrapSetter_proto spec sop cls label v g s2 hGs
  obtain ⟨p1, p2, p3, p4⟩ := protoMethod_prefail spec op cls label args g s hm
  obtain ⟨q1, q2, q3, q4⟩ := protoSetter_prefail spec sop cls label v g s2 hs
  have hM1 : (wrapMethodRun spec op cls label args g s).1.settled =
      (protoMethod spec op cls label args g s).1 := congrArg (fun t => t.1) hM
  have hM2 : (wrapMethodRun spec op cls label args g s).2.1 =
      (protoMethod spec op cls label args g s).2.1 :=
    congrArg (fun t => t.2.1) hM
  have hM3 : eraseAsync (wrapMethodRun spec op cls label args g s).2.2 =
      (protoMethod spec op cls label args g s).2.2 :=
    congrArg (fun t => t.2.2) hM
  have hS1 : (wrapSetterRun spec sop cls label v g s2).1.settled =
      (protoSetter spec sop cls label v g s2).1 := congrArg (fun t => t.1) hS
  have hS2 : (wrapSetterRun spec sop cls label v g s2).2.1 =
      (protoSetter spec sop cls label v g s2).2.1 :=
    congrArg (fun t => t.2.1) hS
  have hS3 : eraseAsync (wrapSetterRun spec sop cls label v g s2).2.2 =
      (protoSetter spec sop cls label v g s2).2.2 :=
    congrArg (fun t => t.2.2) hS
  refine ⟨⟨hM2.trans p1, ?_, fun h => hM1.trans (p3 h),
    fun h => (p4 h).imp fun m pm => hM1.trans pm⟩,
    ⟨hS2.trans q1, ?_, fun h => hS1.trans (q3 h),
    fun h => (q4 h).imp fun m pm => hS1.trans pm⟩⟩
  · rw [← invokeCount_eraseAsync, hM3]
    exact p2
  · rw [← invokeCount_eraseAsync, hS3]
    exact q2

/-- C1 witness: setting `-1` against the non-negative precondition, both
as a method call and as a setter assignment, in throw mode: the receiver
state is untouched and the operation is never invoked. -/
theorem alwaysC1_witness :
    (wrapMethodRun c1spec counterDec "Person" "age" [JVal.num (-1)]
        FailureMode.throw 5).2.1 = 5 ∧
    invokeCount (wrapMethodRun c1spec counterDec "Person" "age"
        [JVal.num (-1)] FailureMode.throw 5).2.2 = 0 ∧
    (wrapSetterRun c1spec (fun v s => (s, PV.sync v)) "Person" "age"
        (JVal.num (-1)) FailureMode.throw 5).2.1 = 5 ∧
    invokeCount (wrapSetterRun c1spec (fun v s => (s, PV.sync v)) "Person"
        "age" (JVal.num (-1)) FailureMode.throw 5).2.2 = 0 := by
  have h := alwaysC1 c1spec counterDec (fun v s => (s, PV.sync v)) "Person"
    "age" [JVal.num (-1)] (JVal.num (-1)) FailureMode.throw 5 5
    (Or.inr ⟨fun c hc => by simp [c1spec] at hc,
      ⟨nonNegArg, rfl, by decide⟩⟩)
    (Or.inr ⟨fun c hc => by simp [c1spec] at hc,
      ⟨nonNegArg, rfl, by decide⟩⟩)
  exact ⟨h.1.1, h.1.2.1, h.2.1, h.2.2.1⟩

/-- C3 counterexample: with an always-false postcondition in throw mode,
the wrapped call does not return the already-computed result `7`; it
throws `After failed: C.m(5) -> 7`, so "the result is still returned to
the caller" fails for throw mode. -/
theorem alwaysC3_counterexample :
    (wrapMethodRun c3spec (fun _ s => (s, PV.sync (JVal.num 7))) "C" "m"
        [JVal.num 5] FailureMode.throw 0).1 =
      .syncThrown "After failed: C.m(5) -> 7" ∧
    (wrapMethodRun c3spec (fun _ s => (s, PV.sync (JVal.num 7))) "C" "m"
        [JVal.num 5] FailureMode.throw 0).1 ≠ .syncVal (JVal.num 7) := by
  exact ⟨by decide, by decide⟩

/-- C3 (amended): when the postcondition (resp. the invariant-after)
fails after the earlier stages passed, the operation has already run; in
log mode its already-computed result is still returned to the caller, and
in throw mode the call instead fails with the documented error whose
message carries the formatted result. -/
theorem alwaysC3 {σ : Type} (spec : MSpec σ) (op : MethodOp σ)
    (cls label : String) (args : List JVal) (g : FailureMode) (s : σ)
    (hcb : ∀ c, spec.constant = some c → (c s).settle = true)
    (hb : ∀ b, spec.before = some b → (b args).settle = true)
    (hnn : (op args s).2.isAsync = true ∨
      ((op args s).2.settle).isNullish = false) :
    (∀ a, spec.after = some a →
      (a (op args s).2.settle args).settle = false →
      ((spec.failureMode.getD g = .log →
         (wrapMethodRun spec op cls label args g s).1.settled =
           .ok ((op args s).2.settle)) ∧
       (spec.failureMode.getD g = .throw →
         (wrapMethodRun spec op cls label args g s).1.settled =
           .error (methodFailureMessage .after cls label args
             ((op args s).2.settle))))) ∧
    (∀ c, spec.constant = some c →
      (∀ a, spec.after = some a →
        (a (op args s).2.settle args).settle = true) →
      (c (op args s).1).settle = false →
      ((spec.failureMode.getD g = .log →
         (wrapMethodRun spec op cls label args g s).1.settled =
           .ok ((op args s).2.settle)) ∧
       (spec.failureMode.getD g = .throw →
         (wrapMethodRun spec op cls label args g s).1.settled =
           .error (methodFailureMessage .constantAfter cls label args
             ((op args s).2.settle))))) := by
  have hM := wrapMethod_proto spec op cls label args g s (fun _ _ => hnn)
  have hM1 : (wrapMethodRun spec op cls label args g s).1.settled =
      (protoMethod spec op cls label args g s).1 := congrArg (fun t => t.1) hM
  constructor
  · intro a ha hf
    obtain ⟨pre, key, _, _⟩ :=
      protoMethod_afterFail spec op cls label args g s hcb hb a ha hf
    constructor
    · intro hmode
      rw [hM1, key]
      simp [hmode, failResultAsync]
    · intro hmode
      rw [hM1, key]
      simp [hmode, failResultAsync, reportMethodFailure]
  · intro c hc haPass hf
    obtain ⟨pre, key, _⟩ :=
      protoMethod_caFail spec op cls label args g s hcb hb haPass c hc hf
    constructor
    · intro hmode
      rw [hM1, key]
      simp [hmode, failResultAsync]
    · intro hmode
      rw [hM1, key]
      simp [hmode, failResultAsync, reportMethodFailure]

/-- C3 witness: the always-false postcondition scenario, in log mode the
result `7` is returned, in throw mode the call fails with the exact
message. -/
theorem alwaysC3_witness :
    (wrapMethodRun c3spec (fun _ s => (s, PV.sync (JVal.num 7))) "C" "m"
        [JVal.num 5] FailureMode.log 0).1.settled = .ok (JVal.num 7) ∧
    (wrapMethodRun c3spec (fun _ s => (s, PV.sync (JVal.num 7))) "C" "m"
        [JVal.num 5] FailureMode.throw 0).1.settled =
      .error (methodFailureMessage .after "C" "m" [JVal.num 5]
        (JVal.num 7)) := by
  have h1 := alwaysC3 c3spec (fun _ s => (s, PV.sync (JVal.num 7))) "C" "m"
    [JVal.num 5] FailureMode.log 0
    (fun c hc => by simp [c3spec] at hc)
    (fun b hb => by simp [c3spec] at hb)
    (Or.inr (by decide))
  have h2 := alwaysC3 c3spec (fun _ s => (s, PV.sync (JVal.num 7))) "C" "m"
    [JVal.num 5] FailureMode.throw 0
    (fun c hc => by simp [c3spec] at hc)
    (fun b hb => by simp [c3spec] at hb)
    (Or.inr (by decide))
  exact ⟨(h1.1 (fun _ _ => PV.sync false) rfl (by decide)).1 rfl,
    (h2.1 (fun _ _ => PV.sync false) rfl (by decide)).2 rfl⟩

/-- C10 counterexample: in log mode with a pending always-false
postcondition, the operation's cached first result `undefined` is
nullish, so the continuation re-invokes the operation: the caller
receives the second invocation's result `9`, not the already-computed
first result `undefined`, and the receiver is advanced twice. -/
theorem alwaysC10_counterexample :
    (wrapMethodRun c10spec firstUndef "C" "m" [] FailureMode.log
      0).1.settled = .ok (JVal.num 9) ∧
    (firstUndef [] 0).2.settle = JVal.undef ∧
    (wrapMethodRun c10spec firstUndef "C" "m" [] FailureMode.log 0).2.1 = 2 ∧
    (firstUndef [] 0).1 = 1 := by
  exact ⟨by decide, by decide, by decide, by decide⟩

/-- C10 (amended): when the postcondition fails in log mode (the earlier
stages having passed) and the operation is asynchronous or its synchronous
result is not nullish, the invariant-after is never evaluated and the
already-computed result is returned — in whichever of the synchronous
path or the asynchronous continuation the invocation ran.  For a nullish
synchronous result the continuation re-invokes the operation and returns
the second result: see the counterexample. -/
theorem alwaysC10 {σ : Type} (spec : MSpec σ) (op : MethodOp σ)
    (cls label : String) (args : List JVal) (g : FailureMode) (s : σ)
    (hcb : ∀ c, spec.constant = some c → (c s).settle = true)
    (hb : ∀ b, spec.before = some b → (b args).settle = true)
    (hnn : (op args s).2.isAsync = true ∨
      ((op args s).2.settle).isNullish = false)
    (a : JVal → List JVal → PV Bool) (ha : spec.after = some a)
    (hf : (a (op args s).2.settle args).settle = false)
    (hmode : spec.failureMode.getD g = .log) :
    stageCount (wrapMethodRun spec op cls label args g s).2.2
      Stage.constantAfter = 0 ∧
    (wrapMethodRun spec op cls label args g s).1.settled =
      .ok ((op args s).2.settle) ∧
    (wrapMethodRun spec op cls label args g s).2.1 = (op args s).1 := by
  have hM := wrapMethod_proto spec op cls label args g s (fun _ _ => hnn)
  have hM1 : (wrapMethodRun spec op cls label args g s).1.settled =
      (protoMethod spec op cls label args g s).1 := congrArg (fun t => t.1) hM
  have hM2 : (wrapMethodRun spec op cls label args g s).2.1 =
      (protoMethod spec op cls label args g s).2.1 :=
    congrArg (fun t => t.2.1) hM
  have hM3 : eraseAsync (wrapMethodRun spec op cls label args g s).2.2 =
      (protoMethod spec op cls label args g s).2.2 :=
    congrArg (fun t => t.2.2) hM
  obtain ⟨pre, key, hca, _⟩ :=
    protoMethod_afterFail spec op cls label args g s hcb hb a ha hf
  refine ⟨?_, ?_, ?_⟩
  · rw [← stageCount_eraseAsync, hM3, key]
    simp [stageCount_append, hca, stageCount_report]
  · rw [hM1, key]
    simp [hmode, failResultAsync]
  · rw [hM2, key]

/-- C10 witness: the log-mode always-false postcondition scenario skips
the invariant-after stage and returns `7`. -/
theorem alwaysC10_witness :
    stageCount (wrapMethodRun c3spec (fun _ s => (s, PV.sync (JVal.num 7)))
        "C" "m" [JVal.num 5] FailureMode.log 0).2.2 Stage.constantAfter = 0 ∧
    (wrapMethodRun c3spec (fun _ s => (s, PV.sync (JVal.num 7))) "C" "m"
        [JVal.num 5] FailureMode.log 0).1.settled = .ok (JVal.num 7) := by
  have h := alwaysC10 c3spec (fun _ s => (s, PV.sync (JVal.num 7))) "C" "m"
    [JVal.num 5] FailureMode.log 0
    (fun c hc => by simp [c3spec] at hc)
    (fun b hb => by simp [c3spec] at hb)
    (Or.inr (by decide))
    (fun _ _ => PV.sync false) rfl (by decide) rfl
  exact ⟨h.1, h.2.1⟩

lemma traceOut_report_mem (k : MKind) (t : Option TraceOption)
    (fm : FailureMode) (cls label : String) (args : List JVal) (res : JVal)
    (i : TraceInfo)
    (h : Ev.traceOut i ∈ (reportMethodFailure k t fm cls label args res).1) :
    i = methodInfo k cls label args res := by
  by_cases he : traceEnabled t = true <;> cases fm <;>
    simp [reportMethodFailure, emitTrace, handleFailureEvs, he] at h <;>
    try exact h

lemma traceOut_reportSetter_mem (k : SKind) (t : Option TraceOption)
    (fm : FailureMode) (cls label : String) (v res : JVal) (i : TraceInfo)
    (h : Ev.traceOut i ∈ (reportSetterFailure k t fm cls label v res).1) :
    i = setterInfo k cls label v res := by
  by_cases he : traceEnabled t = true <;> cases fm <;>
    simp [reportSetterFailure, emitTrace, handleFailureEvs, he] at h <;>
    try exact h

lemma methodInfo_wf_pre (k : MKind) (hk : k = .constantBefore ∨ k = .before)
    (cls label : String) (args : List JVal) :
    methodTraceWF (methodInfo k cls label args .undef) := by
  rcases hk with h | h <;> subst h
  · refine ⟨?_, rfl, rfl, rfl, fun hres => by simp [methodInfo] at hres⟩
    show "constant-before" ∈ ["constant-before", "before", "after", "constant-after"]
    decide
  · refine ⟨?_, rfl, rfl, rfl, fun hres => by simp [methodInfo] at hres⟩
    show "before" ∈ ["constant-before", "before", "after", "constant-after"]
    decide

lemma methodInfo_wf_post (k : MKind) (hk : k = .after ∨ k = .constantAfter)
    (cls label : String) (args : List JVal) (res : JVal) :
    methodTraceWF (methodInfo k cls label args res) := by
  rcases hk with h | h <;> subst h
  · refine ⟨?_, rfl, rfl, rfl, fun _ => ?_⟩
    · show "after" ∈ ["constant-before", "before", "after", "constant-after"]
      decide
    · show "after" ∈ ["after", "constant-after"]
      decide
  · refine ⟨?_, rfl, rfl, rfl, fun _ => ?_⟩
    · show "constant-after" ∈ ["constant-before", "before", "after", "constant-after"]
      decide
    · show "constant-after" ∈ ["after", "constant-after"]
      decide

lemma setterInfo_wf_pre (k : SKind) (hk : k = .constantBefore ∨ k = .setterBefore)
    (cls label : String) (v : JVal) :
    setterTraceWF (setterInfo k cls label v .undef) := by
  rcases hk with h | h <;> subst h
  · refine ⟨?_, rfl, rfl, rfl, fun hres => by simp [setterInfo] at hres⟩
    show "constant-before" ∈ ["constant-before", "setter-before", "setter-after", "constant-after"]
    decide
  · refine ⟨?_, rfl, rfl, rfl, fun hres => by simp [setterInfo] at hres⟩
    show "setter-before" ∈ ["constant-before", "setter-before", "setter-after", "constant-after"]
    decide

lemma setterInfo_wf_post (k : SKind) (hk : k = .setterAfter ∨ k = .constantAfter)
    (cls label : String) (v res : JVal) :
    setterTraceWF (setterInfo k cls label v res) := by
  rcases hk with h | h <;> subst h
  · refine ⟨?_, rfl, rfl, rfl, fun _ => ?_⟩
    · show "setter-after" ∈ ["constant-before", "setter-before", "setter-after", "constant-after"]
      decide
    · show "setter-after" ∈ ["setter-after", "constant-after"]
      decide
  · refine ⟨?_, rfl, rfl, rfl, fun _ => ?_⟩
    · show "constant-after" ∈ ["constant-before", "setter-before", "setter-after", "constant-after"]
      decide
    · show "constant-after" ∈ ["setter-after", "constant-after"]
      decide

lemma protoStage5_traceWF {σ : Type} (spec : MSpec σ) (cls label : String)
    (args : List JVal) (fm : FailureMode) (s : σ) (res : JVal)
    (i : TraceInfo)
    (hi : Ev.traceOut i ∈ (protoStage5 spec cls label args fm s res).2.2) :
    methodTraceWF i := by
  cases hc : spec.constant with
  | none => simp [protoStage5, hc] at hi
  | some c =>
    by_cases h : (c s).settle
    · simp [protoStage5, hc, h] at hi
    · simp [protoStage5, hc, h] at hi
      rw [traceOut_report_mem _ _ _ _ _ _ _ _ hi]
      exact methodInfo_wf_post .constantAfter (Or.inr rfl) cls label args res

lemma protoStage4_traceWF {σ : Type} (spec : MSpec σ) (cls label : String)
    (args : List JVal) (fm : FailureMode) (s : σ) (res : JVal)
    (i : TraceInfo)
    (hi : Ev.traceOut i ∈ (protoStage4 spec cls label args fm s res).2.2) :
    methodTraceWF i := by
  cases ha : spec.after with
  | none =>
    exact protoStage5_traceWF spec cls label args fm s res i
      (by simpa [protoStage4, ha] using hi)
  | some a =>
    by_cases h : (a res args).settle
    · simp [protoStage4, ha, h] at hi
      exact protoStage5_traceWF spec cls label args fm s res i hi
    · simp [protoStage4, ha, h] at hi
      rw [traceOut_report_mem _ _ _ _ _ _ _ _ hi]
      exact methodInfo_wf_post .after (Or.inl rfl) cls label args res

lemma protoStage3_traceWF {σ : Type} (spec : MSpec σ) (op : MethodOp σ)
    (cls label : String) (args : List JVal) (fm : FailureMode) (s : σ)
    (i : TraceInfo)
    (hi : Ev.traceOut i ∈ (protoStage3 spec op cls label args fm s).2.2) :
    methodTraceWF i := by
  simp [protoStage3] at hi
  exact protoStage4_traceWF spec cls label args fm (op args s).1
    (op args s).2.settle i hi

lemma protoStage2_traceWF {σ : Type} (spec : MSpec σ) (op : MethodOp σ)
    (cls label : String) (args : List JVal) (fm : FailureMode) (s : σ)
    (i : TraceInfo)
    (hi : Ev.traceOut i ∈ (protoStage2 spec op cls label args fm s).2.2) :
    methodTraceWF i := by
  cases hb : spec.before with
  | none =>
    exact protoStage3_traceWF spec op cls label args fm s i
      (by simpa [protoStage2, hb] using hi)
  | some b =>
    by_cases h : (b args).settle
    · simp [protoStage2, hb, h] at hi
      exact protoStage3_traceWF spec op cls label args fm s i hi
    · simp [protoStage2, hb, h] at hi
      rw [traceOut_report_mem _ _ _ _ _ _ _ _ hi]
      exact methodInfo_wf_pre .before (Or.inr rfl) cls label args

lemma protoStage1_traceWF {σ : Type} (spec : MSpec σ) (op : MethodOp σ)
    (cls label : String) (args : List JVal) (fm : FailureMode) (s : σ)
    (i : TraceInfo)
    (hi : Ev.traceOut i ∈ (protoStage1 spec op cls label args fm s).2.2) :
    methodTraceWF i := by
  cases hc : spec.constant with
  | none =>
    exact protoStage2_traceWF spec op cls label args fm s i
      (by simpa [protoStage1, hc] using hi)
  | some c =>
    by_cases h : (c s).settle
    · simp [protoStage1, hc, h] at hi
      exact protoStage2_traceWF spec op cls label args fm s i hi
    · simp [protoStage1, hc, h] at hi
      rw [traceOut_report_mem _ _ _ _ _ _ _ _ hi]
      exact methodInfo_wf_pre .constantBefore (Or.inl rfl) cls label args

lemma protoSetterStage5_traceWF {σ : Type} (spec : MSpec σ)
    (cls label : String) (v : JVal) (fm : FailureMode) (s : σ) (res : JVal)
    (i : TraceInfo)
    (hi : Ev.traceOut i ∈ (protoSetterStage5 spec cls label v fm s res).2.2) :
    setterTraceWF i := by
  cases hc : spec.constant with
  | none => simp [protoSetterStage5, hc] at hi
  | some c =>
    by_cases h : (c s).settle
    · simp [protoSetterStage5, hc, h] at hi
    · simp [protoSetterStage5, hc, h] at hi
      rw [traceOut_reportSetter_mem _ _ _ _ _ _ _ _ hi]
      exact setterInfo_wf_post .constantAfter (Or.inr rfl) cls label v res

lemma protoSetterStage4_traceWF {σ : Type} (spec : MSpec σ)
    (cls label : String) (v : JVal) (fm : FailureMode) (s : σ) (res : JVal)
    (i : TraceInfo)
    (hi : Ev.traceOut i ∈ (protoSetterStage4 spec cls label v fm s res).2.2) :
    setterTraceWF i := by
  cases ha : spec.after with
  | none =>
    exact protoSetterStage5_traceWF spec cls label v fm s res i
      (by simpa [protoSetterStage4, ha] using hi)
  | some a =>
    by_cases h : (a res [v]).settle
    · simp [protoSetterStage4, ha, h] at hi
      exact protoSetterStage5_traceWF spec cls label v fm s res i hi
    · simp [protoSetterStage4, ha, h] at hi
      rw [traceOut_reportSetter_mem _ _ _ _ _ _ _ _ hi]
      exact setterInfo_wf_post .setterAfter (Or.inl rfl) cls label v res

lemma protoSetterStage3_traceWF {σ : Type} (spec : MSpec σ) (op : SetterOp σ)
    (cls label : String) (v : JVal) (fm : FailureMode) (s : σ)
    (i : TraceInfo)
    (hi : Ev.traceOut i ∈ (protoSetterStage3 spec op cls label v fm s).2.2) :
    setterTraceWF i := by
  simp [protoSetterStage3] at hi
  exact protoSetterStage4_traceWF spec cls label v fm (op v s).1
    (op v s).2.settle i hi

lemma protoSetterStage2_traceWF {σ : Type} (spec : MSpec σ) (op : SetterOp σ)
    (cls label : String) (v : JVal) (fm : FailureMode) (s : σ)
    (i : TraceInfo)
    (hi : Ev.traceOut i ∈ (protoSetterStage2 spec op cls label v fm s).2.2) :
    setterTraceWF i := by
  cases hb : spec.before with
  | none =>
    exact protoSetterStage3_traceWF spec op cls label v fm s i
      (by simpa [protoSetterStage2, hb] using hi)
  | some b =>
    by_cases h : (b [v]).settle
    · simp [protoSetterStage2, hb, h] at hi
      exact protoSetterStage3_traceWF spec op cls label v fm s i hi
    · simp [protoSetterStage2, hb, h] at hi
      rw [traceOut_reportSetter_mem _ _ _ _ _ _ _ _ hi]
      exact setterInfo_wf_pre .setterBefore (Or.inr rfl) cls label v

lemma protoSetterStage1_traceWF {σ : Type} (spec : MSpec σ) (op : SetterOp σ)
    (cls label : String) (v : JVal) (fm : FailureMode) (s : σ)
    (i : TraceInfo)
    (hi : Ev.traceOut i ∈ (protoSetterStage1 spec op cls label v fm s).2.2) :
    setterTraceWF i := by
  cases hc : spec.constant with
  | none =>
    exact protoSetterStage2_traceWF spec op cls label v fm s i
      (by simpa [protoSetterStage1, hc] using hi)
  | some c =>
    by_cases h : (c s).settle
    · simp [protoSetterStage1, hc, h] at hi
      exact protoSetterStage2_traceWF spec op cls label v fm s i hi
    · simp [protoSetterStage1, hc, h] at hi
      rw [traceOut_reportSetter_mem _ _ _ _ _ _ _ _ hi]
      exact setterInfo_wf_pre .constantBefore (Or.inl rfl) cls label v

lemma constructInstance_traceWF {σ : Type} (constant : σ → PV Bool)
    (t : Option TraceOption) (fo : Option FailureMode) (g : FailureMode)
    (cls : String) (inst : σ) (i : TraceInfo)
    (hi : Ev.traceOut i ∈ (constructInstance constant t fo g cls inst).2) :
    ctorTraceWF i := by
  cases hc : constant inst with
  | async b => simp [constructInstance, hc] at hi
  | sync b =>
    cases b with
    | true => simp [constructInstance, hc] at hi
    | false =>
      by_cases he : traceEnabled t = true <;> cases hfm : fo.getD g <;>
        simp [constructInstance, hc, emitTrace, handleFailureEvs, he, hfm] at hi <;>
        subst hi <;> exact ⟨rfl, rfl, rfl, rfl, rfl⟩


/-- Any trace event of the invariant-after continuation block is a
well-shaped method trace record. -/
lemma runAsyncFrom5_traceWF {σ : Type} (spec : MSpec σ) (cls label : String)
    (args : List JVal) (fm : FailureMode) (s : σ) (res : JVal)
    (initCA : Option (PV Bool)) (i : TraceInfo)
    (hi : Ev.traceOut i ∈
      (runAsyncFrom5 spec cls label args fm s res initCA).2.2) :
    methodTraceWF i := by
  cases hc : spec.constant with
  | none => simp [runAsyncFrom5, hc] at hi
  | some c =>
    cases hca : initCA with
    | some pv =>
      by_cases h : pv.settle
      · simp [runAsyncFrom5, hc, hca, h] at hi
      · simp [runAsyncFrom5, hc, hca, h] at hi
        rw [traceOut_report_mem _ _ _ _ _ _ _ _ hi]
        exact methodInfo_wf_post .constantAfter (Or.inr rfl) cls label args res
    | none =>
      by_cases h : (c s).settle
      · simp [runAsyncFrom5, hc, hca, h] at hi
      · simp [runAsyncFrom5, hc, hca, h] at hi
        rw [traceOut_report_mem _ _ _ _ _ _ _ _ hi]
        exact methodInfo_wf_post .constantAfter (Or.inr rfl) cls label args res

/-- Any trace event of the postcondition continuation block is a
well-shaped method trace record. -/
lemma runAsyncFrom4_traceWF {σ : Type} (spec : MSpec σ) (cls label : String)
    (args : List JVal) (fm : FailureMode) (s : σ) (res : JVal)
    (initAfter initCA : Option (PV Bool)) (i : TraceInfo)
    (hi : Ev.traceOut i ∈
      (runAsyncFrom4 spec cls label args fm s res initAfter initCA).2.2) :
    methodTraceWF i := by
  cases ha : spec.after with
  | none =>
    exact runAsyncFrom5_traceWF spec cls label args fm s res initCA i
      (by simpa [runAsyncFrom4, ha] using hi)
  | some a =>
    cases hia : initAfter with
    | some pv =>
      by_cases h : pv.settle
      · simp [runAsyncFrom4, ha, hia, h] at hi
        exact runAsyncFrom5_traceWF spec cls label args fm s res initCA i hi
      · simp [runAsyncFrom4, ha, hia, h] at hi
        rw [traceOut_report_mem _ _ _ _ _ _ _ _ hi]
        exact methodInfo_wf_post .after (Or.inl rfl) cls label args res
    | none =>
      by_cases h : (a res args).settle
      · simp [runAsyncFrom4, ha, hia, h] at hi
        exact runAsyncFrom5_traceWF spec cls label args fm s res initCA i hi
      · simp [runAsyncFrom4, ha, hia, h] at hi
        rw [traceOut_report_mem _ _ _ _ _ _ _ _ hi]
        exact methodInfo_wf_post .after (Or.inl rfl) cls label args res

/-- Any trace event of the invocation continuation block is a well-shaped
method trace record (also across the nullish re-invocation). -/
lemma runAsyncFrom3_traceWF {σ : Type} (spec : MSpec σ) (op : MethodOp σ)
    (cls label : String) (args : List JVal) (fm : FailureMode) (s : σ)
    (initResult : Option (PV JVal)) (initAfter initCA : Option (PV Bool))
    (i : TraceInfo)
    (hi : Ev.traceOut i ∈
      (runAsyncFrom3 spec op cls label args fm s initResult initAfter initCA).2.2) :
    methodTraceWF i := by
  cases hir : initResult with
  | none =>
    refine runAsyncFrom4_traceWF spec cls label args fm (op args s).1
      (op args s).2.settle initAfter initCA i ?_
    simpa [runAsyncFrom3, hir] using hi
  | some pv =>
    cases pv with
    | async r =>
      refine runAsyncFrom4_traceWF spec cls label args fm s r initAfter initCA i ?_
      simpa [runAsyncFrom3, hir] using hi
    | sync r =>
      by_cases h : r.isNullish = true
      · refine runAsyncFrom4_traceWF spec cls label args fm (op args s).1
          (op args s).2.settle initAfter initCA i ?_
        simpa [runAsyncFrom3, hir, h] using hi
      · refine runAsyncFrom4_traceWF spec cls label args fm s r initAfter initCA i ?_
        simpa [runAsyncFrom3, hir, h] using hi

/-- Any trace event of the precondition continuation block is a
well-shaped method trace record. -/
lemma runAsyncFrom2_traceWF {σ : Type} (spec : MSpec σ) (op : MethodOp σ)
    (cls label : String) (args : List JVal) (fm : FailureMode) (s : σ)
    (initBefore : Option (PV Bool)) (initResult : Option (PV JVal))
    (initAfter initCA : Option (PV Bool)) (i : TraceInfo)
    (hi : Ev.traceOut i ∈
      (runAsyncFrom2 spec op cls label args fm s initBefore initResult initAfter initCA).2.2) :
    methodTraceWF i := by
  cases hb : spec.before with
  | none =>
    exact runAsyncFrom3_traceWF spec op cls label args fm s initResult
      initAfter initCA i (by simpa [runAsyncFrom2, hb] using hi)
  | some b =>
    cases hib : initBefore with
    | some pv =>
      by_cases h : pv.settle
      · simp [runAsyncFrom2, hb, hib, h] at hi
        exact runAsyncFrom3_traceWF spec op cls label args fm s initResult
          initAfter initCA i hi
      · simp [runAsyncFrom2, hb, hib, h] at hi
        rw [traceOut_report_mem _ _ _ _ _ _ _ _ hi]
        exact methodInfo_wf_pre .before (Or.inr rfl) cls label args
    | none =>
      by_cases h : (b args).settle
      · simp [runAsyncFrom2, hb, hib, h] at hi
        exact runAsyncFrom3_traceWF spec op cls label args fm s initResult
          initAfter initCA i hi
      · simp [runAsyncFrom2, hb, hib, h] at hi
        rw [traceOut_report_mem _ _ _ _ _ _ _ _ hi]
        exact methodInfo_wf_pre .before (Or.inr rfl) cls label args

/-- Any trace event of the asynchronous continuation, from any cached
state, is a well-shaped method trace record. -/
lemma runAsyncMethod_traceWF {σ : Type} (spec : MSpec σ) (op : MethodOp σ)
    (cls label : String) (args : List JVal) (fm : FailureMode) (s : σ)
    (initial : AState) (i : TraceInfo)
    (hi : Ev.traceOut i ∈
      (runAsyncMethod spec op cls label args fm s initial).2.2) :
    methodTraceWF i := by
  cases hc : spec.constant with
  | none =>
    exact runAsyncFrom2_traceWF spec op cls label args fm s initial.before
      initial.result initial.after initial.constantAfter i
      (by simpa [runAsyncMethod, hc] using hi)
  | some c =>
    cases hib : initial.constantBefore with
    | some pv =>
      by_cases h : pv.settle
      · simp [runAsyncMethod, hc, hib, h] at hi
        exact runAsyncFrom2_traceWF spec op cls label args fm s initial.before
          initial.result initial.after initial.constantAfter i hi
      · simp [runAsyncMethod, hc, hib, h] at hi
        rw [traceOut_report_mem _ _ _ _ _ _ _ _ hi]
        exact methodInfo_wf_pre .constantBefore (Or.inl rfl) cls label args
    | none =>
      by_cases h : (c s).settle
      · simp [runAsyncMethod, hc, hib, h] at hi
        exact runAsyncFrom2_traceWF spec op cls label args fm s initial.before
          initial.result initial.after initial.constantAfter i hi
      · simp [runAsyncMethod, hc, hib, h] at hi
        rw [traceOut_report_mem _ _ _ _ _ _ _ _ hi]
        exact methodInfo_wf_pre .constantBefore (Or.inl rfl) cls label args

/-- Any trace event of the synchronous invariant-after step is a
well-shaped method trace record. -/
lemma wrapMethodStage5_traceWF {σ : Type} (spec : MSpec σ) (op : MethodOp σ)
    (cls label : String) (args : List JVal) (fm : FailureMode) (s : σ)
    (res : JVal) (i : TraceInfo)
    (hi : Ev.traceOut i ∈
      (wrapMethodStage5 spec op cls label args fm s res).2.2) :
    methodTraceWF i := by
  cases hc : spec.constant with
  | none => simp [wrapMethodStage5, hc] at hi
  | some c =>
    cases hpv : c s with
    | async b =>
      simp [wrapMethodStage5, hc, hpv] at hi
      exact runAsyncMethod_traceWF spec op cls label args fm s _ i hi
    | sync b =>
      cases b
      · simp [wrapMethodStage5, hc, hpv] at hi
        rw [traceOut_report_mem _ _ _ _ _ _ _ _ hi]
        exact methodInfo_wf_post .constantAfter (Or.inr rfl) cls label args res
      · simp [wrapMethodStage5, hc, hpv] at hi

/-- Any trace event of the synchronous postcondition step is a
well-shaped method trace record. -/
lemma wrapMethodStage4_traceWF {σ : Type} (spec : MSpec σ) (op : MethodOp σ)
    (cls label : String) (args : List JVal) (fm : FailureMode) (s : σ)
    (res : JVal) (i : TraceInfo)
    (hi : Ev.traceOut i ∈
      (wrapMethodStage4 spec op cls label args fm s res).2.2) :
    methodTraceWF i := by
  cases ha : spec.after with
  | none =>
    exact wrapMethodStage5_traceWF spec op cls label args fm s res i
      (by simpa [wrapMethodStage4, ha] using hi)
  | some a =>
    cases hpv : a res args with
    | async b =>
      simp [wrapMethodStage4, ha, hpv] at hi
      exact runAsyncMethod_traceWF spec op cls label args fm s _ i hi
    | sync b =>
      cases b
      · simp [wrapMethodStage4, ha, hpv] at hi
        rw [traceOut_report_mem _ _ _ _ _ _ _ _ hi]
        exact methodInfo_wf_post .after (Or.inl rfl) cls label args res
      · simp [wrapMethodStage4, ha, hpv] at hi
        exact wrapMethodStage5_traceWF spec op cls label args fm s res i hi

/-- Any trace event of the synchronous invocation step is a well-shaped
method trace record. -/
lemma wrapMethodStage3_traceWF {σ : Type} (spec : MSpec σ) (op : MethodOp σ)
    (cls label : String) (args : List JVal) (fm : FailureMode) (s : σ)
    (i : TraceInfo)
    (hi : Ev.traceOut i ∈ (wrapMethodStage3 spec op cls label args fm s).2.2) :
    methodTraceWF i := by
  cases hr : (op args s).2 with
  | async res =>
    simp [wrapMethodStage3, hr] at hi
    exact runAsyncMethod_traceWF spec op cls label args fm (op args s).1 _ i hi
  | sync res =>
    simp [wrapMethodStage3, hr] at hi
    exact wrapMethodStage4_traceWF spec op cls label args fm (op args s).1 res i hi

/-- Any trace event of the synchronous precondition step is a well-shaped
method trace record. -/
lemma wrapMethodStage2_traceWF {σ : Type} (spec : MSpec σ) (op : MethodOp σ)
    (cls label : String) (args : List JVal) (fm : FailureMode) (s : σ)
    (i : TraceInfo)
    (hi : Ev.traceOut i ∈ (wrapMethodStage2 spec op cls label args fm s).2.2) :
    methodTraceWF i := by
  cases hb : spec.before with
  | none =>
    exact wrapMethodStage3_traceWF spec op cls label args fm s i
      (by simpa [wrapMethodStage2, hb] using hi)
  | some b =>
    cases hpv : b args with
    | async bb =>
      simp [wrapMethodStage2, hb, hpv] at hi
      exact runAsyncMethod_traceWF spec op cls label args fm s _ i hi
    | sync bb =>
      cases bb
      · simp [wrapMethodStage2, hb, hpv] at hi
        rw [traceOut_report_mem _ _ _ _ _ _ _ _ hi]
        exact methodInfo_wf_pre .before (Or.inr rfl) cls label args
      · simp [wrapMethodStage2, hb, hpv] at hi
        exact wrapMethodStage3_traceWF spec op cls label args fm s i hi

/-- Any trace event of a whole wrapped method invocation — synchronous
path or handed-over continuation — is a well-shaped method trace
record. -/
lemma wrapMethodRun_traceWF {σ : Type} (spec : MSpec σ) (op : MethodOp σ)
    (cls label : String) (args : List JVal) (g : FailureMode) (s : σ)
    (i : TraceInfo)
    (hi : Ev.traceOut i ∈ (wrapMethodRun spec op cls label args g s).2.2) :
    methodTraceWF i := by
  cases hc : spec.constant with
  | none =>
    exact wrapMethodStage2_traceWF spec op cls label args
      (spec.failureMode.getD g) s i (by simpa [wrapMethodRun, hc] using hi)
  | some c =>
    cases hpv : c s with
    | async b =>
      simp [wrapMethodRun, hc, hpv] at hi
      exact runAsyncMethod_traceWF spec op cls label args
        (spec.failureMode.getD g) s _ i hi
    | sync b =>
      cases b
      · simp [wrapMethodRun, hc, hpv] at hi
        rw [traceOut_report_mem _ _ _ _ _ _ _ _ hi]
        exact methodInfo_wf_pre .constantBefore (Or.inl rfl) cls label args
      · simp [wrapMethodRun, hc, hpv] at hi
        exact wrapMethodStage2_traceWF spec op cls label args
          (spec.failureMode.getD g) s i hi

/-- Any trace event of the invariant-after continuation block is a
well-shaped setter trace record. -/
lemma runAsyncSetterFrom5_traceWF {σ : Type} (spec : MSpec σ) (cls label : String)
    (v : JVal) (fm : FailureMode) (s : σ) (res : JVal)
    (initCA : Option (PV Bool)) (i : TraceInfo)
    (hi : Ev.traceOut i ∈
      (runAsyncSetterFrom5 spec cls label v fm s res initCA).2.2) :
    setterTraceWF i := by
  cases hc : spec.constant with
  | none => simp [runAsyncSetterFrom5, hc] at hi
  | some c =>
    cases hca : initCA with
    | some pv =>
      by_cases h : pv.settle
      · simp [runAsyncSetterFrom5, hc, hca, h] at hi
      · simp [runAsyncSetterFrom5, hc, hca, h] at hi
        rw [traceOut_reportSetter_mem _ _ _ _ _ _ _ _ hi]
        exact setterInfo_wf_post .constantAfter (Or.inr rfl) cls label v res
    | none =>
      by_cases h : (c s).settle
      · simp [runAsyncSetterFrom5, hc, hca, h] at hi
      · simp [runAsyncSetterFrom5, hc, hca, h] at hi
        rw [traceOut_reportSetter_mem _ _ _ _ _ _ _ _ hi]
        exact setterInfo_wf_post .constantAfter (Or.inr rfl) cls label v res

/-- Any trace event of the postcondition continuation block is a
well-shaped setter trace record. -/
lemma runAsyncSetterFrom4_traceWF {σ : Type} (spec : MSpec σ) (cls label : String)
    (v : JVal) (fm : FailureMode) (s : σ) (res : JVal)
    (initAfter initCA : Option (PV Bool)) (i : TraceInfo)
    (hi : Ev.traceOut i ∈
      (runAsyncSetterFrom4 spec cls label v fm s res initAfter initCA).2.2) :
    setterTraceWF i := by
  cases ha : spec.after with
  | none =>
    exact runAsyncSetterFrom5_traceWF spec cls label v fm s res initCA i
      (by simpa [runAsyncSetterFrom4, ha] using hi)
  | some a =>
    cases hia : initAfter with
    | some pv =>
      by_cases h : pv.settle
      · simp [runAsyncSetterFrom4, ha, hia, h] at hi
        exact runAsyncSetterFrom5_traceWF spec cls label v fm s res initCA i hi
      · simp [runAsyncSetterFrom4, ha, hia, h] at hi
        rw [traceOut_reportSetter_mem _ _ _ _ _ _ _ _ hi]
        exact setterInfo_wf_post .setterAfter (Or.inl rfl) cls label v res
    | none =>
      by_cases h : (a res [v]).settle
      · simp [runAsyncSetterFrom4, ha, hia, h] at hi
        exact runAsyncSetterFrom5_traceWF spec cls label v fm s res initCA i hi
      · simp [runAsyncSetterFrom4, ha, hia, h] at hi
        rw [traceOut_reportSetter_mem _ _ _ _ _ _ _ _ hi]
        exact setterInfo_wf_post .setterAfter (Or.inl rfl) cls label v res

/-- Any trace event of the invocation continuation block is a well-shaped
setter trace record (also across the nullish re-invocation). -/
lemma runAsyncSetterFrom3_traceWF {σ : Type} (spec : MSpec σ) (op : SetterOp σ)
    (cls label : String) (v : JVal) (fm : FailureMode) (s : σ)
    (initResult : Option (PV JVal)) (initAfter initCA : Option (PV Bool))
    (i : TraceInfo)
    (hi : Ev.traceOut i ∈
      (runAsyncSetterFrom3 spec op cls label v fm s initResult initAfter initCA).2.2) :
    setterTraceWF i := by
  cases hir : initResult with
  | none =>
    refine runAsyncSetterFrom4_traceWF spec cls label v fm (op v s).1
      (op v s).2.settle initAfter initCA i ?_
    simpa [runAsyncSetterFrom3, hir] using hi
  | some pv =>
    cases pv with
    | async r =>
      refine runAsyncSetterFrom4_traceWF spec cls label v fm s r initAfter initCA i ?_
      simpa [runAsyncSetterFrom3, hir] using hi
    | sync r =>
      by_cases h : r.isNullish = true
      · refine runAsyncSetterFrom4_traceWF spec cls label v fm (op v s).1
          (op v s).2.settle initAfter initCA i ?_
        simpa [runAsyncSetterFrom3, hir, h] using hi
      · refine runAsyncSetterFrom4_traceWF spec cls label v fm s r initAfter initCA i ?_
        simpa [runAsyncSetterFrom3, hir, h] using hi

/-- Any trace event of the precondition continuation block is a
well-shaped setter trace record. -/
lemma runAsyncSetterFrom2_traceWF {σ : Type} (spec : MSpec σ) (op : SetterOp σ)
    (cls label : String) (v : JVal) (fm : FailureMode) (s : σ)
    (initBefore : Option (PV Bool)) (initResult : Option (PV JVal))
    (initAfter initCA : Option (PV Bool)) (i : TraceInfo)
    (hi : Ev.traceOut i ∈
      (runAsyncSetterFrom2 spec op cls label v fm s initBefore initResult initAfter initCA).2.2) :
    setterTraceWF i := by
  cases hb : spec.before with
  | none =>
    exact runAsyncSetterFrom3_traceWF spec op cls label v fm s initResult
      initAfter initCA i (by simpa [runAsyncSetterFrom2, hb] using hi)
  | some b =>
    cases hib : initBefore with
    | some pv =>
      by_cases h : pv.settle
      · simp [runAsyncSetterFrom2, hb, hib, h] at hi
        exact runAsyncSetterFrom3_traceWF spec op cls label v fm s initResult
          initAfter initCA i hi
      · simp [runAsyncSetterFrom2, hb, hib, h] at hi
        rw [traceOut_reportSetter_mem _ _ _ _ _ _ _ _ hi]
        exact setterInfo_wf_pre .setterBefore (Or.inr rfl) cls label v
    | none =>
      by_cases h : (b [v]).settle
      · simp [runAsyncSetterFrom2, hb, hib, h] at hi
        exact runAsyncSetterFrom3_traceWF spec op cls label v fm s initResult
          initAfter initCA i hi
      · simp [runAsyncSetterFrom2, hb, hib, h] at hi
        rw [traceOut_reportSetter_mem _ _ _ _ _ _ _ _ hi]
        exact setterInfo_wf_pre .setterBefore (Or.inr rfl) cls label v

/-- Any trace event of the asynchronous continuation, from any cached
state, is a well-shaped setter trace record. -/
lemma runAsyncSetter_traceWF {σ : Type} (spec : MSpec σ) (op : SetterOp σ)
    (cls label : String) (v : JVal) (fm : FailureMode) (s : σ)
    (initial : AState) (i : TraceInfo)
    (hi : Ev.traceOut i ∈
      (runAsyncSetter spec op cls label v fm s initial).2.2) :
    setterTraceWF i := by
  cases hc : spec.constant with
  | none =>
    exact runAsyncSetterFrom2_traceWF spec op cls label v fm s initial.before
      initial.result initial.after initial.constantAfter i
      (by simpa [runAsyncSetter, hc] using hi)
  | some c =>
    cases hib : initial.constantBefore with
    | some pv =>
      by_cases h : pv.settle
      · simp [runAsyncSetter, hc, hib, h] at hi
        exact runAsyncSetterFrom2_traceWF spec op cls label v fm s initial.before
          initial.result initial.after initial.constantAfter i hi
      · simp [runAsyncSetter, hc, hib, h] at hi
        rw [traceOut_reportSetter_mem _ _ _ _ _ _ _ _ hi]
        exact setterInfo_wf_pre .constantBefore (Or.inl rfl) cls label v
    | none =>
      by_cases h : (c s).settle
      · simp [runAsyncSetter, hc, hib, h] at hi
        exact runAsyncSetterFrom2_traceWF spec op cls label v fm s initial.before
          initial.result initial.after initial.constantAfter i hi
      · simp [runAsyncSetter, hc, hib, h] at hi
        rw [traceOut_reportSetter_mem _ _ _ _ _ _ _ _ hi]
        exact setterInfo_wf_pre .constantBefore (Or.inl rfl) cls label v

/-- Any trace event of the synchronous invariant-after step is a
well-shaped setter trace record. -/
lemma wrapSetterStage5_traceWF {σ : Type} (spec : MSpec σ) (op : SetterOp σ)
    (cls label : String) (v : JVal) (fm : FailureMode) (s : σ)
    (res : JVal) (i : TraceInfo)
    (hi : Ev.traceOut i ∈
      (wrapSetterStage5 spec op cls label v fm s res).2.2) :
    setterTraceWF i := by
  cases hc : spec.constant with
  | none => simp [wrapSetterStage5, hc] at hi
  | some c =>
    cases hpv : c s with
    | async b =>
      simp [wrapSetterStage5, hc, hpv] at hi
      exact runAsyncSetter_traceWF spec op cls label v fm s _ i hi
    | sync b =>
      cases b
      · simp [wrapSetterStage5, hc, hpv] at hi
        rw [traceOut_reportSetter_mem _ _ _ _ _ _ _ _ hi]
        exact setterInfo_wf_post .constantAfter (Or.inr rfl) cls label v res
      · simp [wrapSetterStage5, hc, hpv] at hi

/-- Any trace event of the synchronous postcondition step is a
well-shaped setter trace record. -/
lemma wrapSetterStage4_traceWF {σ : Type} (spec : MSpec σ) (op : SetterOp σ)
    (cls label : String) (v : JVal) (fm : FailureMode) (s : σ)
    (res : JVal) (i : TraceInfo)
    (hi : Ev.traceOut i ∈
      (wrapSetterStage4 spec op cls label v fm s res).2.2) :
    setterTraceWF i := by
  cases ha : spec.after with
  | none =>
    exact wrapSetterStage5_traceWF spec op cls label v fm s res i
      (by simpa [wrapSetterStage4, ha] using hi)
  | some a =>
    cases hpv : a res [v] with
    | async b =>
      simp [wrapSetterStage4, ha, hpv] at hi
      exact runAsyncSetter_traceWF spec op cls label v fm s _ i hi
    | sync b =>
      cases b
      · simp [wrapSetterStage4, ha, hpv] at hi
        rw [traceOut_reportSetter_mem _ _ _ _ _ _ _ _ hi]
        exact setterInfo_wf_post .setterAfter (Or.inl rfl) cls label v res
      · simp [wrapSetterStage4, ha, hpv] at hi
        exact wrapSetterStage5_traceWF spec op cls label v fm s res i hi

/-- Any trace event of the synchronous invocation step is a well-shaped
setter trace record. -/
lemma wrapSetterStage3_traceWF {σ : Type} (spec : MSpec σ) (op : SetterOp σ)
    (cls label : String) (v : JVal) (fm : FailureMode) (s : σ)
    (i : TraceInfo)
    (hi : Ev.traceOut i ∈ (wrapSetterStage3 spec op cls label v fm s).2.2) :
    setterTraceWF i := by
  cases hr : (op v s).2 with
  | async res =>
    simp [wrapSetterStage3, hr] at hi
    exact runAsyncSetter_traceWF spec op cls label v fm (op v s).1 _ i hi
  | sync res =>
    simp [wrapSetterStage3, hr] at hi
    exact wrapSetterStage4_traceWF spec op cls label v fm (op v s).1 res i hi

/-- Any trace event of the synchronous precondition step is a well-shaped
setter trace record. -/
lemma wrapSetterStage2_traceWF {σ : Type} (spec : MSpec σ) (op : SetterOp σ)
    (cls label : String) (v : JVal) (fm : FailureMode) (s : σ)
    (i : TraceInfo)
    (hi : Ev.traceOut i ∈ (wrapSetterStage2 spec op cls label v fm s).2.2) :
    setterTraceWF i := by
  cases hb : spec.before with
  | none =>
    exact wrapSetterStage3_traceWF spec op cls label v fm s i
      (by simpa [wrapSetterStage2, hb] using hi)
  | some b =>
    cases hpv : b [v] with
    | async bb =>
      simp [wrapSetterStage2, hb, hpv] at hi
      exact runAsyncSetter_traceWF spec op cls label v fm s _ i hi
    | sync bb =>
      cases bb
      · simp [wrapSetterStage2, hb, hpv] at hi
        rw [traceOut_reportSetter_mem _ _ _ _ _ _ _ _ hi]
        exact setterInfo_wf_pre .setterBefore (Or.inr rfl) cls label v
      · simp [wrapSetterStage2, hb, hpv] at hi
        exact wrapSetterStage3_traceWF spec op cls label v fm s i hi

/-- Any trace event of a whole wrapped setter invocation — synchronous
path or handed-over continuation — is a well-shaped setter trace
record. -/
lemma wrapSetterRun_traceWF {σ : Type} (spec : MSpec σ) (op : SetterOp σ)
    (cls label : String) (v : JVal) (g : FailureMode) (s : σ)
    (i : TraceInfo)
    (hi : Ev.traceOut i ∈ (wrapSetterRun spec op cls label v g s).2.2) :
    setterTraceWF i := by
  cases hc : spec.constant with
  | none =>
    exact wrapSetterStage2_traceWF spec op cls label v
      (spec.failureMode.getD g) s i (by simpa [wrapSetterRun, hc] using hi)
  | some c =>
    cases hpv : c s with
    | async b =>
      simp [wrapSetterRun, hc, hpv] at hi
      exact runAsyncSetter_traceWF spec op cls label v
        (spec.failureMode.getD g) s _ i hi
    | sync b =>
      cases b
      · simp [wrapSetterRun, hc, hpv] at hi
        rw [traceOut_reportSetter_mem _ _ _ _ _ _ _ _ hi]
        exact setterInfo_wf_pre .constantBefore (Or.inl rfl) cls label v
      · simp [wrapSetterRun, hc, hpv] at hi
        exact wrapSetterStage2_traceWF spec op cls label v
          (spec.failureMode.getD g) s i hi

/-- C8 counterexample: a failing invariant-before emits a trace event of
kind `constant-before`, which is not in the kind set the claim names
(`invariant-before`, `precondition`, `postcondition`, `invariant-after`,
`invariant-constructor`); moreover the constructor check's event carries
only `kind` and `class`, no `name` and no `args`/`value`. -/
theorem alwaysC8_counterexample :
    Ev.traceOut (methodInfo .constantBefore "C" "m" [] .undef) ∈
      (wrapMethodRun c8spec (fun _ s => (s, PV.sync .undef)) "C" "m" []
        FailureMode.log 0).2.2 ∧
    (methodInfo .constantBefore "C" "m" [] .undef).kind ∉ claimedKinds ∧
    Ev.traceOut (ctorInfo "C") ∈
      (constructInstance (fun (_ : Int) => PV.sync false) none none
        FailureMode.log "C" 0).2 ∧
    (ctorInfo "C").kind ∉ claimedKinds := by
  exact ⟨by decide, by decide, by decide, by decide⟩

/-- C8 (amended): every trace event emitted by a wrapped method invocation
has kind in `{constant-before, before, after, constant-after}` and carries
`class`, `name` and `args` (never `value`), with `result` present only for
the after kinds; every event of a wrapped setter invocation has kind in
`{constant-before, setter-before, setter-after, constant-after}` with
`value` instead of `args`; and the constructor check emits kind
`constant-constructor` with only `kind` and `class`. -/
theorem alwaysC8 {σ : Type} (spec : MSpec σ) (op : MethodOp σ)
    (sop : SetterOp σ) (constant : σ → PV Bool) (t : Option TraceOption)
    (fo : Option FailureMode) (cls label : String) (args : List JVal)
    (v : JVal) (g : FailureMode) (s s2 s3 : σ) (i : TraceInfo) :
    (Ev.traceOut i ∈ (wrapMethodRun spec op cls label args g s).2.2 →
      methodTraceWF i) ∧
    (Ev.traceOut i ∈ (wrapSetterRun spec sop cls label v g s2).2.2 →
      setterTraceWF i) ∧
    (Ev.traceOut i ∈ (constructInstance constant t fo g cls s3).2 →
      ctorTraceWF i) := by
  refine ⟨?_, ?_, ?_⟩
  · exact wrapMethodRun_traceWF spec op cls label args g s i
  · exact wrapSetterRun_traceWF spec sop cls label v g s2 i
  · exact constructInstance_traceWF constant t fo g cls s3 i

/-- C8 witness: the concrete failing-invariant run's emitted event is
well-shaped, via the amended theorem. -/
theorem alwaysC8_witness :
    methodTraceWF (methodInfo .constantBefore "C" "m" [] .undef) :=
  (alwaysC8 c8spec (fun _ s => (s, PV.sync .undef))
      (fun _ s => (s, PV.sync .undef)) (fun _ => PV.sync false) none none
      "C" "m" [] JVal.undef FailureMode.log 0 0 0
      (methodInfo .constantBefore "C" "m" [] .undef)).1 (by decide)

end Always
